import Mathlib

/-!
# Google Air Quality MCP server: capability layer

A shallow embedding of the tool handlers (`internal/capabilities/tools`), the
resource handlers (`internal/capabilities/resources`) and the provider client
(`tools/client.go`), with the standard-library routines they rely on
(`strings`, `strconv.Atoi`, `encoding/json` struct decoding).

Conventions.
* A Go `string` is a list of characters (`GoString`).
* A Go `error` is represented by its message, the value of `Error()`.
* A Go `(ptr, error)` return is a pair of options: `none` is `nil`.
* Go `int` is 64 bits wide.
* The network, the float routines of `strconv` and the response codecs are
  parameters, collected in `Env`; handlers also return the provider calls and
  HTTP requests they made.
-/

namespace AirQuality

/-- A Go string: a sequence of characters. -/
abbrev GoString := List Char

/-- Equality of `Except` values is decidable when it is for both components. -/
instance instDecidableEqExcept {ε α : Type} [DecidableEq ε] [DecidableEq α] :
    DecidableEq (Except ε α) := fun a b =>
  match a, b with
  | .ok x, .ok y => if h : x = y then isTrue (by rw [h]) else isFalse (fun e => h (by cases e; rfl))
  | .error x, .error y =>
    if h : x = y then isTrue (by rw [h]) else isFalse (fun e => h (by cases e; rfl))
  | .ok _, .error _ => isFalse (fun e => by cases e)
  | .error _, .ok _ => isFalse (fun e => by cases e)

/-! ## Package `strings` -/

namespace strings

/-- `strings.HasPrefix(s, p)`. -/
def HasPrefix (s p : GoString) : Bool := p.isPrefixOf s

/-- `strings.TrimPrefix(s, p)`: `s` without the leading `p`, or `s` itself. -/
def TrimPrefix (s p : GoString) : GoString :=
  if HasPrefix s p then s.drop p.length else s

/-- `strings.Split(s, sep)` for a one-character separator: the pieces between
consecutive occurrences of `sep`; always at least one piece. -/
def Split (sep : Char) : GoString → List GoString
  | [] => [[]]
  | c :: cs =>
    if c = sep then [] :: Split sep cs
    else
      match Split sep cs with
      | [] => [[c]]
      | p :: ps => (c :: p) :: ps

/-- `unicode.IsSpace`: the Latin-1 spaces and the other code points with the
White_Space property. -/
def IsSpace (c : Char) : Bool :=
  let n := c.toNat
  (9 ≤ n && n ≤ 13) || n = 0x20 || n = 0x85 || n = 0xA0 || n = 0x1680 ||
  (0x2000 ≤ n && n ≤ 0x200A) || n = 0x2028 || n = 0x2029 || n = 0x202F ||
  n = 0x205F || n = 0x3000

/-- `strings.TrimSpace(s)`: drop leading and trailing white space. -/
def TrimSpace (s : GoString) : GoString :=
  ((s.dropWhile IsSpace).reverse.dropWhile IsSpace).reverse

end strings

/-! ## Package `strconv` -/

namespace strconv

/-- The two sentinel errors `strconv.ErrSyntax` and `strconv.ErrRange`. -/
inductive ErrKind
  | ErrSyntax
  | ErrRange
  deriving DecidableEq, Repr

/-- `*strconv.NumError`: the failing function, the input and the cause. -/
structure NumError where
  Func : GoString
  Num : GoString
  Err : ErrKind
  deriving DecidableEq, Repr

/-- The text of the sentinel errors. -/
def ErrKind.Error : ErrKind → GoString
  | .ErrSyntax => "invalid syntax".toList
  | .ErrRange => "value out of range".toList

/-- `(*NumError).Error()`; `quote` is `strconv.Quote`. -/
def NumError.Error (quote : GoString → GoString) (e : NumError) : GoString :=
  "strconv.".toList ++ e.Func ++ ": parsing ".toList ++ quote e.Num ++ ": ".toList ++ e.Err.Error

def syntaxError (fn str : GoString) : NumError := ⟨fn, str, .ErrSyntax⟩

def rangeError (fn str : GoString) : NumError := ⟨fn, str, .ErrRange⟩

/-- `len(s)`: the number of bytes of the UTF-8 encoding. -/
def byteLen (s : GoString) : Nat := (s.map Char.utf8Size).sum

/-- The byte test `'0' <= c && c <= '9'`. -/
def isDigit (c : Char) : Bool := 48 ≤ c.toNat && c.toNat ≤ 57

/-- The value `c - '0'` of a digit. -/
def digitVal (c : Char) : Nat := c.toNat - 48

def maxUint64 : Nat := 2 ^ 64 - 1

/-- The digit loop of `ParseUint` for base 10 and 64 bits: a non-digit is a
syntax error, an overflow of `n*10` or of `n*10 + d` a range error. -/
def parseUintLoop (s0 : GoString) : GoString → Nat → Except NumError Nat
  | [], n => .ok n
  | c :: cs, n =>
    if !isDigit c then .error (syntaxError "ParseUint".toList s0)
    else if n ≥ maxUint64 / 10 + 1 then .error (rangeError "ParseUint".toList s0)
    else
      let n10 := n * 10
      let n1 := (n10 + digitVal c) % 2 ^ 64
      if n1 < n10 ∨ n1 > maxUint64 then .error (rangeError "ParseUint".toList s0)
      else parseUintLoop s0 cs n1

/-- `strconv.ParseUint(s, 10, 0)`. -/
def ParseUint (s : GoString) : Except NumError Nat :=
  if s = [] then .error (syntaxError "ParseUint".toList s)
  else parseUintLoop s s 0

/-- `strconv.ParseInt(s, 10, 0)`: a range error of `ParseUint` carries the
value `maxUint64`, which the cutoff test below turns into a range error. -/
def ParseInt (s : GoString) : Except NumError Int :=
  match s with
  | [] => .error (syntaxError "ParseInt".toList s)
  | c :: rest =>
    let neg := c = '-'
    let body := if c = '+' ∨ c = '-' then rest else s
    let un : Except NumError Nat :=
      match ParseUint body with
      | .ok n => .ok n
      | .error e => if e.Err = .ErrRange then .ok maxUint64 else .error e
    match un with
    | .error _ => .error (syntaxError "ParseInt".toList s)
    | .ok n =>
      let cutoff := 2 ^ 63
      if !neg ∧ n ≥ cutoff then .error (rangeError "ParseInt".toList s)
      else if neg ∧ n > cutoff then .error (rangeError "ParseInt".toList s)
      else .ok (if neg then -(n : Int) else (n : Int))

/-- The digit loop of the fast path of `Atoi`. -/
def atoiLoop : GoString → Nat → Option Nat
  | [], n => some n
  | c :: cs, n => if isDigit c then atoiLoop cs (n * 10 + digitVal c) else none

/-- `strconv.Atoi(s)`: inputs of 1 to 18 bytes take the fast path, the others
go through `ParseInt`, whose error is relabelled with `Atoi`. -/
def Atoi (s : GoString) : Except NumError Int :=
  if 0 < byteLen s ∧ byteLen s < 19 then
    match s with
    | [] => .error (syntaxError "Atoi".toList s)
    | c :: rest =>
      let body := if c = '-' ∨ c = '+' then rest else s
      if body.length < 1 then .error (syntaxError "Atoi".toList s)
      else
        match atoiLoop body 0 with
        | none => .error (syntaxError "Atoi".toList s)
        | some n => .ok (if c = '-' then -(n : Int) else (n : Int))
  else
    match ParseInt s with
    | .ok i => .ok i
    | .error e => .error { e with Func := "Atoi".toList }

/-- The digit `'0' + d`. -/
def digitChar (d : Nat) : Char := Char.ofNat (48 + d)

/-- The loop of `formatBits` in base 10: the digits of `u` are put in front of
`acc`, least significant first; `fuel` bounds the number of digits. -/
def formatBits : Nat → Nat → GoString → GoString
  | 0, _, acc => acc
  | fuel + 1, u, acc =>
    if u < 10 then digitChar u :: acc
    else formatBits fuel (u / 10) (digitChar (u % 10) :: acc)

/-- `strconv.Itoa(i)`, the text `%d` prints: an optional `-` and the decimal
digits of the magnitude. -/
def Itoa (i : Int) : GoString :=
  if i < 0 then '-' :: formatBits (i.natAbs + 1) i.natAbs []
  else formatBits (i.natAbs + 1) i.natAbs []

end strconv

/-! ## Values: floats, bytes, JSON -/

/-- A Go `float64`, given by its IEEE 754 bit pattern. Its arithmetic is not
modelled; parsing and printing are parameters (see `Env`). -/
structure Float64 where
  bits : Nat
  deriving DecidableEq, Repr

/-- A Go `float32`, given by its bit pattern. -/
structure Float32 where
  bits : Nat
  deriving DecidableEq, Repr

/-- The zero value `0.0`. -/
def Float64.zero : Float64 := ⟨0⟩

/-- A Go `[]byte`. -/
abbrev Bytes := List (Fin 256)

/-- A JSON text, up to white space and string escapes. A number is kept as
its literal, which is what the decoder hands to `strconv`. -/
inductive Json where
  | null
  | bool (b : Bool)
  | num (lit : GoString)
  | str (s : GoString)
  | arr (xs : List Json)
  | obj (kvs : List (GoString × Json))

/-! ## `tools/types.go` -/

/-- LatLng represents a geographic location with latitude and longitude. -/
structure LatLng where
  Latitude : Float64
  Longitude : Float64
  deriving DecidableEq, Repr

abbrev ExtraComputation := GoString

abbrev ColorPalette := GoString

/-- MapType represents the type of air quality heatmap. -/
abbrev MapType := GoString

def MapTypeUAQIRedGreen : MapType := "UAQI_RED_GREEN".toList
def MapTypeUAQIIndigoPersian : MapType := "UAQI_INDIGO_PERSIAN".toList
def MapTypePM25IndigoPersian : MapType := "PM25_INDIGO_PERSIAN".toList
def MapTypeGBRDefra : MapType := "GBR_DEFRA".toList
def MapTypeDEUUba : MapType := "DEU_UBA".toList
def MapTypeCANEc : MapType := "CAN_EC".toList
def MapTypeFRAAtmo : MapType := "FRA_ATMO".toList
def MapTypeUSAQI : MapType := "US_AQI".toList

/-- The eight `MapType` constants, in the order of their declaration. -/
def mapTypeConstants : List MapType :=
  [MapTypeUAQIRedGreen, MapTypeUAQIIndigoPersian, MapTypePM25IndigoPersian, MapTypeGBRDefra,
   MapTypeDEUUba, MapTypeCANEc, MapTypeFRAAtmo, MapTypeUSAQI]

structure CustomLocalAqi where
  RegionCode : GoString
  Aqi : GoString
  deriving DecidableEq, Repr

/-- Interval represents a time period. -/
structure Interval where
  StartTime : GoString
  EndTime : GoString
  deriving DecidableEq, Repr

/-- Request of the current conditions lookup. A nil slice and an empty one are
both `[]`: the code only ranges over request slices and `omitempty` drops both.
`UniversalAqi` is a `*bool`. -/
structure CurrentConditionsRequest where
  Location : LatLng
  ExtraComputations : List ExtraComputation := []
  UaqiColorPalette : ColorPalette := []
  CustomLocalAqis : List CustomLocalAqi := []
  UniversalAqi : Option Bool := none
  LanguageCode : GoString := []
  deriving DecidableEq, Repr

structure ForecastRequest where
  Location : LatLng
  ExtraComputations : List ExtraComputation := []
  UaqiColorPalette : ColorPalette := []
  CustomLocalAqis : List CustomLocalAqi := []
  PageSize : Int := 0
  PageToken : GoString := []
  DateTime : GoString := []
  Period : Option Interval := none
  UniversalAqi : Option Bool := none
  LanguageCode : GoString := []
  deriving DecidableEq, Repr

structure HistoryRequest where
  PageSize : Int := 0
  PageToken : GoString := []
  Location : LatLng
  ExtraComputations : List ExtraComputation := []
  UaqiColorPalette : ColorPalette := []
  CustomLocalAqis : List CustomLocalAqi := []
  DateTime : GoString := []
  Hours : Int := 0
  Period : Option Interval := none
  UniversalAqi : Option Bool := none
  LanguageCode : GoString := []
  deriving DecidableEq, Repr

/-- Color represents an RGB color. -/
structure Color where
  Red : Float32
  Green : Float32
  Blue : Float32
  Alpha : Float32
  deriving DecidableEq, Repr

/-- AQI represents an Air Quality Index. -/
structure AQI where
  Code : GoString
  DisplayName : GoString
  Aqi : Int
  AqiDisplay : GoString
  Color : Option Color
  Category : GoString
  deriving DecidableEq, Repr

structure Concentration where
  Value : Float64
  Units : GoString
  deriving DecidableEq, Repr

structure Pollutant where
  Code : GoString
  DisplayName : GoString
  FullName : GoString
  Concentration : Option Concentration
  AdditionalInfo : GoString
  deriving DecidableEq, Repr

structure HealthRecommendations where
  GeneralPopulation : GoString
  Elderly : GoString
  LungDiseasePopulation : GoString
  HeartDiseasePopulation : GoString
  Athletes : GoString
  PregnantWomen : GoString
  Children : GoString
  deriving DecidableEq, Repr

/-- Response of the current conditions lookup. In responses a nil slice is
`none` and a non-nil one `some`, the distinction `reflect.DeepEqual` makes. -/
structure CurrentConditionsResponse where
  DateTime : GoString
  RegionCode : GoString
  Indexes : Option (List AQI)
  Pollutants : Option (List Pollutant)
  HealthRecommendations : Option HealthRecommendations
  deriving DecidableEq, Repr

structure HourlyForecast where
  DateTime : GoString
  Indexes : Option (List AQI)
  Pollutants : Option (List Pollutant)
  HealthRecommendations : Option HealthRecommendations
  deriving DecidableEq, Repr

structure ForecastResponse where
  RegionCode : GoString
  HourlyForecasts : Option (List HourlyForecast)
  NextPageToken : GoString
  deriving DecidableEq, Repr

structure HourInfo where
  DateTime : GoString
  Indexes : Option (List AQI)
  Pollutants : Option (List Pollutant)
  HealthRecommendations : Option HealthRecommendations
  deriving DecidableEq, Repr

structure HistoryResponse where
  RegionCode : GoString
  HoursInfo : Option (List HourInfo)
  NextPageToken : GoString
  deriving DecidableEq, Repr

/-! ## Bytes and text -/

namespace utf8

/-- Is `b` a continuation byte within `[lo, hi]`? -/
def inRange (lo hi : Nat) (b : Fin 256) : Bool := lo ≤ b.val && b.val ≤ hi

/-- `utf8.DecodeRune`: the first code point of `p` and its width in bytes; an
invalid or short encoding yields U+FFFD and width 1. -/
def DecodeRune (p : Bytes) : Char × Nat :=
  let bad : Char × Nat := (Char.ofNat 0xFFFD, 1)
  match p with
  | [] => bad
  | b0 :: rest =>
    let x := b0.val
    if x < 0x80 then (Char.ofNat x, 1)
    else if 0xC2 ≤ x ∧ x ≤ 0xDF then
      match rest with
      | b1 :: _ =>
        if inRange 0x80 0xBF b1 then (Char.ofNat ((x % 32) * 64 + b1.val % 64), 2) else bad
      | _ => bad
    else if 0xE0 ≤ x ∧ x ≤ 0xEF then
      match rest with
      | b1 :: b2 :: _ =>
        let lo := if x = 0xE0 then 0xA0 else 0x80
        let hi := if x = 0xED then 0x9F else 0xBF
        if inRange lo hi b1 ∧ inRange 0x80 0xBF b2 then
          (Char.ofNat ((x % 16) * 4096 + (b1.val % 64) * 64 + b2.val % 64), 3)
        else bad
      | _ => bad
    else if 0xF0 ≤ x ∧ x ≤ 0xF4 then
      match rest with
      | b1 :: b2 :: b3 :: _ =>
        let lo := if x = 0xF0 then 0x90 else 0x80
        let hi := if x = 0xF4 then 0x8F else 0xBF
        if inRange lo hi b1 ∧ inRange 0x80 0xBF b2 ∧ inRange 0x80 0xBF b3 then
          (Char.ofNat ((x % 8) * 262144 + (b1.val % 64) * 4096 + (b2.val % 64) * 64
            + b3.val % 64), 4)
        else bad
      | _ => bad
    else bad

/-- Decode at most `fuel` code points of `p`. -/
def decodeLoop : Nat → Bytes → GoString
  | 0, _ => []
  | fuel + 1, p =>
    match p with
    | [] => []
    | _ :: _ => (DecodeRune p).1 :: decodeLoop fuel (p.drop (DecodeRune p).2)

end utf8

/-- The conversion `string(b)` read as text: the code points of `b`, an
invalid byte showing as U+FFFD. -/
def Bytes.toGoString (b : Bytes) : GoString := utf8.decodeLoop b.length b

namespace base64

/-- The alphabet of `base64.StdEncoding`. -/
def encodeStd : GoString :=
  "ABCDEFGHIJKLMNOPQRSTUVWXYZabcdefghijklmnopqrstuvwxyz0123456789+/".toList

/-- The character of a 6-bit value. -/
def encodeChar (v : Nat) : Char := encodeStd.getD (v % 64) 'A'

/-- `base64.StdEncoding.EncodeToString(src)`: three bytes give four characters;
a rest of one or two bytes is padded with `=`. -/
def EncodeToString : Bytes → GoString
  | [] => []
  | [a] =>
    let val := a.val * 65536
    [encodeChar (val / 262144), encodeChar (val / 4096), '=', '=']
  | [a, b] =>
    let val := a.val * 65536 + b.val * 256
    [encodeChar (val / 262144), encodeChar (val / 4096), encodeChar (val / 64), '=']
  | a :: b :: c :: rest =>
    let val := a.val * 65536 + b.val * 256 + c.val
    encodeChar (val / 262144) :: encodeChar (val / 4096) :: encodeChar (val / 64) ::
      encodeChar val :: EncodeToString rest

end base64

/-! ## The world outside: HTTP and library parameters -/

/-- An outgoing HTTP request. The body of a POST is the JSON value that
`json.Marshal` wrote. -/
structure HttpRequest where
  Method : GoString
  URL : GoString
  ContentType : Option GoString
  Body : Option Json

/-- What an HTTP exchange comes to. -/
inductive HttpOutcome where
  /-- The client returned an error: nothing usable came back. -/
  | transportError (err : GoString)
  /-- A response arrived but reading its body failed after `partialBody`. -/
  | readError (StatusCode : Int) (partialBody : Bytes) (err : GoString)
  /-- A response with its whole body. -/
  | response (StatusCode : Int) (Body : Bytes)

/-- The routines the code calls but does not define. -/
structure Env where
  /-- `strconv.ParseFloat(s, 64)`. -/
  ParseFloat : GoString → Except strconv.NumError Float64
  /-- `strconv.Quote`, used in the text of a `NumError`. -/
  Quote : GoString → GoString
  /-- The float encoder of `encoding/json`: the literal, or the message of
  the unsupported-value error for NaN and the infinities. -/
  jsonFloat : Float64 → Except GoString GoString
  /-- `http.NewRequest`: the error for a URL it cannot parse, if any. -/
  newRequestError : GoString → GoString → Option GoString
  /-- `httpClient.Do` and `httpClient.Get` followed by `io.ReadAll`. -/
  httpDo : HttpRequest → HttpOutcome
  /-- `json.Unmarshal(body, &resp)` for the three response types. -/
  unmarshalCurrentConditions : Bytes → Except GoString CurrentConditionsResponse
  unmarshalForecast : Bytes → Except GoString ForecastResponse
  unmarshalHistory : Bytes → Except GoString HistoryResponse
  /-- `json.MarshalIndent(resp, "", "  ")` for the three response types. -/
  marshalIndentCurrentConditions : CurrentConditionsResponse → Except GoString GoString
  marshalIndentForecast : ForecastResponse → Except GoString GoString
  marshalIndentHistory : HistoryResponse → Except GoString GoString

example : base64.EncodeToString [77, 97, 110] = "TWFu".toList := by decide
example : base64.EncodeToString [77, 97] = "TWE=".toList := by decide
example : base64.EncodeToString [77] = "TQ==".toList := by decide
example : Bytes.toGoString [113, 117, 111, 116, 97] = "quota".toList := by decide
example : Bytes.toGoString [0xC3, 0xA9, 0xE2, 0x82, 0xAC, 0xFF] = "é€�".toList := by decide

/-! ## `json.Marshal` of the request types -/

namespace json

/-- A string field tagged `omitempty`. -/
def omitEmptyString (key : GoString) (s : GoString) : List (GoString × Json) :=
  if s = [] then [] else [(key, .str s)]

/-- An `int` field tagged `omitempty`. -/
def omitEmptyInt (key : GoString) (n : Int) : List (GoString × Json) :=
  if n = 0 then [] else [(key, .num (strconv.Itoa n))]

/-- A `*bool` field tagged `omitempty`: only the nil pointer is dropped. -/
def omitEmptyBoolPtr (key : GoString) (b : Option Bool) : List (GoString × Json) :=
  match b with
  | none => []
  | some v => [(key, .bool v)]

/-- A slice field tagged `omitempty`. -/
def omitEmptyList (key : GoString) (xs : List Json) : List (GoString × Json) :=
  if xs.isEmpty then [] else [(key, .arr xs)]

def marshalLatLng (jsonFloat : Float64 → Except GoString GoString) (l : LatLng) :
    Except GoString Json :=
  match jsonFloat l.Latitude with
  | .error e => .error e
  | .ok lat =>
    match jsonFloat l.Longitude with
    | .error e => .error e
    | .ok lon => .ok (.obj [("latitude".toList, .num lat), ("longitude".toList, .num lon)])

def marshalCustomLocalAqi (c : CustomLocalAqi) : Json :=
  .obj [("regionCode".toList, .str c.RegionCode), ("aqi".toList, .str c.Aqi)]

def marshalInterval (p : Interval) : Json :=
  .obj (omitEmptyString "startTime".toList p.StartTime ++ omitEmptyString "endTime".toList p.EndTime)

/-- A `*Interval` field tagged `omitempty`. -/
def omitEmptyInterval (key : GoString) (p : Option Interval) : List (GoString × Json) :=
  match p with
  | none => []
  | some v => [(key, marshalInterval v)]

/-- `json.Marshal` of a `CurrentConditionsRequest`, field by field in the
order of declaration. -/
def marshalCurrentConditionsRequest (jsonFloat : Float64 → Except GoString GoString)
    (r : CurrentConditionsRequest) : Except GoString Json :=
  match marshalLatLng jsonFloat r.Location with
  | .error e => .error e
  | .ok loc =>
    .ok (.obj ([("location".toList, loc)]
      ++ omitEmptyList "extraComputations".toList (r.ExtraComputations.map Json.str)
      ++ omitEmptyString "uaqiColorPalette".toList r.UaqiColorPalette
      ++ omitEmptyList "customLocalAqis".toList (r.CustomLocalAqis.map marshalCustomLocalAqi)
      ++ omitEmptyBoolPtr "universalAqi".toList r.UniversalAqi
      ++ omitEmptyString "languageCode".toList r.LanguageCode))

/-- `json.Marshal` of a `ForecastRequest`. -/
def marshalForecastRequest (jsonFloat : Float64 → Except GoString GoString)
    (r : ForecastRequest) : Except GoString Json :=
  match marshalLatLng jsonFloat r.Location with
  | .error e => .error e
  | .ok loc =>
    .ok (.obj ([("location".toList, loc)]
      ++ omitEmptyList "extraComputations".toList (r.ExtraComputations.map Json.str)
      ++ omitEmptyString "uaqiColorPalette".toList r.UaqiColorPalette
      ++ omitEmptyList "customLocalAqis".toList (r.CustomLocalAqis.map marshalCustomLocalAqi)
      ++ omitEmptyInt "pageSize".toList r.PageSize
      ++ omitEmptyString "pageToken".toList r.PageToken
      ++ omitEmptyString "dateTime".toList r.DateTime
      ++ omitEmptyInterval "period".toList r.Period
      ++ omitEmptyBoolPtr "universalAqi".toList r.UniversalAqi
      ++ omitEmptyString "languageCode".toList r.LanguageCode))

/-- `json.Marshal` of a `HistoryRequest`. -/
def marshalHistoryRequest (jsonFloat : Float64 → Except GoString GoString)
    (r : HistoryRequest) : Except GoString Json :=
  match marshalLatLng jsonFloat r.Location with
  | .error e => .error e
  | .ok loc =>
    .ok (.obj (omitEmptyInt "pageSize".toList r.PageSize
      ++ omitEmptyString "pageToken".toList r.PageToken
      ++ [("location".toList, loc)]
      ++ omitEmptyList "extraComputations".toList (r.ExtraComputations.map Json.str)
      ++ omitEmptyString "uaqiColorPalette".toList r.UaqiColorPalette
      ++ omitEmptyList "customLocalAqis".toList (r.CustomLocalAqis.map marshalCustomLocalAqi)
      ++ omitEmptyString "dateTime".toList r.DateTime
      ++ omitEmptyInt "hours".toList r.Hours
      ++ omitEmptyInterval "period".toList r.Period
      ++ omitEmptyBoolPtr "universalAqi".toList r.UniversalAqi
      ++ omitEmptyString "languageCode".toList r.LanguageCode))

end json

/-! ## `tools/client.go` -/

def baseURL : GoString := "https://airquality.googleapis.com/v1".toList

/-- Client represents an Air Quality API client. The HTTP client inside, with
its 30 second timeout, is the `httpDo` of the environment. -/
structure Client where
  apiKey : GoString

/-- NewClient creates a new Air Quality API client. -/
def NewClient (apiKey : GoString) : Client := ⟨apiKey⟩

/-- The text of `API request failed with status %d: %s`. -/
def apiRequestFailed (status : Int) (body : Bytes) : GoString :=
  "API request failed with status ".toList ++ strconv.Itoa status ++ ": ".toList
    ++ body.toGoString

/-- `doPostRequest` performs a POST request with JSON payload: the error or the
decoded response, and the HTTP requests sent. `reqBody` is the outcome of
`json.Marshal(reqBody)` and `unmarshal` is `json.Unmarshal(body, respBody)`. -/
def Client.doPostRequest {α : Type} (env : Env) (_c : Client) (url : GoString)
    (reqBody : Except GoString Json) (unmarshal : Bytes → Except GoString α) :
    Except GoString α × List HttpRequest :=
  match reqBody with
  | .error e => (.error ("failed to marshal request: ".toList ++ e), [])
  | .ok jsonData =>
    match env.newRequestError "POST".toList url with
    | some e => (.error ("failed to create request: ".toList ++ e), [])
    | none =>
      let req : HttpRequest :=
        { Method := "POST".toList, URL := url,
          ContentType := some "application/json".toList, Body := some jsonData }
      match env.httpDo req with
      | .transportError e => (.error ("failed to execute request: ".toList ++ e), [req])
      | .readError _ _ e => (.error ("failed to read response body: ".toList ++ e), [req])
      | .response status body =>
        if status ≠ 200 then (.error (apiRequestFailed status body), [req])
        else
          match unmarshal body with
          | .error e => (.error ("failed to unmarshal response: ".toList ++ e), [req])
          | .ok resp => (.ok resp, [req])

/-- GetCurrentConditions retrieves current air quality conditions. -/
def Client.GetCurrentConditions (env : Env) (c : Client) (req : CurrentConditionsRequest) :
    Except GoString CurrentConditionsResponse × List HttpRequest :=
  let url := baseURL ++ "/currentConditions:lookup?key=".toList ++ c.apiKey
  c.doPostRequest env url (json.marshalCurrentConditionsRequest env.jsonFloat req)
    env.unmarshalCurrentConditions

/-- GetForecast retrieves air quality forecast. -/
def Client.GetForecast (env : Env) (c : Client) (req : ForecastRequest) :
    Except GoString ForecastResponse × List HttpRequest :=
  let url := baseURL ++ "/forecast:lookup?key=".toList ++ c.apiKey
  c.doPostRequest env url (json.marshalForecastRequest env.jsonFloat req) env.unmarshalForecast

/-- GetHistory retrieves historical air quality data. -/
def Client.GetHistory (env : Env) (c : Client) (req : HistoryRequest) :
    Except GoString HistoryResponse × List HttpRequest :=
  let url := baseURL ++ "/history:lookup?key=".toList ++ c.apiKey
  c.doPostRequest env url (json.marshalHistoryRequest env.jsonFloat req) env.unmarshalHistory

/-- GetHeatmapTile retrieves a heatmap tile image. `httpClient.Get` builds the
request and sends it; the error of either step is wrapped alike. On a status
other than 200 the error of reading the body is dropped and what was read is
reported. -/
def Client.GetHeatmapTile (env : Env) (c : Client) (mapType : MapType) (zoom x y : Int) :
    Except GoString Bytes × List HttpRequest :=
  let url := baseURL ++ "/mapTypes/".toList ++ mapType ++ "/heatmapTiles/".toList
    ++ strconv.Itoa zoom ++ "/".toList ++ strconv.Itoa x ++ "/".toList ++ strconv.Itoa y
    ++ "?key=".toList ++ c.apiKey
  match env.newRequestError "GET".toList url with
  | some e => (.error ("failed to get heatmap tile: ".toList ++ e), [])
  | none =>
    let req : HttpRequest :=
      { Method := "GET".toList, URL := url, ContentType := none, Body := none }
    match env.httpDo req with
    | .transportError e => (.error ("failed to get heatmap tile: ".toList ++ e), [req])
    | .readError status body e =>
      if status ≠ 200 then (.error (apiRequestFailed status body), [req])
      else (.error ("failed to read response body: ".toList ++ e), [req])
    | .response status body =>
      if status ≠ 200 then (.error (apiRequestFailed status body), [req])
      else (.ok body, [req])

/-! ## `json.Unmarshal` into the input structs -/

namespace json

/-- The name of the kind of a JSON value in an `UnmarshalTypeError`. -/
def kindName : Json → GoString
  | .null => "null".toList
  | .bool _ => "bool".toList
  | .num _ => "number".toList
  | .str _ => "string".toList
  | .arr _ => "array".toList
  | .obj _ => "object".toList

/-- `(*UnmarshalTypeError).Error()` for a field of a struct. -/
def fieldTypeError (value struct field typ : GoString) : GoString :=
  "json: cannot unmarshal ".toList ++ value ++ " into Go struct field ".toList ++ struct
    ++ ".".toList ++ field ++ " of type ".toList ++ typ

/-- `(*UnmarshalTypeError).Error()` for the whole value. -/
def valueTypeError (value typ : GoString) : GoString :=
  "json: cannot unmarshal ".toList ++ value ++ " into Go value of type ".toList ++ typ

/-- Case folding of one character of a key: ASCII letters go to upper case,
and so do the long s and the Kelvin sign, the two code points outside ASCII
that fold to an ASCII letter. -/
def foldChar (c : Char) : Char :=
  if 97 ≤ c.toNat ∧ c.toNat ≤ 122 then Char.ofNat (c.toNat - 32)
  else if c.toNat = 0x17F then 'S'
  else if c.toNat = 0x212A then 'K'
  else c

/-- `foldName`: two keys with the same fold are equal up to case. -/
def foldName (s : GoString) : GoString := s.map foldChar

/-- The field a key of the object denotes: the field of that exact name,
else the first one equal to it up to case; `none` when the key is unknown. -/
def findField (fields : List GoString) (key : GoString) : Option GoString :=
  if fields.contains key then some key
  else fields.find? (fun f => foldName f = foldName key)

/-- Decode into a `string` field holding `old`: null leaves it alone. -/
def decodeString (struct field : GoString) (old : GoString) (v : Json) :
    GoString × Option GoString :=
  match v with
  | .null => (old, none)
  | .str s => (s, none)
  | other => (old, some (fieldTypeError (kindName other) struct field "string".toList))

/-- Decode into an `int` field: the literal goes through `strconv.ParseInt`. -/
def decodeInt (struct field : GoString) (old : Int) (v : Json) : Int × Option GoString :=
  match v with
  | .null => (old, none)
  | .num lit =>
    match strconv.ParseInt lit with
    | .ok n => (n, none)
    | .error _ => (old, some (fieldTypeError ("number ".toList ++ lit) struct field "int".toList))
  | other => (old, some (fieldTypeError (kindName other) struct field "int".toList))

/-- Decode into a `float64` field: the literal goes through
`strconv.ParseFloat`. -/
def decodeFloat64 (parseFloat : GoString → Except strconv.NumError Float64)
    (struct field : GoString) (old : Float64) (v : Json) : Float64 × Option GoString :=
  match v with
  | .null => (old, none)
  | .num lit =>
    match parseFloat lit with
    | .ok f => (f, none)
    | .error _ =>
      (old, some (fieldTypeError ("number ".toList ++ lit) struct field "float64".toList))
  | other => (old, some (fieldTypeError (kindName other) struct field "float64".toList))

/-- Decode into a `*bool` field: null makes the pointer nil. -/
def decodeBoolPtr (struct field : GoString) (old : Option Bool) (v : Json) :
    Option Bool × Option GoString :=
  match v with
  | .null => (none, none)
  | .bool b => (some b, none)
  | other => (old, some (fieldTypeError (kindName other) struct field "bool".toList))

/-- The first of two saved errors. -/
def firstError (a b : Option GoString) : Option GoString :=
  match a with
  | some e => some e
  | none => b

/-- Decode into a `[]string` field: one element for each item of the array, an
item of the wrong kind leaving an empty string and an error. -/
def decodeStringSlice (struct field : GoString) (old : List GoString) (v : Json) :
    List GoString × Option GoString :=
  match v with
  | .null => ([], none)
  | .arr xs =>
    let items := xs.map (decodeString struct field [])
    (items.map Prod.fst, items.foldl (fun e it => firstError e it.2) none)
  | other => (old, some (fieldTypeError (kindName other) struct field "[]string".toList))

/-- Decode the members of an object in turn: `step` stores a member into the
field it denotes; unknown keys are skipped and the first error is kept. -/
def decodeMembers {α : Type} (fields : List GoString)
    (step : α → GoString → Json → α × Option GoString) :
    List (GoString × Json) → α × Option GoString → α × Option GoString
  | [], st => st
  | (k, v) :: rest, (a, err) =>
    match findField fields k with
    | none => decodeMembers fields step rest (a, err)
    | some f =>
      let (a1, e) := step a f v
      decodeMembers fields step rest (a1, firstError err e)

/-- `json.Unmarshal(data, &input)` for a struct: null changes nothing, an
object is decoded member by member, anything else is a type error. -/
def Unmarshal {α : Type} (typ : GoString) (fields : List GoString)
    (step : α → GoString → Json → α × Option GoString) (data : Json) (input : α) :
    Except GoString α :=
  match data with
  | .null => .ok input
  | .obj kvs =>
    match decodeMembers fields step kvs (input, none) with
    | (a, none) => .ok a
    | (_, some e) => .error e
  | other => .error (valueTypeError (kindName other) typ)

end json

/-! ## Handler results -/

/-- A call of a method of the provider client, with its arguments. -/
inductive ProviderCall where
  | GetCurrentConditions (req : CurrentConditionsRequest)
  | GetForecast (req : ForecastRequest)
  | GetHistory (req : HistoryRequest)
  | GetHeatmapTile (mapType : MapType) (zoom x y : Int)
  deriving DecidableEq, Repr

/-- `mcp.ResourceContents`, the fields the handlers set. -/
structure ResourceContents where
  URI : GoString
  MIMEType : GoString
  Text : GoString
  deriving DecidableEq, Repr

/-- `mcp.ReadResourceResult`. -/
structure ReadResourceResult where
  Contents : List ResourceContents
  deriving DecidableEq, Repr

/-- `mcp.ReadResourceRequest`: `URI` is `request.Params.URI`. -/
structure ReadResourceRequest where
  URI : GoString

/-- What a resource handler returns, `(*mcp.ReadResourceResult, error)`, with
the provider calls and the HTTP requests it made. -/
structure ResourceReturn where
  result : Option ReadResourceResult
  err : Option GoString
  calls : List ProviderCall
  http : List HttpRequest

/-- The return `nil, err` before any provider call. -/
def ResourceReturn.fail (e : GoString) : ResourceReturn := ⟨none, some e, [], []⟩

/-! ## `resources/air_quality.go` -/

/-- `parseLatLong`: split on the comma, trim, parse each half as a float. On
an error Go returns `0, 0, err`; here the error alone. -/
def parseLatLong (env : Env) (s : GoString) : Except GoString (Float64 × Float64) :=
  let parts := strings.Split ',' s
  match parts with
  | [p0, p1] =>
    match env.ParseFloat (strings.TrimSpace p0) with
    | .error e => .error ("invalid latitude: ".toList ++ e.Error env.Quote)
    | .ok lat =>
      match env.ParseFloat (strings.TrimSpace p1) with
      | .error e => .error ("invalid longitude: ".toList ++ e.Error env.Quote)
      | .ok lon => .ok (lat, lon)
  | _ => .error "invalid location format, expected 'lat,long'".toList

/-- AirQualityResourceHandler handles air quality resource requests. -/
structure AirQualityResourceHandler where
  client : Client

/-- NewAirQualityResourceHandler creates a new AirQualityResourceHandler. -/
def NewAirQualityResourceHandler (apiKey : GoString) : AirQualityResourceHandler :=
  ⟨NewClient apiKey⟩

/-- The single JSON content of a successful read. -/
def jsonContents (uri text : GoString) : ReadResourceResult :=
  ⟨[{ URI := uri, MIMEType := "application/json".toList, Text := text }]⟩

/-- CurrentConditionsHandler handles requests for current air quality
conditions. URI: `airquality://current/{lat},{long}`. -/
def AirQualityResourceHandler.CurrentConditionsHandler (env : Env)
    (h : AirQualityResourceHandler) (request : ReadResourceRequest) : ResourceReturn :=
  let uri := request.URI
  let pfx := "airquality://current/".toList
  if !strings.HasPrefix uri pfx then .fail "invalid URI format".toList
  else
    let location := strings.TrimPrefix uri pfx
    match parseLatLong env location with
    | .error e => .fail e
    | .ok (lat, lon) =>
      let req : CurrentConditionsRequest :=
        { Location := { Latitude := lat, Longitude := lon }, UniversalAqi := some true }
      let (r, http) := h.client.GetCurrentConditions env req
      let calls := [ProviderCall.GetCurrentConditions req]
      match r with
      | .error e => ⟨none, some ("failed to get current conditions: ".toList ++ e), calls, http⟩
      | .ok resp =>
        match env.marshalIndentCurrentConditions resp with
        | .error e => ⟨none, some ("failed to marshal response: ".toList ++ e), calls, http⟩
        | .ok jsonBytes => ⟨some (jsonContents uri jsonBytes), none, calls, http⟩

/-- ForecastHandler handles requests for air quality forecast.
URI: `airquality://forecast/{lat},{long}`. -/
def AirQualityResourceHandler.ForecastHandler (env : Env)
    (h : AirQualityResourceHandler) (request : ReadResourceRequest) : ResourceReturn :=
  let uri := request.URI
  let pfx := "airquality://forecast/".toList
  if !strings.HasPrefix uri pfx then .fail "invalid URI format".toList
  else
    let location := strings.TrimPrefix uri pfx
    match parseLatLong env location with
    | .error e => .fail e
    | .ok (lat, lon) =>
      let req : ForecastRequest :=
        { Location := { Latitude := lat, Longitude := lon }, UniversalAqi := some true }
      let (r, http) := h.client.GetForecast env req
      let calls := [ProviderCall.GetForecast req]
      match r with
      | .error e => ⟨none, some ("failed to get forecast: ".toList ++ e), calls, http⟩
      | .ok resp =>
        match env.marshalIndentForecast resp with
        | .error e => ⟨none, some ("failed to marshal response: ".toList ++ e), calls, http⟩
        | .ok jsonBytes => ⟨some (jsonContents uri jsonBytes), none, calls, http⟩

/-- HistoryHandler handles requests for air quality history; it asks for 24
hours. URI: `airquality://history/{lat},{long}`. -/
def AirQualityResourceHandler.HistoryHandler (env : Env)
    (h : AirQualityResourceHandler) (request : ReadResourceRequest) : ResourceReturn :=
  let uri := request.URI
  let pfx := "airquality://history/".toList
  if !strings.HasPrefix uri pfx then .fail "invalid URI format".toList
  else
    let location := strings.TrimPrefix uri pfx
    match parseLatLong env location with
    | .error e => .fail e
    | .ok (lat, lon) =>
      let req : HistoryRequest :=
        { Location := { Latitude := lat, Longitude := lon }, Hours := 24,
          UniversalAqi := some true }
      let (r, http) := h.client.GetHistory env req
      let calls := [ProviderCall.GetHistory req]
      match r with
      | .error e => ⟨none, some ("failed to get history: ".toList ++ e), calls, http⟩
      | .ok resp =>
        match env.marshalIndentHistory resp with
        | .error e => ⟨none, some ("failed to marshal response: ".toList ++ e), calls, http⟩
        | .ok jsonBytes => ⟨some (jsonContents uri jsonBytes), none, calls, http⟩

/-- The list `validTypes` of `HeatmapHandler`. -/
def validTypes : List GoString :=
  ["UAQI_RED_GREEN".toList, "UAQI_INDIGO_PERSIAN".toList,
   "PM25_INDIGO_PERSIAN".toList, "GBR_DEFRA".toList,
   "DEU_UBA".toList, "CAN_EC".toList, "FRA_ATMO".toList, "US_AQI".toList]

/-- HeatmapHandler handles requests for heatmap tiles.
URI: `airquality://heatmap/{mapType}/{z}/{x}/{y}`. -/
def AirQualityResourceHandler.HeatmapHandler (env : Env)
    (h : AirQualityResourceHandler) (request : ReadResourceRequest) : ResourceReturn :=
  let uri := request.URI
  let pfx := "airquality://heatmap/".toList
  if !strings.HasPrefix uri pfx then .fail "invalid URI format".toList
  else
    let path := strings.TrimPrefix uri pfx
    match strings.Split '/' path with
    | [mapTypeStr, zStr, xStr, yStr] =>
      match strconv.Atoi zStr with
      | .error e => .fail ("invalid zoom level: ".toList ++ e.Error env.Quote)
      | .ok zoom =>
        match strconv.Atoi xStr with
        | .error e => .fail ("invalid x coordinate: ".toList ++ e.Error env.Quote)
        | .ok x =>
          match strconv.Atoi yStr with
          | .error e => .fail ("invalid y coordinate: ".toList ++ e.Error env.Quote)
          | .ok y =>
            let validMapType := validTypes.any (fun t => mapTypeStr = t)
            if !validMapType then .fail ("invalid map type: ".toList ++ mapTypeStr)
            else
              let (r, http) := h.client.GetHeatmapTile env mapTypeStr zoom x y
              let calls := [ProviderCall.GetHeatmapTile mapTypeStr zoom x y]
              match r with
              | .error e => ⟨none, some ("failed to get heatmap tile: ".toList ++ e), calls, http⟩
              | .ok data =>
                let encoded := base64.EncodeToString data
                ⟨some ⟨[{ URI := uri, MIMEType := "image/png".toList, Text := encoded }]⟩,
                  none, calls, http⟩
    | _ => .fail "invalid heatmap URI format, expected \x7bmapType\x7d/\x7bz\x7d/\x7bx\x7d/\x7by\x7d".toList

/-! ## Tool calls -/

/-- `mcp.Content`: the handlers only produce text. -/
inductive Content where
  | TextContent (Text : GoString)
  deriving DecidableEq, Repr

/-- `mcp.CallToolResult`. -/
structure CallToolResult where
  IsError : Bool := false
  Content : List Content
  deriving DecidableEq, Repr

/-- `mcp.CallToolRequest`. `Arguments` is `request.Params.Arguments`: `none`
is nil; otherwise the value is given by what `json.Marshal` makes of it, a
JSON text or an error. The server always supplies `Params`. -/
structure CallToolRequest where
  Arguments : Option (Except GoString Json)

/-- What a tool handler returns, `(*mcp.CallToolResult, error)`, with the
provider calls and the HTTP requests it made. -/
structure ToolReturn where
  result : Option CallToolResult
  err : Option GoString
  calls : List ProviderCall
  http : List HttpRequest

/-- The return `&mcp.CallToolResult{IsError: true, Content: text}, nil`. -/
def toolError (text : GoString) (calls : List ProviderCall) (http : List HttpRequest) :
    ToolReturn :=
  ⟨some { IsError := true, Content := [.TextContent text] }, none, calls, http⟩

/-- The return `&mcp.CallToolResult{Content: text}, nil`. -/
def toolSuccess (text : GoString) (calls : List ProviderCall) (http : List HttpRequest) :
    ToolReturn :=
  ⟨some { Content := [.TextContent text] }, none, calls, http⟩

/-- The opening of every tool handler: with nil arguments the input stays at
its zero value; otherwise the arguments are marshalled and unmarshalled into
it. The error is the text of the error result. -/
def parseInput {α : Type} (unmarshal : Json → α → Except GoString α) (zero : α)
    (arguments : Option (Except GoString Json)) : Except GoString α :=
  match arguments with
  | none => .ok zero
  | some (.error e) => .error ("Failed to marshal arguments: ".toList ++ e)
  | some (.ok jsonData) =>
    match unmarshal jsonData zero with
    | .error e => .error ("Invalid input: ".toList ++ e)
    | .ok input => .ok input

/-! ## `tools/heatmap.go` -/

/-- HeatmapInput defines the input for the heatmap tile tool. -/
structure HeatmapInput where
  MapType : GoString := []
  Zoom : Int := 0
  X : Int := 0
  Y : Int := 0
  deriving DecidableEq, Repr

/-- The JSON names of the fields of `HeatmapInput`. -/
def HeatmapInput.fields : List GoString :=
  ["mapType".toList, "zoom".toList, "x".toList, "y".toList]

/-- Store a member into the field of `HeatmapInput` it denotes. -/
def HeatmapInput.store (i : HeatmapInput) (field : GoString) (v : Json) :
    HeatmapInput × Option GoString :=
  let st := "HeatmapInput".toList
  if field = "mapType".toList then
    let (a, e) := json.decodeString st field i.MapType v; ({ i with MapType := a }, e)
  else if field = "zoom".toList then
    let (a, e) := json.decodeInt st field i.Zoom v; ({ i with Zoom := a }, e)
  else if field = "x".toList then
    let (a, e) := json.decodeInt st field i.X v; ({ i with X := a }, e)
  else if field = "y".toList then
    let (a, e) := json.decodeInt st field i.Y v; ({ i with Y := a }, e)
  else (i, none)

/-- `json.Unmarshal(jsonData, &input)` for `HeatmapInput`. -/
def HeatmapInput.Unmarshal (data : Json) (input : HeatmapInput) : Except GoString HeatmapInput :=
  json.Unmarshal "tools.HeatmapInput".toList HeatmapInput.fields HeatmapInput.store data input

/-- NewHeatmapHandler creates a new heatmap handler with the API key. -/
def NewHeatmapHandler (env : Env) (apiKey : GoString) (request : CallToolRequest) : ToolReturn :=
  match parseInput HeatmapInput.Unmarshal {} request.Arguments with
  | .error text => toolError text [] []
  | .ok input =>
    if input.Zoom < 0 ∨ input.Zoom > 16 then
      toolError "zoom must be between 0 and 16".toList [] []
    else
      let client := NewClient apiKey
      let (r, http) := client.GetHeatmapTile env input.MapType input.Zoom input.X input.Y
      let calls := [ProviderCall.GetHeatmapTile input.MapType input.Zoom input.X input.Y]
      match r with
      | .error e => toolError ("Failed to get heatmap tile: ".toList ++ e) calls http
      | .ok imageData =>
        let base64Data := base64.EncodeToString imageData
        toolSuccess ("data:image/png;base64,".toList ++ base64Data) calls http

/-! ## `tools/current_conditions.go` -/

/-- CurrentConditionsInput defines the input for the current conditions tool. -/
structure CurrentConditionsInput where
  Latitude : Float64 := Float64.zero
  Longitude : Float64 := Float64.zero
  ExtraComputations : List GoString := []
  UaqiColorPalette : GoString := []
  UniversalAqi : Option Bool := none
  LanguageCode : GoString := []
  deriving DecidableEq, Repr

def CurrentConditionsInput.fields : List GoString :=
  ["latitude".toList, "longitude".toList, "extraComputations".toList,
   "uaqiColorPalette".toList, "universalAqi".toList, "languageCode".toList]

def CurrentConditionsInput.store (env : Env) (i : CurrentConditionsInput) (field : GoString)
    (v : Json) : CurrentConditionsInput × Option GoString :=
  let st := "CurrentConditionsInput".toList
  if field = "latitude".toList then
    let (a, e) := json.decodeFloat64 env.ParseFloat st field i.Latitude v
    ({ i with Latitude := a }, e)
  else if field = "longitude".toList then
    let (a, e) := json.decodeFloat64 env.ParseFloat st field i.Longitude v
    ({ i with Longitude := a }, e)
  else if field = "extraComputations".toList then
    let (a, e) := json.decodeStringSlice st field i.ExtraComputations v
    ({ i with ExtraComputations := a }, e)
  else if field = "uaqiColorPalette".toList then
    let (a, e) := json.decodeString st field i.UaqiColorPalette v
    ({ i with UaqiColorPalette := a }, e)
  else if field = "universalAqi".toList then
    let (a, e) := json.decodeBoolPtr st field i.UniversalAqi v
    ({ i with UniversalAqi := a }, e)
  else if field = "languageCode".toList then
    let (a, e) := json.decodeString st field i.LanguageCode v
    ({ i with LanguageCode := a }, e)
  else (i, none)

def CurrentConditionsInput.Unmarshal (env : Env) (data : Json) (input : CurrentConditionsInput) :
    Except GoString CurrentConditionsInput :=
  json.Unmarshal "tools.CurrentConditionsInput".toList CurrentConditionsInput.fields
    (CurrentConditionsInput.store env) data input

/-- The request the current conditions handler builds from its input. -/
def CurrentConditionsInput.request (input : CurrentConditionsInput) : CurrentConditionsRequest :=
  { Location := { Latitude := input.Latitude, Longitude := input.Longitude },
    LanguageCode := input.LanguageCode,
    UniversalAqi := input.UniversalAqi,
    ExtraComputations := input.ExtraComputations,
    UaqiColorPalette := if input.UaqiColorPalette ≠ [] then input.UaqiColorPalette else [] }

/-- NewCurrentConditionsHandler creates a new current conditions handler with
the API key. -/
def NewCurrentConditionsHandler (env : Env) (apiKey : GoString) (request : CallToolRequest) :
    ToolReturn :=
  match parseInput (CurrentConditionsInput.Unmarshal env) {} request.Arguments with
  | .error text => toolError text [] []
  | .ok input =>
    let req := input.request
    let client := NewClient apiKey
    let (r, http) := client.GetCurrentConditions env req
    let calls := [ProviderCall.GetCurrentConditions req]
    match r with
    | .error e => toolError ("Failed to get current conditions: ".toList ++ e) calls http
    | .ok resp =>
      match env.marshalIndentCurrentConditions resp with
      | .error e => toolError ("Failed to marshal response: ".toList ++ e) calls http
      | .ok jsonResp => toolSuccess jsonResp calls http

/-! ## `tools/forecast.go` -/

/-- ForecastInput defines the input for the forecast tool. -/
structure ForecastInput where
  Latitude : Float64 := Float64.zero
  Longitude : Float64 := Float64.zero
  PageSize : Int := 0
  PageToken : GoString := []
  ExtraComputations : List GoString := []
  UaqiColorPalette : GoString := []
  UniversalAqi : Option Bool := none
  LanguageCode : GoString := []
  DateTime : GoString := []
  PeriodStartTime : GoString := []
  PeriodEndTime : GoString := []
  deriving DecidableEq, Repr

def ForecastInput.fields : List GoString :=
  ["latitude".toList, "longitude".toList, "pageSize".toList, "pageToken".toList,
   "extraComputations".toList, "uaqiColorPalette".toList, "universalAqi".toList,
   "languageCode".toList, "dateTime".toList, "periodStartTime".toList, "periodEndTime".toList]

def ForecastInput.store (env : Env) (i : ForecastInput) (field : GoString) (v : Json) :
    ForecastInput × Option GoString :=
  let st := "ForecastInput".toList
  if field = "latitude".toList then
    let (a, e) := json.decodeFloat64 env.ParseFloat st field i.Latitude v
    ({ i with Latitude := a }, e)
  else if field = "longitude".toList then
    let (a, e) := json.decodeFloat64 env.ParseFloat st field i.Longitude v
    ({ i with Longitude := a }, e)
  else if field = "pageSize".toList then
    let (a, e) := json.decodeInt st field i.PageSize v; ({ i with PageSize := a }, e)
  else if field = "pageToken".toList then
    let (a, e) := json.decodeString st field i.PageToken v; ({ i with PageToken := a }, e)
  else if field = "extraComputations".toList then
    let (a, e) := json.decodeStringSlice st field i.ExtraComputations v
    ({ i with ExtraComputations := a }, e)
  else if field = "uaqiColorPalette".toList then
    let (a, e) := json.decodeString st field i.UaqiColorPalette v
    ({ i with UaqiColorPalette := a }, e)
  else if field = "universalAqi".toList then
    let (a, e) := json.decodeBoolPtr st field i.UniversalAqi v
    ({ i with UniversalAqi := a }, e)
  else if field = "languageCode".toList then
    let (a, e) := json.decodeString st field i.LanguageCode v; ({ i with LanguageCode := a }, e)
  else if field = "dateTime".toList then
    let (a, e) := json.decodeString st field i.DateTime v; ({ i with DateTime := a }, e)
  else if field = "periodStartTime".toList then
    let (a, e) := json.decodeString st field i.PeriodStartTime v
    ({ i with PeriodStartTime := a }, e)
  else if field = "periodEndTime".toList then
    let (a, e) := json.decodeString st field i.PeriodEndTime v
    ({ i with PeriodEndTime := a }, e)
  else (i, none)

def ForecastInput.Unmarshal (env : Env) (data : Json) (input : ForecastInput) :
    Except GoString ForecastInput :=
  json.Unmarshal "tools.ForecastInput".toList ForecastInput.fields (ForecastInput.store env)
    data input

/-- The request the forecast handler builds from its input. -/
def ForecastInput.request (input : ForecastInput) : ForecastRequest :=
  { Location := { Latitude := input.Latitude, Longitude := input.Longitude },
    PageSize := input.PageSize,
    PageToken := input.PageToken,
    LanguageCode := input.LanguageCode,
    UniversalAqi := input.UniversalAqi,
    DateTime := input.DateTime,
    ExtraComputations := input.ExtraComputations,
    UaqiColorPalette := if input.UaqiColorPalette ≠ [] then input.UaqiColorPalette else [],
    Period :=
      if input.PeriodStartTime ≠ [] ∨ input.PeriodEndTime ≠ [] then
        some { StartTime := input.PeriodStartTime, EndTime := input.PeriodEndTime }
      else none }

/-- NewForecastHandler creates a new forecast handler with the API key. -/
def NewForecastHandler (env : Env) (apiKey : GoString) (request : CallToolRequest) : ToolReturn :=
  match parseInput (ForecastInput.Unmarshal env) {} request.Arguments with
  | .error text => toolError text [] []
  | .ok input =>
    let req := input.request
    let client := NewClient apiKey
    let (r, http) := client.GetForecast env req
    let calls := [ProviderCall.GetForecast req]
    match r with
    | .error e => toolError ("Failed to get forecast: ".toList ++ e) calls http
    | .ok resp =>
      match env.marshalIndentForecast resp with
      | .error e => toolError ("Failed to marshal response: ".toList ++ e) calls http
      | .ok jsonResp => toolSuccess jsonResp calls http

/-! ## `tools/history.go` -/

/-- HistoryInput defines the input for the history tool. -/
structure HistoryInput where
  Latitude : Float64 := Float64.zero
  Longitude : Float64 := Float64.zero
  PageSize : Int := 0
  PageToken : GoString := []
  ExtraComputations : List GoString := []
  UaqiColorPalette : GoString := []
  UniversalAqi : Option Bool := none
  LanguageCode : GoString := []
  DateTime : GoString := []
  Hours : Int := 0
  PeriodStartTime : GoString := []
  PeriodEndTime : GoString := []
  deriving DecidableEq, Repr

def HistoryInput.fields : List GoString :=
  ["latitude".toList, "longitude".toList, "pageSize".toList, "pageToken".toList,
   "extraComputations".toList, "uaqiColorPalette".toList, "universalAqi".toList,
   "languageCode".toList, "dateTime".toList, "hours".toList, "periodStartTime".toList,
   "periodEndTime".toList]

def HistoryInput.store (env : Env) (i : HistoryInput) (field : GoString) (v : Json) :
    HistoryInput × Option GoString :=
  let st := "HistoryInput".toList
  if field = "latitude".toList then
    let (a, e) := json.decodeFloat64 env.ParseFloat st field i.Latitude v
    ({ i with Latitude := a }, e)
  else if field = "longitude".toList then
    let (a, e) := json.decodeFloat64 env.ParseFloat st field i.Longitude v
    ({ i with Longitude := a }, e)
  else if field = "pageSize".toList then
    let (a, e) := json.decodeInt st field i.PageSize v; ({ i with PageSize := a }, e)
  else if field = "pageToken".toList then
    let (a, e) := json.decodeString st field i.PageToken v; ({ i with PageToken := a }, e)
  else if field = "extraComputations".toList then
    let (a, e) := json.decodeStringSlice st field i.ExtraComputations v
    ({ i with ExtraComputations := a }, e)
  else if field = "uaqiColorPalette".toList then
    let (a, e) := json.decodeString st field i.UaqiColorPalette v
    ({ i with UaqiColorPalette := a }, e)
  else if field = "universalAqi".toList then
    let (a, e) := json.decodeBoolPtr st field i.UniversalAqi v
    ({ i with UniversalAqi := a }, e)
  else if field = "languageCode".toList then
    let (a, e) := json.decodeString st field i.LanguageCode v; ({ i with LanguageCode := a }, e)
  else if field = "dateTime".toList then
    let (a, e) := json.decodeString st field i.DateTime v; ({ i with DateTime := a }, e)
  else if field = "hours".toList then
    let (a, e) := json.decodeInt st field i.Hours v; ({ i with Hours := a }, e)
  else if field = "periodStartTime".toList then
    let (a, e) := json.decodeString st field i.PeriodStartTime v
    ({ i with PeriodStartTime := a }, e)
  else if field = "periodEndTime".toList then
    let (a, e) := json.decodeString st field i.PeriodEndTime v
    ({ i with PeriodEndTime := a }, e)
  else (i, none)

def HistoryInput.Unmarshal (env : Env) (data : Json) (input : HistoryInput) :
    Except GoString HistoryInput :=
  json.Unmarshal "tools.HistoryInput".toList HistoryInput.fields (HistoryInput.store env)
    data input

/-- The request the history handler builds from its input. -/
def HistoryInput.request (input : HistoryInput) : HistoryRequest :=
  { Location := { Latitude := input.Latitude, Longitude := input.Longitude },
    PageSize := input.PageSize,
    PageToken := input.PageToken,
    LanguageCode := input.LanguageCode,
    UniversalAqi := input.UniversalAqi,
    DateTime := input.DateTime,
    Hours := input.Hours,
    ExtraComputations := input.ExtraComputations,
    UaqiColorPalette := if input.UaqiColorPalette ≠ [] then input.UaqiColorPalette else [],
    Period :=
      if input.PeriodStartTime ≠ [] ∨ input.PeriodEndTime ≠ [] then
        some { StartTime := input.PeriodStartTime, EndTime := input.PeriodEndTime }
      else none }

/-- NewHistoryHandler creates a new history handler with the API key. -/
def NewHistoryHandler (env : Env) (apiKey : GoString) (request : CallToolRequest) : ToolReturn :=
  match parseInput (HistoryInput.Unmarshal env) {} request.Arguments with
  | .error text => toolError text [] []
  | .ok input =>
    let req := input.request
    let client := NewClient apiKey
    let (r, http) := client.GetHistory env req
    let calls := [ProviderCall.GetHistory req]
    match r with
    | .error e => toolError ("Failed to get history: ".toList ++ e) calls http
    | .ok resp =>
      match env.marshalIndentHistory resp with
      | .error e => toolError ("Failed to marshal response: ".toList ++ e) calls http
      | .ok jsonResp => toolSuccess jsonResp calls http

/-! ## The URI of a tile -/

/-- The URI `airquality://heatmap/{mapType}/{zoom}/{x}/{y}`, the integers in
decimal. -/
def heatmapURI (mapType : GoString) (zoom x y : Int) : GoString :=
  "airquality://heatmap/".toList ++ mapType ++ "/".toList ++ strconv.Itoa zoom ++ "/".toList
    ++ strconv.Itoa x ++ "/".toList ++ strconv.Itoa y

/-- The range of a Go `int`. -/
def isInt64 (i : Int) : Prop := -(2 : Int) ^ 63 ≤ i ∧ i < (2 : Int) ^ 63

instance (i : Int) : Decidable (isInt64 i) := by unfold isInt64; infer_instance

/-! ## The result discipline of tool calls -/

/-- What a tool handler owes its caller: a result and no Go error; in the
result a single text; and the result flagged as an error unless the handler
sent exactly one HTTP request, answered with status 200 and a body that
`accepts` holds of. -/
def ToolReturn.reportsInResult (env : Env) (accepts : Bytes → Prop) (out : ToolReturn) : Prop :=
  ∃ r text, out.result = some r ∧ out.err = none ∧ r.Content = [Content.TextContent text] ∧
    (r.IsError = false →
      ∃ q body, out.http = [q] ∧ env.httpDo q = .response 200 body ∧ accepts body)

/-! ## A small environment for the concrete cases -/

/-- The bytes of the text `quota exceeded`. -/
def quotaExceeded : Bytes :=
  [113, 117, 111, 116, 97, 32, 101, 120, 99, 101, 101, 100, 101, 100]

/-- An environment to evaluate the handlers in: a float is written as the
decimal of its bit pattern, and the provider answers every request with
status 500 and the body `quota exceeded`. -/
def exampleEnv : Env where
  ParseFloat := fun s =>
    match strconv.Atoi s with
    | .ok n => .ok ⟨n.toNat⟩
    | .error e => .error { e with Func := "ParseFloat".toList }
  Quote := fun s => '"' :: s ++ ['"']
  jsonFloat := fun f => .ok (strconv.Itoa f.bits)
  newRequestError := fun _ _ => none
  httpDo := fun _ => .response 500 quotaExceeded
  unmarshalCurrentConditions := fun _ => .error "unexpected end of JSON input".toList
  unmarshalForecast := fun _ => .error "unexpected end of JSON input".toList
  unmarshalHistory := fun _ => .error "unexpected end of JSON input".toList
  marshalIndentCurrentConditions := fun _ => .ok "\x7b\x7d".toList
  marshalIndentForecast := fun _ => .ok "\x7b\x7d".toList
  marshalIndentHistory := fun _ => .ok "\x7b\x7d".toList

/-- How `exampleEnv` writes a float. -/
def exampleFormat (f : Float64) : GoString := strconv.Itoa f.bits

/-- A resource handler with an API key. -/
def exampleHandler : AirQualityResourceHandler := NewAirQualityResourceHandler "KEY".toList

/-- The arguments `{"mapType": "US_AQI", "zoom": 17, "x": 0, "y": 0}`. -/
def zoom17Arguments : Json :=
  .obj [("mapType".toList, .str "US_AQI".toList), ("zoom".toList, .num "17".toList),
    ("x".toList, .num "0".toList), ("y".toList, .num "0".toList)]

/-- The arguments `{"mapType": "NOT_A_MAP", "zoom": 1, "x": 0, "y": 0}`. -/
def notAMapArguments : Json :=
  .obj [("mapType".toList, .str "NOT_A_MAP".toList), ("zoom".toList, .num "1".toList),
    ("x".toList, .num "0".toList), ("y".toList, .num "0".toList)]

/-- The arguments `{"longitude": 5}`, without a latitude. -/
def longitudeOnlyArguments : Json :=
  .obj [("longitude".toList, .num "5".toList)]

/-! ## How a provider failure shows -/

/-- The tool result is an error result, without a Go error, whose text holds
`b`. -/
def ToolReturn.failsWith (out : ToolReturn) (b : GoString) : Prop :=
  ∃ text, out.result = some { IsError := true, Content := [.TextContent text] }
    ∧ out.err = none ∧ b <:+: text

/-- The resource read returns no result and an error whose message holds `b`. -/
def ResourceReturn.faultsWith (out : ResourceReturn) (b : GoString) : Prop :=
  out.result = none ∧ ∃ msg, out.err = some msg ∧ b <:+: msg


/-! ## A provider that answers with a given status -/

/-- A response without any field. -/
def emptyCurrentConditionsResponse : CurrentConditionsResponse :=
  { DateTime := [], RegionCode := [], Indexes := none, Pollutants := none,
    HealthRecommendations := none }

/-- The example environment with a provider that answers every request with
`status` and the two bytes of an empty JSON object, which decode to the
response without any field. -/
def statusEnv (status : Int) : Env :=
  { exampleEnv with
    httpDo := fun _ => .response status [123, 125]
    unmarshalCurrentConditions := fun _ => .ok emptyCurrentConditionsResponse
    unmarshalForecast := fun _ => .ok ⟨[], none, []⟩
    unmarshalHistory := fun _ => .ok ⟨[], none, []⟩ }

/-- What a JSON operation returns for a response with status 200: the decoded
body, or the error of decoding it. -/
def decodedBody {α : Type} (r : Except GoString α) : Except GoString α :=
  match r with
  | .ok v => .ok v
  | .error e => .error ("failed to unmarshal response: ".toList ++ e)


/-! ## The error for a tile path of the wrong shape -/

/-- The message of `HeatmapHandler` for a path that has not four segments. -/
def invalidHeatmapURIFormat : GoString :=
  "invalid heatmap URI format, expected \x7bmapType\x7d/\x7bz\x7d/\x7bx\x7d/\x7by\x7d".toList


/-! ## `prompts/air_quality.go` -/

/-- `mcp.PromptMessage`. -/
structure PromptMessage where
  Role : GoString
  Content : Content
  deriving DecidableEq, Repr

/-- `mcp.GetPromptResult`. -/
structure GetPromptResult where
  Description : GoString
  Messages : List PromptMessage
  deriving DecidableEq, Repr

/-- `mcp.GetPromptRequest`. `Arguments` is `request.Params.Arguments`, a
`map[string]string` given by the list of its entries; `none` is the nil map.
The server always supplies `Params`. -/
structure GetPromptRequest where
  Arguments : Option (List (GoString × GoString))

/-- What a prompt handler returns, `(*mcp.GetPromptResult, error)`. -/
structure PromptReturn where
  result : Option GetPromptResult
  err : Option GoString
  deriving DecidableEq, Repr

/-- The value a prompt handler takes for `name`: the entry of the map if the
map is not nil and has one, else the default. -/
def GetPromptRequest.argumentOr (request : GetPromptRequest) (name dflt : GoString) : GoString :=
  match request.Arguments with
  | none => dflt
  | some arguments =>
    match arguments.lookup name with
    | some v => v
    | none => dflt

/-- The return of a prompt handler: one message of the user with the text. -/
def promptResult (description text : GoString) : PromptReturn :=
  ⟨some { Description := description,
          Messages := [{ Role := "user".toList, Content := .TextContent text }] }, none⟩

/-- The text of the current air quality prompt. -/
def currentAirQualityText (location : GoString) : GoString :=
  "Please get the current air quality for ".toList ++ location
    ++ ". You should first determine the latitude and longitude for this location, and then use the 'get_current_air_quality' tool.".toList

/-- CurrentAirQualityByLocationHandler handles the prompt for current air
quality by location. -/
def CurrentAirQualityByLocationHandler (request : GetPromptRequest) : PromptReturn :=
  let location := request.argumentOr "location".toList "unknown location".toList
  promptResult "Prompt to get current air quality for a location".toList
    (currentAirQualityText location)

/-- The text of the forecast prompt. -/
def forecastText (location pageSize : GoString) : GoString :=
  let promptText := "Please get the air quality forecast for ".toList ++ location ++ ".".toList
  let promptText :=
    if pageSize ≠ [] then
      promptText ++ (" Please retrieve ".toList ++ pageSize ++ " hours of forecast data.".toList)
    else promptText
  promptText
    ++ " You should first determine the latitude and longitude for this location, and then use the 'get_air_quality_forecast' tool.".toList

/-- AirQualityForecastByLocationHandler handles the prompt for air quality
forecast by location. -/
def AirQualityForecastByLocationHandler (request : GetPromptRequest) : PromptReturn :=
  let location := request.argumentOr "location".toList "unknown location".toList
  let pageSize := request.argumentOr "pageSize".toList []
  promptResult "Prompt to get air quality forecast for a location".toList
    (forecastText location pageSize)

/-- The text of the history prompt. -/
def historyText (location hours : GoString) : GoString :=
  let promptText :=
    "Please get the historical air quality data for ".toList ++ location ++ ".".toList
  let promptText :=
    if hours ≠ [] then
      promptText ++ (" Please retrieve data for the past ".toList ++ hours ++ " hours.".toList)
    else promptText
  promptText
    ++ " You should first determine the latitude and longitude for this location, and then use the 'get_air_quality_history' tool.".toList

/-- AirQualityHistoryByLocationHandler handles the prompt for air quality
history by location. -/
def AirQualityHistoryByLocationHandler (request : GetPromptRequest) : PromptReturn :=
  let location := request.argumentOr "location".toList "unknown location".toList
  let hours := request.argumentOr "hours".toList []
  promptResult "Prompt to get historical air quality data for a location".toList
    (historyText location hours)

/-- The text of the heatmap by location prompt. -/
def heatmapByLocationText (location mapType zoom : GoString) : GoString :=
  "Please get the air quality heatmap tile for ".toList ++ location
    ++ " using map type '".toList ++ mapType ++ "' at zoom level ".toList ++ zoom ++ ".".toList
    ++ " You should first determine the latitude and longitude for this location, convert them to the appropriate X and Y tile coordinates for the given zoom level, and then use the 'get_air_quality_heatmap_tile' tool.".toList

/-- AirQualityHeatmapByLocationHandler handles the prompt for air quality
heatmap by location. -/
def AirQualityHeatmapByLocationHandler (request : GetPromptRequest) : PromptReturn :=
  let location := request.argumentOr "location".toList "unknown location".toList
  let mapType := request.argumentOr "mapType".toList "UAQI_RED_GREEN".toList
  let zoom := request.argumentOr "zoom".toList "10".toList
  promptResult "Prompt to get air quality heatmap tile for a location".toList
    (heatmapByLocationText location mapType zoom)

/-- The text of the heatmap prompt with direct coordinates. -/
def heatmapText (mapType x y zoom : GoString) : GoString :=
  "Please get the air quality heatmap tile for map type '".toList ++ mapType
    ++ "' at coordinates x=".toList ++ x ++ ", y=".toList ++ y ++ ", zoom=".toList ++ zoom
    ++ " using the 'get_air_quality_heatmap_tile' tool.".toList

/-- AirQualityHeatmapHandler handles the prompt for air quality heatmap tile
(direct coordinates). -/
def AirQualityHeatmapHandler (request : GetPromptRequest) : PromptReturn :=
  let mapType := request.argumentOr "mapType".toList "UAQI_RED_GREEN".toList
  let x := request.argumentOr "x".toList "0".toList
  let y := request.argumentOr "y".toList "0".toList
  let zoom := request.argumentOr "zoom".toList "0".toList
  promptResult "Prompt to get air quality heatmap tile".toList (heatmapText mapType x y zoom)


/-- The request has no `location` argument: its map is nil or lacks the key. -/
def GetPromptRequest.lacks (request : GetPromptRequest) (name : GoString) : Prop :=
  request.Arguments = none ∨
    ∃ arguments, request.Arguments = some arguments ∧ arguments.lookup name = none

/-- The return of a prompt handler is a result with exactly one message, of
the user, with a text, and no error. -/
def PromptReturn.oneUserText (out : PromptReturn) : Prop :=
  ∃ description text,
    out = { result := some { Description := description,
                             Messages := [{ Role := "user".toList,
                                            Content := .TextContent text }] },
            err := none }


/-! ## Decoding base64 -/

namespace base64

/-- The 6-bit value of a character of the alphabet of `StdEncoding`. -/
def decodeChar (c : Char) : Option Nat :=
  let i := encodeStd.indexOf c
  if i < 64 then some i else none

/-- The byte `n mod 256`. -/
def byteOf (n : Nat) : Fin 256 := ⟨n % 256, Nat.mod_lt _ (by decide)⟩

/-- Decode groups of four characters: a full group gives three bytes; the
last group may end with one or two `=` and then gives two bytes or one. -/
def decodeQuanta : GoString → Option Bytes
  | a :: b :: c :: d :: rest =>
    match decodeChar a, decodeChar b with
    | some va, some vb =>
      if c = '=' then
        if d = '=' ∧ rest = [] then some [byteOf ((va * 262144 + vb * 4096) / 65536)] else none
      else
        match decodeChar c with
        | none => none
        | some vc =>
          if d = '=' then
            if rest = [] then
              some [byteOf ((va * 262144 + vb * 4096 + vc * 64) / 65536),
                    byteOf ((va * 262144 + vb * 4096 + vc * 64) / 256)]
            else none
          else
            match decodeChar d with
            | none => none
            | some vd =>
              let val := va * 262144 + vb * 4096 + vc * 64 + vd
              match decodeQuanta rest with
              | none => none
              | some bs => some (byteOf (val / 65536) :: byteOf (val / 256) :: byteOf val :: bs)
    | _, _ => none
  | [] => some []
  | _ => none

/-- `base64.StdEncoding.DecodeString(s)`: line breaks are skipped, the rest is
decoded in groups of four characters; `none` stands for the error. -/
def DecodeString (s : GoString) : Option Bytes :=
  decodeQuanta (s.filter (fun c => c ≠ '\r' ∧ c ≠ '\n'))

end base64


/-- The arguments `{"mapType": "US_AQI", "zoom": 3, "x": 1, "y": 2}`. -/
def tileArguments : Json :=
  .obj [("mapType".toList, .str "US_AQI".toList), ("zoom".toList, .num "3".toList),
    ("x".toList, .num "1".toList), ("y".toList, .num "2".toList)]


/-- The arguments `{"latitude": 1, "longitude": 2}`. -/
def requiredArguments : Json :=
  .obj [("latitude".toList, .num "1".toList), ("longitude".toList, .num "2".toList)]

/-- The arguments `{"LATITUDE": "north", "latitude": 1, "longitude": 2}`, the
keys in the order in which `json.Marshal` writes those of a map. -/
def upperCaseTextArguments : Json :=
  .obj [("LATITUDE".toList, .str "north".toList), ("latitude".toList, .num "1".toList),
    ("longitude".toList, .num "2".toList)]

/-- The arguments `{"mapType": "US_AQI", "maptype": "FOO", "x": 1, "y": 2,
"zoom": 3}`, the keys in the order in which `json.Marshal` writes those of a
map. -/
def lowerCaseMapTypeArguments : Json :=
  .obj [("mapType".toList, .str "US_AQI".toList), ("maptype".toList, .str "FOO".toList),
    ("x".toList, .num "1".toList), ("y".toList, .num "2".toList),
    ("zoom".toList, .num "3".toList)]


/-! ## `encoding/json` on the response of the current conditions -/

namespace json

/-- What `encoding/json` and `strconv` do with the floats of a response. -/
structure FloatRoutines where
  /-- The test of `omitempty` on a `float32` and on a `float64` field. -/
  isZero32 : Float32 → Bool
  isZero64 : Float64 → Bool
  /-- The float encoders: the literal, or the message of the
  unsupported-value error for NaN and the infinities. -/
  encode32 : Float32 → Except GoString GoString
  encode64 : Float64 → Except GoString GoString
  /-- `strconv.ParseFloat(s, 32)` and `strconv.ParseFloat(s, 64)`, with the
  overflow test of the decoder. -/
  Parse32 : GoString → Except strconv.NumError Float32
  Parse64 : GoString → Except strconv.NumError Float64

/-- A `float32` field tagged `omitempty`. -/
def omitEmptyFloat32 (fr : FloatRoutines) (key : GoString) (f : Float32) :
    Except GoString (List (GoString × Json)) :=
  if fr.isZero32 f then .ok []
  else
    match fr.encode32 f with
    | .error e => .error e
    | .ok lit => .ok [(key, .num lit)]

/-- A `float64` field tagged `omitempty`. -/
def omitEmptyFloat64 (fr : FloatRoutines) (key : GoString) (f : Float64) :
    Except GoString (List (GoString × Json)) :=
  if fr.isZero64 f then .ok []
  else
    match fr.encode64 f with
    | .error e => .error e
    | .ok lit => .ok [(key, .num lit)]

/-- A pointer field tagged `omitempty`: only the nil pointer is dropped. -/
def omitEmptyPtr {α : Type} (marshal : α → Except GoString Json) (key : GoString)
    (p : Option α) : Except GoString (List (GoString × Json)) :=
  match p with
  | none => .ok []
  | some v =>
    match marshal v with
    | .error e => .error e
    | .ok j => .ok [(key, j)]

/-- The elements of a slice in turn, up to the first that fails. -/
def marshalAll {α : Type} (marshal : α → Except GoString Json) :
    List α → Except GoString (List Json)
  | [] => .ok []
  | x :: xs =>
    match marshal x with
    | .error e => .error e
    | .ok j =>
      match marshalAll marshal xs with
      | .error e => .error e
      | .ok js => .ok (j :: js)

/-- A slice field tagged `omitempty`: the nil slice and the empty one are
both dropped. -/
def omitEmptySlice {α : Type} (marshal : α → Except GoString Json) (key : GoString)
    (xs : Option (List α)) : Except GoString (List (GoString × Json)) :=
  match xs with
  | none => .ok []
  | some [] => .ok []
  | some (x :: rest) =>
    match marshalAll marshal (x :: rest) with
    | .error e => .error e
    | .ok js => .ok [(key, .arr js)]

/-- The members of several fields in turn, up to the first that fails. -/
def members : List (Except GoString (List (GoString × Json))) →
    Except GoString (List (GoString × Json))
  | [] => .ok []
  | m :: ms =>
    match m with
    | .error e => .error e
    | .ok kvs =>
      match members ms with
      | .error e => .error e
      | .ok rest => .ok (kvs ++ rest)

/-- The object of the members. -/
def object (ms : List (Except GoString (List (GoString × Json)))) : Except GoString Json :=
  match members ms with
  | .error e => .error e
  | .ok kvs => .ok (.obj kvs)

def marshalColor (fr : FloatRoutines) (c : Color) : Except GoString Json :=
  object [omitEmptyFloat32 fr "red".toList c.Red, omitEmptyFloat32 fr "green".toList c.Green,
    omitEmptyFloat32 fr "blue".toList c.Blue, omitEmptyFloat32 fr "alpha".toList c.Alpha]

def marshalAQI (fr : FloatRoutines) (a : AQI) : Except GoString Json :=
  object [.ok (omitEmptyString "code".toList a.Code),
    .ok (omitEmptyString "displayName".toList a.DisplayName),
    .ok (omitEmptyInt "aqi".toList a.Aqi),
    .ok (omitEmptyString "aqiDisplay".toList a.AqiDisplay),
    omitEmptyPtr (marshalColor fr) "color".toList a.Color,
    .ok (omitEmptyString "category".toList a.Category)]

def marshalConcentration (fr : FloatRoutines) (c : Concentration) : Except GoString Json :=
  object [omitEmptyFloat64 fr "value".toList c.Value,
    .ok (omitEmptyString "units".toList c.Units)]

def marshalPollutant (fr : FloatRoutines) (p : Pollutant) : Except GoString Json :=
  object [.ok (omitEmptyString "code".toList p.Code),
    .ok (omitEmptyString "displayName".toList p.DisplayName),
    .ok (omitEmptyString "fullName".toList p.FullName),
    omitEmptyPtr (marshalConcentration fr) "concentration".toList p.Concentration,
    .ok (omitEmptyString "additionalInfo".toList p.AdditionalInfo)]

def marshalHealthRecommendations (h : HealthRecommendations) : Except GoString Json :=
  object [.ok (omitEmptyString "generalPopulation".toList h.GeneralPopulation),
    .ok (omitEmptyString "elderly".toList h.Elderly),
    .ok (omitEmptyString "lungDiseasePopulation".toList h.LungDiseasePopulation),
    .ok (omitEmptyString "heartDiseasePopulation".toList h.HeartDiseasePopulation),
    .ok (omitEmptyString "athletes".toList h.Athletes),
    .ok (omitEmptyString "pregnantWomen".toList h.PregnantWomen),
    .ok (omitEmptyString "children".toList h.Children)]

/-- The JSON value that `json.MarshalIndent(resp, "", "  ")` writes for a
`CurrentConditionsResponse`, field by field in the order of declaration. -/
def marshalCurrentConditionsResponse (fr : FloatRoutines) (r : CurrentConditionsResponse) :
    Except GoString Json :=
  object [.ok (omitEmptyString "dateTime".toList r.DateTime),
    .ok (omitEmptyString "regionCode".toList r.RegionCode),
    omitEmptySlice (marshalAQI fr) "indexes".toList r.Indexes,
    omitEmptySlice (marshalPollutant fr) "pollutants".toList r.Pollutants,
    omitEmptyPtr marshalHealthRecommendations "healthRecommendations".toList
      r.HealthRecommendations]

/-- Decode into a `float32` field: the literal goes through
`strconv.ParseFloat`. -/
def decodeFloat32 (parseFloat : GoString → Except strconv.NumError Float32)
    (struct field : GoString) (old : Float32) (v : Json) : Float32 × Option GoString :=
  match v with
  | .null => (old, none)
  | .num lit =>
    match parseFloat lit with
    | .ok f => (f, none)
    | .error _ =>
      (old, some (fieldTypeError ("number ".toList ++ lit) struct field "float32".toList))
  | other => (old, some (fieldTypeError (kindName other) struct field "float32".toList))

/-- Decode into a struct holding `old`: null leaves it alone, an object is
decoded member by member, anything else is a type error. -/
def decodeStruct {α : Type} (fields : List GoString)
    (step : α → GoString → Json → α × Option GoString) (struct field typ : GoString)
    (old : α) (v : Json) : α × Option GoString :=
  match v with
  | .null => (old, none)
  | .obj kvs => decodeMembers fields step kvs (old, none)
  | other => (old, some (fieldTypeError (kindName other) struct field typ))

/-- Decode into a pointer to a struct: null makes the pointer nil; for any
other value a nil pointer is first set to a new zero value. -/
def decodeStructPtr {α : Type} (zero : α) (fields : List GoString)
    (step : α → GoString → Json → α × Option GoString) (struct field typ : GoString)
    (old : Option α) (v : Json) : Option α × Option GoString :=
  match v with
  | .null => (none, none)
  | other =>
    let (a, e) := decodeStruct fields step struct field typ (old.getD zero) other
    (some a, e)

/-- Decode into a slice of structs: null makes the slice nil; an array makes
one element for each item, also when there is none, each decoded into a zero
value, which is what the elements of a slice that was nil before are. -/
def decodeStructSlice {α : Type} (zero : α) (fields : List GoString)
    (step : α → GoString → Json → α × Option GoString)
    (struct field elemTyp : GoString) (old : Option (List α)) (v : Json) :
    Option (List α) × Option GoString :=
  match v with
  | .null => (none, none)
  | .arr xs =>
    let items := xs.map (decodeStruct fields step struct field elemTyp zero)
    (some (items.map Prod.fst), items.foldl (fun e it => firstError e it.2) none)
  | other =>
    (old, some (fieldTypeError (kindName other) struct field ("[]".toList ++ elemTyp)))

end json

/-- The zero values of the structs of a response. -/
def Color.zero : Color := ⟨⟨0⟩, ⟨0⟩, ⟨0⟩, ⟨0⟩⟩

def AQI.zero : AQI := ⟨[], [], 0, [], none, []⟩

def Concentration.zero : Concentration := ⟨⟨0⟩, []⟩

def Pollutant.zero : Pollutant := ⟨[], [], [], none, []⟩

def HealthRecommendations.zero : HealthRecommendations := ⟨[], [], [], [], [], [], []⟩

def Color.fields : List GoString :=
  ["red".toList, "green".toList, "blue".toList, "alpha".toList]

/-- Store a member into the field of `Color` it denotes; `path` leads to the
struct from the value being decoded, as the text of an error gives it. -/
def Color.store (fr : json.FloatRoutines) (path : GoString) (c : Color) (field : GoString)
    (v : Json) : Color × Option GoString :=
  let st := "Color".toList
  if field = "red".toList then
    let (a, e) := json.decodeFloat32 fr.Parse32 st (path ++ field) c.Red v
    ({ c with Red := a }, e)
  else if field = "green".toList then
    let (a, e) := json.decodeFloat32 fr.Parse32 st (path ++ field) c.Green v
    ({ c with Green := a }, e)
  else if field = "blue".toList then
    let (a, e) := json.decodeFloat32 fr.Parse32 st (path ++ field) c.Blue v
    ({ c with Blue := a }, e)
  else if field = "alpha".toList then
    let (a, e) := json.decodeFloat32 fr.Parse32 st (path ++ field) c.Alpha v
    ({ c with Alpha := a }, e)
  else (c, none)

def AQI.fields : List GoString :=
  ["code".toList, "displayName".toList, "aqi".toList, "aqiDisplay".toList, "color".toList,
   "category".toList]

def AQI.store (fr : json.FloatRoutines) (path : GoString) (i : AQI) (field : GoString)
    (v : Json) : AQI × Option GoString :=
  let st := "AQI".toList
  if field = "code".toList then
    let (a, e) := json.decodeString st (path ++ field) i.Code v; ({ i with Code := a }, e)
  else if field = "displayName".toList then
    let (a, e) := json.decodeString st (path ++ field) i.DisplayName v
    ({ i with DisplayName := a }, e)
  else if field = "aqi".toList then
    let (a, e) := json.decodeInt st (path ++ field) i.Aqi v; ({ i with Aqi := a }, e)
  else if field = "aqiDisplay".toList then
    let (a, e) := json.decodeString st (path ++ field) i.AqiDisplay v
    ({ i with AqiDisplay := a }, e)
  else if field = "color".toList then
    let (a, e) := json.decodeStructPtr Color.zero Color.fields
      (Color.store fr (path ++ field ++ ".".toList)) st (path ++ field) "tools.Color".toList
      i.Color v
    ({ i with Color := a }, e)
  else if field = "category".toList then
    let (a, e) := json.decodeString st (path ++ field) i.Category v
    ({ i with Category := a }, e)
  else (i, none)

def Concentration.fields : List GoString := ["value".toList, "units".toList]

def Concentration.store (fr : json.FloatRoutines) (path : GoString) (c : Concentration)
    (field : GoString) (v : Json) : Concentration × Option GoString :=
  let st := "Concentration".toList
  if field = "value".toList then
    let (a, e) := json.decodeFloat64 fr.Parse64 st (path ++ field) c.Value v
    ({ c with Value := a }, e)
  else if field = "units".toList then
    let (a, e) := json.decodeString st (path ++ field) c.Units v; ({ c with Units := a }, e)
  else (c, none)

def Pollutant.fields : List GoString :=
  ["code".toList, "displayName".toList, "fullName".toList, "concentration".toList,
   "additionalInfo".toList]

def Pollutant.store (fr : json.FloatRoutines) (path : GoString) (p : Pollutant)
    (field : GoString) (v : Json) : Pollutant × Option GoString :=
  let st := "Pollutant".toList
  if field = "code".toList then
    let (a, e) := json.decodeString st (path ++ field) p.Code v; ({ p with Code := a }, e)
  else if field = "displayName".toList then
    let (a, e) := json.decodeString st (path ++ field) p.DisplayName v
    ({ p with DisplayName := a }, e)
  else if field = "fullName".toList then
    let (a, e) := json.decodeString st (path ++ field) p.FullName v
    ({ p with FullName := a }, e)
  else if field = "concentration".toList then
    let (a, e) := json.decodeStructPtr Concentration.zero Concentration.fields
      (Concentration.store fr (path ++ field ++ ".".toList)) st (path ++ field)
      "tools.Concentration".toList p.Concentration v
    ({ p with Concentration := a }, e)
  else if field = "additionalInfo".toList then
    let (a, e) := json.decodeString st (path ++ field) p.AdditionalInfo v
    ({ p with AdditionalInfo := a }, e)
  else (p, none)

def HealthRecommendations.fields : List GoString :=
  ["generalPopulation".toList, "elderly".toList, "lungDiseasePopulation".toList,
   "heartDiseasePopulation".toList, "athletes".toList, "pregnantWomen".toList,
   "children".toList]

def HealthRecommendations.store (path : GoString) (h : HealthRecommendations)
    (field : GoString) (v : Json) : HealthRecommendations × Option GoString :=
  let st := "HealthRecommendations".toList
  if field = "generalPopulation".toList then
    let (a, e) := json.decodeString st (path ++ field) h.GeneralPopulation v
    ({ h with GeneralPopulation := a }, e)
  else if field = "elderly".toList then
    let (a, e) := json.decodeString st (path ++ field) h.Elderly v
    ({ h with Elderly := a }, e)
  else if field = "lungDiseasePopulation".toList then
    let (a, e) := json.decodeString st (path ++ field) h.LungDiseasePopulation v
    ({ h with LungDiseasePopulation := a }, e)
  else if field = "heartDiseasePopulation".toList then
    let (a, e) := json.decodeString st (path ++ field) h.HeartDiseasePopulation v
    ({ h with HeartDiseasePopulation := a }, e)
  else if field = "athletes".toList then
    let (a, e) := json.decodeString st (path ++ field) h.Athletes v
    ({ h with Athletes := a }, e)
  else if field = "pregnantWomen".toList then
    let (a, e) := json.decodeString st (path ++ field) h.PregnantWomen v
    ({ h with PregnantWomen := a }, e)
  else if field = "children".toList then
    let (a, e) := json.decodeString st (path ++ field) h.Children v
    ({ h with Children := a }, e)
  else (h, none)

def CurrentConditionsResponse.fields : List GoString :=
  ["dateTime".toList, "regionCode".toList, "indexes".toList, "pollutants".toList,
   "healthRecommendations".toList]

def CurrentConditionsResponse.store (fr : json.FloatRoutines) (r : CurrentConditionsResponse)
    (field : GoString) (v : Json) : CurrentConditionsResponse × Option GoString :=
  let st := "CurrentConditionsResponse".toList
  if field = "dateTime".toList then
    let (a, e) := json.decodeString st field r.DateTime v; ({ r with DateTime := a }, e)
  else if field = "regionCode".toList then
    let (a, e) := json.decodeString st field r.RegionCode v; ({ r with RegionCode := a }, e)
  else if field = "indexes".toList then
    let (a, e) := json.decodeStructSlice AQI.zero AQI.fields
      (AQI.store fr (field ++ ".".toList)) st field "tools.AQI".toList r.Indexes v
    ({ r with Indexes := a }, e)
  else if field = "pollutants".toList then
    let (a, e) := json.decodeStructSlice Pollutant.zero Pollutant.fields
      (Pollutant.store fr (field ++ ".".toList)) st field "tools.Pollutant".toList
      r.Pollutants v
    ({ r with Pollutants := a }, e)
  else if field = "healthRecommendations".toList then
    let (a, e) := json.decodeStructPtr HealthRecommendations.zero HealthRecommendations.fields
      (HealthRecommendations.store (field ++ ".".toList)) st field
      "tools.HealthRecommendations".toList r.HealthRecommendations v
    ({ r with HealthRecommendations := a }, e)
  else (r, none)

/-- `json.Unmarshal` of a JSON value into a `CurrentConditionsResponse`
holding `resp`. -/
def CurrentConditionsResponse.Unmarshal (fr : json.FloatRoutines) (data : Json)
    (resp : CurrentConditionsResponse) : Except GoString CurrentConditionsResponse :=
  json.Unmarshal "tools.CurrentConditionsResponse".toList CurrentConditionsResponse.fields
    (CurrentConditionsResponse.store fr) data resp

/-- A `float32` that is written and read back as itself: one that counts as
zero is the positive zero, any other has a literal that parses to it. -/
def json.FloatRoutines.readsBack32 (fr : json.FloatRoutines) (f : Float32) : Bool :=
  if fr.isZero32 f then decide (f = ⟨0⟩)
  else
    match fr.encode32 f with
    | .error _ => false
    | .ok lit =>
      match fr.Parse32 lit with
      | .error _ => false
      | .ok g => decide (g = f)

/-- A `float64` that is written and read back as itself. -/
def json.FloatRoutines.readsBack64 (fr : json.FloatRoutines) (f : Float64) : Bool :=
  if fr.isZero64 f then decide (f = ⟨0⟩)
  else
    match fr.encode64 f with
    | .error _ => false
    | .ok lit =>
      match fr.Parse64 lit with
      | .error _ => false
      | .ok g => decide (g = f)

def Color.readsBack (fr : json.FloatRoutines) (c : Color) : Bool :=
  fr.readsBack32 c.Red && fr.readsBack32 c.Green && fr.readsBack32 c.Blue
    && fr.readsBack32 c.Alpha

/-- An index whose `aqi` is a 64-bit `int` and whose colour reads back. -/
def AQI.readsBack (fr : json.FloatRoutines) (a : AQI) : Bool :=
  decide (isInt64 a.Aqi) &&
    match a.Color with
    | none => true
    | some c => c.readsBack fr

def Pollutant.readsBack (fr : json.FloatRoutines) (p : Pollutant) : Bool :=
  match p.Concentration with
  | none => true
  | some c => fr.readsBack64 c.Value

/-- A slice that is nil, or not empty with elements that read back. -/
def sliceReadsBack {α : Type} (p : α → Bool) : Option (List α) → Bool
  | none => true
  | some [] => false
  | some (x :: xs) => (x :: xs).all p

/-- A response without an empty slice that is not nil, whose numbers read
back. -/
def CurrentConditionsResponse.readsBack (fr : json.FloatRoutines)
    (r : CurrentConditionsResponse) : Bool :=
  sliceReadsBack (AQI.readsBack fr) r.Indexes
    && sliceReadsBack (Pollutant.readsBack fr) r.Pollutants


/-- The float routines of the example environment: a float is written as the
decimal of its bit pattern and counts as zero when the pattern is zero. -/
def exampleFloats : json.FloatRoutines where
  isZero32 := fun f => decide (f.bits = 0)
  isZero64 := fun f => decide (f.bits = 0)
  encode32 := fun f => .ok (strconv.Itoa f.bits)
  encode64 := exampleEnv.jsonFloat
  Parse32 := fun s =>
    match strconv.Atoi s with
    | .ok n => .ok ⟨n.toNat⟩
    | .error e => .error { e with Func := "ParseFloat".toList }
  Parse64 := exampleEnv.ParseFloat

/-- The response with an empty list of indexes that is not nil. -/
def emptyIndexesResponse : CurrentConditionsResponse :=
  { emptyCurrentConditionsResponse with Indexes := some [] }

/-- The bytes of `{"indexes":[]}`. -/
def emptyIndexesBody : Bytes := [123, 34, 105, 110, 100, 101, 120, 101, 115, 34, 58, 91, 93, 125]

/-- The example environment with a provider that answers every request with
status 200 and the body `{"indexes":[]}`, which decodes to the response with
an empty list of indexes. The text written for any response is `{}`, as it is
for this one. -/
def emptyIndexesEnv : Env :=
  { exampleEnv with
    httpDo := fun _ => .response 200 emptyIndexesBody
    unmarshalCurrentConditions := fun body =>
      if body = emptyIndexesBody then .ok emptyIndexesResponse
      else .error "unexpected end of JSON input".toList }

/-- A response with one index, one pollutant and a recommendation. -/
def sampleResponse : CurrentConditionsResponse :=
  { DateTime := "2024-05-01T10:00:00Z".toList
    RegionCode := "nl".toList
    Indexes := some [
      { Code := "uaqi".toList, DisplayName := "Universal AQI".toList, Aqi := 72,
        AqiDisplay := "72".toList, Color := none, Category := "Good air quality".toList }]
    Pollutants := some [
      { Code := "pm25".toList, DisplayName := "PM2.5".toList, FullName := [],
        Concentration := none, AdditionalInfo := [] }]
    HealthRecommendations := some
      { GeneralPopulation := "Enjoy your usual outdoor activities".toList, Elderly := [],
        LungDiseasePopulation := [], HeartDiseasePopulation := [], Athletes := [],
        PregnantWomen := [], Children := [] } }

/-- The JSON value of `sampleResponse`. -/
def sampleJson : Json :=
  .obj [("dateTime".toList, .str "2024-05-01T10:00:00Z".toList),
    ("regionCode".toList, .str "nl".toList),
    ("indexes".toList, .arr [.obj [("code".toList, .str "uaqi".toList),
      ("displayName".toList, .str "Universal AQI".toList),
      ("aqi".toList, .num "72".toList),
      ("aqiDisplay".toList, .str "72".toList),
      ("category".toList, .str "Good air quality".toList)]]),
    ("pollutants".toList, .arr [.obj [("code".toList, .str "pm25".toList),
      ("displayName".toList, .str "PM2.5".toList)]]),
    ("healthRecommendations".toList, .obj [("generalPopulation".toList,
      .str "Enjoy your usual outdoor activities".toList)])]

/-- The text of `sampleJson`, indented by two spaces. -/
def sampleText : GoString :=
  ("\x7b\n  \"dateTime\": \"2024-05-01T10:00:00Z\",\n  \"regionCode\": \"nl\",\n"
    ++ "  \"indexes\": [\n    \x7b\n      \"code\": \"uaqi\",\n"
    ++ "      \"displayName\": \"Universal AQI\",\n      \"aqi\": 72,\n"
    ++ "      \"aqiDisplay\": \"72\",\n      \"category\": \"Good air quality\"\n    \x7d\n  ],\n"
    ++ "  \"pollutants\": [\n    \x7b\n      \"code\": \"pm25\",\n"
    ++ "      \"displayName\": \"PM2.5\"\n    \x7d\n  ],\n"
    ++ "  \"healthRecommendations\": \x7b\n"
    ++ "    \"generalPopulation\": \"Enjoy your usual outdoor activities\"\n  \x7d\n\x7d").toList

/-- The bytes of a text of ASCII characters. -/
def asciiBytes (s : GoString) : Bytes := s.map (fun c => Fin.ofNat c.toNat)

/-- The example environment with a provider that answers every request with
status 200 and the bytes of `sampleText`, which decode to `sampleResponse`,
for which `sampleText` is written in turn. -/
def sampleEnv : Env :=
  { exampleEnv with
    httpDo := fun _ => .response 200 (asciiBytes sampleText)
    unmarshalCurrentConditions := fun body =>
      if body = asciiBytes sampleText then .ok sampleResponse
      else .error "unexpected end of JSON input".toList
    marshalIndentCurrentConditions := fun r =>
      if r = sampleResponse then .ok sampleText else .ok "\x7b\x7d".toList }

/-- A reader of JSON texts that knows `sampleText` only. -/
def readSample (text : GoString) : Except GoString Json :=
  if text = sampleText then .ok sampleJson else .error "unexpected end of JSON input".toList


/-- The request has the argument `name` with the value `v`. -/
def GetPromptRequest.has (request : GetPromptRequest) (name v : GoString) : Prop :=
  ∃ arguments, request.Arguments = some arguments ∧ arguments.lookup name = some v


/-- The opening words of the errors of the resource handlers. -/
def resourceErrorOpenings : List GoString :=
  ["invalid URI format".toList, "invalid location format, expected 'lat,long'".toList,
   "invalid latitude: ".toList, "invalid longitude: ".toList,
   "failed to get current conditions: ".toList, "failed to get forecast: ".toList,
   "failed to get history: ".toList, "failed to marshal response: ".toList,
   invalidHeatmapURIFormat, "invalid zoom level: ".toList, "invalid x coordinate: ".toList,
   "invalid y coordinate: ".toList, "invalid map type: ".toList,
   "failed to get heatmap tile: ".toList]

/-- The read of `uri` ends in exactly one of a result and an error: no result
and an error whose message opens with words that say what failed, or no
error and a result with one content, whose URI is `uri`. -/
def ResourceReturn.resultOrError (out : ResourceReturn) (uri : GoString) : Prop :=
  (out.result = none ∧ ∃ msg, out.err = some msg ∧ ∃ p ∈ resourceErrorOpenings, p <+: msg)
  ∨ (out.err = none ∧ ∃ c, out.result = some ⟨[c]⟩ ∧ c.URI = uri)


/-- The call arguments omit `name`: they are nil, or the JSON `null`, or an
object none of whose keys is `name`, also when the case of letters is
ignored. -/
def CallToolRequest.omits (request : CallToolRequest) (name : GoString) : Prop :=
  request.Arguments = none ∨ request.Arguments = some (.ok .null)
    ∨ ∃ kvs, request.Arguments = some (.ok (.obj kvs))
      ∧ ∀ kv ∈ kvs, json.foldName kv.1 ≠ json.foldName name

/-- The call arguments give `name` the value `v`: they are an object with the
member `name: v`, after which no key is `name`, also when the case of letters
is ignored. -/
def CallToolRequest.gives (request : CallToolRequest) (name : GoString) (v : Json) : Prop :=
  ∃ l1 l2, request.Arguments = some (.ok (.obj (l1 ++ (name, v) :: l2)))
    ∧ ∀ kv ∈ l2, json.foldName kv.1 ≠ json.foldName name

/-- What the caller passes for a boolean argument: nothing, `false` or `true`. -/
def CallToolRequest.boolArgument (request : CallToolRequest) (name : GoString) :
    Option Bool → Prop
  | none => request.omits name
  | some b => request.gives name (.bool b)

/-- What the caller passes for a string argument: the text `v`, where the empty
text stands for an omitted argument too. -/
def CallToolRequest.stringArgument (request : CallToolRequest) (name v : GoString) : Prop :=
  request.gives name (.str v) ∨ (v = [] ∧ request.omits name)

/-- The `UniversalAqi` of the request of a provider call. -/
def ProviderCall.UniversalAqi : ProviderCall → Option (Option Bool)
  | .GetCurrentConditions req => some req.UniversalAqi
  | .GetForecast req => some req.UniversalAqi
  | .GetHistory req => some req.UniversalAqi
  | .GetHeatmapTile _ _ _ _ => none

/-- The `Period` of the request of a provider call. -/
def ProviderCall.Period : ProviderCall → Option (Option Interval)
  | .GetForecast req => some req.Period
  | .GetHistory req => some req.Period
  | _ => none

/-- Every provider call of the handler has `UniversalAqi = u`, and every body
it sends is an object in which `universalAqi` is absent for an unset `u` and
is the boolean of `u` otherwise. -/
def ToolReturn.sendsUniversalAqi (out : ToolReturn) (u : Option Bool) : Prop :=
  (∀ c ∈ out.calls, c.UniversalAqi = some u)
  ∧ ∀ q ∈ out.http, ∃ members, q.Body = some (.obj members)
      ∧ members.lookup "universalAqi".toList = u.map Json.bool

/-- The arguments `{"latitude": 1, "longitude": 2, "universalAqi": false}`. -/
def universalAqiFalseArguments : Json :=
  .obj [("latitude".toList, .num "1".toList), ("longitude".toList, .num "2".toList),
    ("universalAqi".toList, .bool false)]

/-- The arguments `{"latitude": 1, "longitude": 2, "periodStartTime":
"2024-05-01T00:00:00Z"}`. -/
def periodStartArguments : Json :=
  .obj [("latitude".toList, .num "1".toList), ("longitude".toList, .num "2".toList),
    ("periodStartTime".toList, .str "2024-05-01T00:00:00Z".toList)]


/-! ## The tools, prompts and resources of the server -/

/-- `mcp.Tool`, the fields the code sets. `InputSchema` is a Go map, given as
the JSON object of its entries in the order of the source. -/
structure Tool where
  Name : GoString
  Description : GoString
  InputSchema : Json

/-- `mcp.PromptArgument`. -/
structure PromptArgument where
  Name : GoString
  Description : GoString
  Required : Bool
  deriving DecidableEq, Repr

/-- `mcp.Prompt`. -/
structure Prompt where
  Name : GoString
  Description : GoString
  Arguments : List PromptArgument
  deriving DecidableEq, Repr

/-- `mcp.Resource`, the fields the code sets. -/
structure Resource where
  URI : GoString
  Name : GoString
  Description : GoString
  MIMEType : GoString
  deriving DecidableEq, Repr

/-- `mcp.ResourceTemplate`, a resource given by a URI template. -/
structure ResourceTemplate where
  URITemplate : GoString
  Name : GoString
  deriving DecidableEq, Repr

/-- `mcp.Server`: what has been added to it, each entry with its handler, in
the order in which it was added. -/
structure Server where
  tools : List (Tool × (Env → CallToolRequest → ToolReturn))
  prompts : List (Prompt × (GetPromptRequest → PromptReturn))
  resources : List (Resource × (Env → ReadResourceRequest → ResourceReturn))
  resourceTemplates : List (ResourceTemplate × (Env → ReadResourceRequest → ResourceReturn))

/-- A server to which nothing has been added. -/
def Server.empty : Server := ⟨[], [], [], []⟩

/-- `server.AddTool`: adds the tool, or replaces the one of the same name. -/
def Server.AddTool (s : Server) (t : Tool) (h : Env → CallToolRequest → ToolReturn) : Server :=
  { s with tools := s.tools.filter (fun e => e.1.Name ≠ t.Name) ++ [(t, h)] }

/-- `server.AddPrompt`: adds the prompt, or replaces the one of the same name. -/
def Server.AddPrompt (s : Server) (p : Prompt) (h : GetPromptRequest → PromptReturn) : Server :=
  { s with prompts := s.prompts.filter (fun e => e.1.Name ≠ p.Name) ++ [(p, h)] }

/-- `server.AddResource`: adds the resource, or replaces the one of the same
URI. -/
def Server.AddResource (s : Server) (r : Resource)
    (h : Env → ReadResourceRequest → ResourceReturn) : Server :=
  { s with resources := s.resources.filter (fun e => e.1.URI ≠ r.URI) ++ [(r, h)] }

def CurrentConditionsToolName : GoString := "get_current_air_quality".toList

def CurrentConditionsToolDescription : GoString :=
  "Get current air quality conditions for a specific location. Returns air quality indexes, pollutant levels, and health recommendations.".toList

/-- `CurrentConditionsToolSchema`. -/
def CurrentConditionsToolSchema : Json :=
  .obj [("type".toList, .str "object".toList),
    ("properties".toList, .obj [
      ("latitude".toList, .obj [("type".toList, .str "number".toList),
        ("description".toList, .str "Location latitude".toList)]),
      ("longitude".toList, .obj [("type".toList, .str "number".toList),
        ("description".toList, .str "Location longitude".toList)]),
      ("extraComputations".toList, .obj [("type".toList, .str "array".toList),
        ("description".toList, .str "Additional features to compute (LOCAL_AQI HEALTH_RECOMMENDATIONS POLLUTANT_ADDITIONAL_INFO DOMINANT_POLLUTANT_CONCENTRATION POLLUTANT_CONCENTRATION)".toList),
        ("items".toList, .obj [("type".toList, .str "string".toList)])]),
      ("uaqiColorPalette".toList, .obj [("type".toList, .str "string".toList),
        ("description".toList, .str "Color palette for UAQI (RED_GREEN INDIGO_PERSIAN NUMERIC)".toList)]),
      ("universalAqi".toList, .obj [("type".toList, .str "boolean".toList),
        ("description".toList, .str "Include Universal AQI (default: true)".toList)]),
      ("languageCode".toList, .obj [("type".toList, .str "string".toList),
        ("description".toList, .str "Response language code (default: en)".toList)])]),
    ("required".toList, .arr [.str "latitude".toList, .str "longitude".toList])]

def ForecastToolName : GoString := "get_air_quality_forecast".toList

def ForecastToolDescription : GoString :=
  "Get air quality forecast for a specific location. Returns hourly forecasts with air quality indexes and pollutant predictions.".toList

/-- `ForecastToolSchema`. -/
def ForecastToolSchema : Json :=
  .obj [("type".toList, .str "object".toList),
    ("properties".toList, .obj [
      ("latitude".toList, .obj [("type".toList, .str "number".toList),
        ("description".toList, .str "Location latitude".toList)]),
      ("longitude".toList, .obj [("type".toList, .str "number".toList),
        ("description".toList, .str "Location longitude".toList)]),
      ("pageSize".toList, .obj [("type".toList, .str "integer".toList),
        ("description".toList, .str "Number of forecast hours to return".toList)]),
      ("pageToken".toList, .obj [("type".toList, .str "string".toList),
        ("description".toList, .str "Pagination token for next page".toList)]),
      ("extraComputations".toList, .obj [("type".toList, .str "array".toList),
        ("description".toList, .str "Additional features to compute".toList),
        ("items".toList, .obj [("type".toList, .str "string".toList)])]),
      ("uaqiColorPalette".toList, .obj [("type".toList, .str "string".toList),
        ("description".toList, .str "Color palette for UAQI".toList)]),
      ("universalAqi".toList, .obj [("type".toList, .str "boolean".toList),
        ("description".toList, .str "Include Universal AQI (default: true)".toList)]),
      ("languageCode".toList, .obj [("type".toList, .str "string".toList),
        ("description".toList, .str "Response language code (default: en)".toList)]),
      ("dateTime".toList, .obj [("type".toList, .str "string".toList),
        ("description".toList, .str "Specific forecast time (ISO 8601 format)".toList)]),
      ("periodStartTime".toList, .obj [("type".toList, .str "string".toList),
        ("description".toList, .str "Forecast period start time (ISO 8601 format)".toList)]),
      ("periodEndTime".toList, .obj [("type".toList, .str "string".toList),
        ("description".toList, .str "Forecast period end time (ISO 8601 format)".toList)])]),
    ("required".toList, .arr [.str "latitude".toList, .str "longitude".toList])]

def HistoryToolName : GoString := "get_air_quality_history".toList

def HistoryToolDescription : GoString :=
  "Get historical air quality data for a specific location. Returns past hourly air quality measurements.".toList

/-- `HistoryToolSchema`. -/
def HistoryToolSchema : Json :=
  .obj [("type".toList, .str "object".toList),
    ("properties".toList, .obj [
      ("latitude".toList, .obj [("type".toList, .str "number".toList),
        ("description".toList, .str "Location latitude".toList)]),
      ("longitude".toList, .obj [("type".toList, .str "number".toList),
        ("description".toList, .str "Location longitude".toList)]),
      ("pageSize".toList, .obj [("type".toList, .str "integer".toList),
        ("description".toList, .str "Max hourly records per page (default: 72 max: 168)".toList)]),
      ("pageToken".toList, .obj [("type".toList, .str "string".toList),
        ("description".toList, .str "Pagination token for next page".toList)]),
      ("extraComputations".toList, .obj [("type".toList, .str "array".toList),
        ("description".toList, .str "Additional features to compute".toList),
        ("items".toList, .obj [("type".toList, .str "string".toList)])]),
      ("uaqiColorPalette".toList, .obj [("type".toList, .str "string".toList),
        ("description".toList, .str "Color palette for UAQI".toList)]),
      ("universalAqi".toList, .obj [("type".toList, .str "boolean".toList),
        ("description".toList, .str "Include Universal AQI (default: true)".toList)]),
      ("languageCode".toList, .obj [("type".toList, .str "string".toList),
        ("description".toList, .str "Response language code (default: en)".toList)]),
      ("dateTime".toList, .obj [("type".toList, .str "string".toList),
        ("description".toList, .str "Specific historical time (ISO 8601 format)".toList)]),
      ("hours".toList, .obj [("type".toList, .str "integer".toList),
        ("description".toList, .str "Number of hours of history".toList)]),
      ("periodStartTime".toList, .obj [("type".toList, .str "string".toList),
        ("description".toList, .str "History period start time (ISO 8601 format)".toList)]),
      ("periodEndTime".toList, .obj [("type".toList, .str "string".toList),
        ("description".toList, .str "History period end time (ISO 8601 format)".toList)])]),
    ("required".toList, .arr [.str "latitude".toList, .str "longitude".toList])]

def HeatmapToolName : GoString := "get_air_quality_heatmap_tile".toList

def HeatmapToolDescription : GoString :=
  "Get air quality heatmap tile image for visualization. Returns a PNG image tile for the specified map type and coordinates.".toList

/-- `HeatmapToolSchema`. -/
def HeatmapToolSchema : Json :=
  .obj [("type".toList, .str "object".toList),
    ("properties".toList, .obj [
      ("mapType".toList, .obj [("type".toList, .str "string".toList),
        ("description".toList, .str "Type of heatmap (UAQI_RED_GREEN UAQI_INDIGO_PERSIAN PM25_INDIGO_PERSIAN GBR_DEFRA DEU_UBA CAN_EC FRA_ATMO US_AQI)".toList)]),
      ("zoom".toList, .obj [("type".toList, .str "integer".toList),
        ("description".toList, .str "Zoom level (0-16)".toList)]),
      ("x".toList, .obj [("type".toList, .str "integer".toList),
        ("description".toList, .str "East-west tile coordinate".toList)]),
      ("y".toList, .obj [("type".toList, .str "integer".toList),
        ("description".toList, .str "North-south tile coordinate".toList)])]),
    ("required".toList, .arr [.str "mapType".toList, .str "zoom".toList, .str "x".toList, .str "y".toList])]

/-! ### `config/config.go` -/

/-- `config.Config`. -/
structure Config where
  Port : GoString
  APIKey : GoString
  MCPServerName : GoString
  deriving DecidableEq, Repr

/-- `getEnv`: the value of the variable when it exists, else the fallback.
`lookupEnv` is `os.LookupEnv`. -/
def config.getEnv (lookupEnv : GoString → Option GoString) (key fallback : GoString) : GoString :=
  match lookupEnv key with
  | some value => value
  | none => fallback

/-- `config.LoadConfig`. The environment is the one `godotenv.Load` leaves. -/
def config.LoadConfig (lookupEnv : GoString → Option GoString) : Config :=
  { Port := config.getEnv lookupEnv "PORT".toList "8080".toList,
    APIKey := config.getEnv lookupEnv "API_KEY".toList [],
    MCPServerName := config.getEnv lookupEnv "MCP_SERVER_NAME".toList
      "google-air-quality-mcp".toList }

/-! ### The three `RegisterAll` and the one that composes them -/

/-- `tools.RegisterAll` registers all tools with the MCP server. -/
def tools.RegisterAll (lookupEnv : GoString → Option GoString) (server : Server) : Server :=
  let cfg := config.LoadConfig lookupEnv
  server
    |>.AddTool
      { Name := CurrentConditionsToolName, Description := CurrentConditionsToolDescription,
        InputSchema := CurrentConditionsToolSchema }
      (fun env => NewCurrentConditionsHandler env cfg.APIKey)
    |>.AddTool
      { Name := ForecastToolName, Description := ForecastToolDescription,
        InputSchema := ForecastToolSchema }
      (fun env => NewForecastHandler env cfg.APIKey)
    |>.AddTool
      { Name := HistoryToolName, Description := HistoryToolDescription,
        InputSchema := HistoryToolSchema }
      (fun env => NewHistoryHandler env cfg.APIKey)
    |>.AddTool
      { Name := HeatmapToolName, Description := HeatmapToolDescription,
        InputSchema := HeatmapToolSchema }
      (fun env => NewHeatmapHandler env cfg.APIKey)

/-- `prompts.RegisterAll` registers all prompts with the MCP server. -/
def prompts.RegisterAll (server : Server) : Server :=
  server
    |>.AddPrompt
      { Name := "air_quality_heatmap_prompt".toList,
        Description := "Get heatmap tile image for air quality visualization".toList,
        Arguments := [
          { Name := "mapType".toList,
            Description := "Type of heatmap (e.g., UAQI_RED_GREEN)".toList,
            Required := true },
          { Name := "x".toList,
            Description := "Tile X coordinate".toList,
            Required := true },
          { Name := "y".toList,
            Description := "Tile Y coordinate".toList,
            Required := true },
          { Name := "zoom".toList,
            Description := "Zoom level (0-16)".toList,
            Required := true }] }
      AirQualityHeatmapHandler
    |>.AddPrompt
      { Name := "current_air_quality_by_location_prompt".toList,
        Description := "Get current air quality conditions by providing a location name (LLM will convert to latitude/longitude)".toList,
        Arguments := [
          { Name := "location".toList,
            Description := "Human readable location name (e.g., 'Paris, France')".toList,
            Required := true }] }
      CurrentAirQualityByLocationHandler
    |>.AddPrompt
      { Name := "air_quality_forecast_by_location_prompt".toList,
        Description := "Get air quality forecast for a location name (LLM will convert to latitude/longitude)".toList,
        Arguments := [
          { Name := "location".toList,
            Description := "Human readable location name".toList,
            Required := true },
          { Name := "pageSize".toList,
            Description := "Number of forecast hours to return (optional)".toList,
            Required := false }] }
      AirQualityForecastByLocationHandler
    |>.AddPrompt
      { Name := "air_quality_history_by_location_prompt".toList,
        Description := "Get historical air quality data for a location name (LLM will convert to latitude/longitude)".toList,
        Arguments := [
          { Name := "location".toList,
            Description := "Human readable location name".toList,
            Required := true },
          { Name := "hours".toList,
            Description := "Number of past hours to retrieve (optional)".toList,
            Required := false }] }
      AirQualityHistoryByLocationHandler
    |>.AddPrompt
      { Name := "air_quality_heatmap_by_location_prompt".toList,
        Description := "Get heatmap tile image for a location name (LLM will convert to latitude/longitude and tile coordinates)".toList,
        Arguments := [
          { Name := "location".toList,
            Description := "Human readable location name".toList,
            Required := true },
          { Name := "mapType".toList,
            Description := "Type of heatmap (e.g., UAQI_RED_GREEN)".toList,
            Required := true },
          { Name := "zoom".toList,
            Description := "Zoom level (0-16)".toList,
            Required := true }] }
      AirQualityHeatmapByLocationHandler

/-- The text of `ServerInfoHandler`. -/
def serverInfo : GoString :=
  "Google Air Quality MCP Server\n==============================\n\nThis server provides air quality data through the Google Air Quality API.\n\nAvailable Resources:\n- airquality://current/\x7blat\x7d,\x7blong\x7d - Current air quality conditions\n- airquality://forecast/\x7blat\x7d,\x7blong\x7d - Air quality forecast\n- airquality://history/\x7blat\x7d,\x7blong\x7d - Historical air quality data\n- airquality://heatmap/\x7bmapType\x7d/\x7bzoom\x7d/\x7bx\x7d/\x7by\x7d - Heatmap tiles\n\nExample: airquality://current/37.7749,-122.4194\n".toList

/-- ServerInfoHandler provides basic server information as a simple example
resource. -/
def ServerInfoHandler (_env : Env) (request : ReadResourceRequest) : ResourceReturn :=
  ⟨some ⟨[{ URI := request.URI, MIMEType := "text/plain".toList, Text := serverInfo }]⟩,
    none, [], []⟩

/-- `resources.RegisterAll` registers all resources with the MCP server. -/
def resources.RegisterAll (server : Server) : Server :=
  server.AddResource
    { URI := "example://server-info".toList, Name := "Server Information".toList,
      Description := "Basic information about this MCP server".toList,
      MIMEType := "text/plain".toList }
    ServerInfoHandler

/-- `capabilities.RegisterAll` registers all MCP features (tools, prompts,
resources) with the server. -/
def capabilities.RegisterAll (lookupEnv : GoString → Option GoString) (server : Server) :
    Server :=
  resources.RegisterAll (prompts.RegisterAll (tools.RegisterAll lookupEnv server))

/-- The names a tool schema lists as required. -/
def schemaRequired (schema : Json) : List GoString :=
  match schema with
  | .obj kvs =>
    match kvs.lookup "required".toList with
    | some (.arr xs) => xs.filterMap (fun x => match x with | .str s => some s | _ => none)
    | _ => []
  | _ => []

/-- The names of the properties a tool schema declares. -/
def schemaProperties (schema : Json) : List GoString :=
  match schema with
  | .obj kvs =>
    match kvs.lookup "properties".toList with
    | some (.obj ps) => ps.map Prod.fst
    | _ => []
  | _ => []

/-- The type a tool schema declares. -/
def schemaType (schema : Json) : Option GoString :=
  match schema with
  | .obj kvs =>
    match kvs.lookup "type".toList with
    | some (.str s) => some s
    | _ => none
  | _ => none

/-- The tool surface table of the specification: the name of each tool, its
required inputs and its optional inputs. -/
def toolSurfaceTable : List (GoString × List GoString × List GoString) :=
  [("get_current_air_quality".toList, ["latitude".toList, "longitude".toList],
      ["extraComputations".toList, "uaqiColorPalette".toList, "universalAqi".toList,
       "languageCode".toList]),
   ("get_air_quality_forecast".toList, ["latitude".toList, "longitude".toList],
      ["pageSize".toList, "pageToken".toList, "extraComputations".toList,
       "uaqiColorPalette".toList, "universalAqi".toList, "languageCode".toList,
       "dateTime".toList, "periodStartTime".toList, "periodEndTime".toList]),
   ("get_air_quality_history".toList, ["latitude".toList, "longitude".toList],
      ["pageSize".toList, "pageToken".toList, "extraComputations".toList,
       "uaqiColorPalette".toList, "universalAqi".toList, "languageCode".toList,
       "dateTime".toList, "hours".toList, "periodStartTime".toList, "periodEndTime".toList]),
   ("get_air_quality_heatmap_tile".toList,
      ["mapType".toList, "zoom".toList, "x".toList, "y".toList], [])]


/-- The read fails with the message `msg`: no result, and the error `msg`. -/
def ResourceReturn.faults (out : ResourceReturn) (msg : GoString) : Prop :=
  out.result = none ∧ out.err = some msg

/-- The read succeeds with the one content `c`: a result with `c` alone, and
no error. -/
def ResourceReturn.succeeds (out : ResourceReturn) (c : ResourceContents) : Prop :=
  out.result = some ⟨[c]⟩ ∧ out.err = none


/-! ## The library routines on sample inputs -/

theorem Split_sample :
    strings.Split '/' "a/b//c".toList = ["a".toList, "b".toList, [], "c".toList]
    ∧ strings.Split ',' [] = [[]] := by decide

theorem TrimSpace_sample : strings.TrimSpace " 1.5\t ".toList = "1.5".toList := by decide

theorem TrimPrefix_sample :
    strings.TrimPrefix "airquality://current/1,2".toList "airquality://current/".toList
      = "1,2".toList := by decide

theorem Atoi_sample :
    strconv.Atoi "17".toList = .ok 17
    ∧ strconv.Atoi "-3".toList = .ok (-3)
    ∧ strconv.Atoi "+3".toList = .ok 3
    ∧ strconv.Atoi "1x".toList = .error ⟨"Atoi".toList, "1x".toList, .ErrSyntax⟩
    ∧ strconv.Atoi [] = .error ⟨"Atoi".toList, [], .ErrSyntax⟩
    ∧ strconv.Atoi "9223372036854775807".toList = .ok 9223372036854775807
    ∧ strconv.Atoi "9223372036854775808".toList
        = .error ⟨"Atoi".toList, "9223372036854775808".toList, .ErrRange⟩
    ∧ strconv.Atoi "-9223372036854775808".toList = .ok (-9223372036854775808) := by decide

theorem Itoa_sample :
    strconv.Itoa 17 = "17".toList ∧ strconv.Itoa (-305) = "-305".toList
    ∧ strconv.Itoa 0 = "0".toList := by decide

theorem EncodeToString_sample :
    base64.EncodeToString [77, 97, 110] = "TWFu".toList
    ∧ base64.EncodeToString [77, 97] = "TWE=".toList
    ∧ base64.EncodeToString [77] = "TQ==".toList := by decide

theorem toGoString_sample : Bytes.toGoString quotaExceeded = "quota exceeded".toList := by
  decide

/-! ## Lemmas on `strings` -/

namespace strings

theorem Split_ne_nil (sep : Char) (s : GoString) : Split sep s ≠ [] := by
  induction s with
  | nil => simp [Split]
  | cons c cs ih =>
    unfold Split
    split
    · simp
    · split <;> simp

/-- A string without the separator is one piece. -/
theorem Split_of_not_mem (sep : Char) (s : GoString) (h : sep ∉ s) : Split sep s = [s] := by
  induction s with
  | nil => rfl
  | cons c cs ih =>
    have hc : c ≠ sep := fun e => h (by simp [e])
    have hcs : sep ∉ cs := fun e => h (by simp [e])
    unfold Split
    rw [if_neg hc, ih hcs]

/-- The first piece ends at the first separator. -/
theorem Split_append (sep : Char) (a rest : GoString) (h : sep ∉ a) :
    Split sep (a ++ sep :: rest) = a :: Split sep rest := by
  induction a with
  | nil => simp [Split]
  | cons c cs ih =>
    have hc : c ≠ sep := fun e => h (by simp [e])
    have hcs : sep ∉ cs := fun e => h (by simp [e])
    show Split sep (c :: (cs ++ sep :: rest)) = _
    rw [Split, if_neg hc, ih hcs]

theorem HasPrefix_append (p s : GoString) : HasPrefix (p ++ s) p = true := by
  induction p with
  | nil => simp [HasPrefix]
  | cons c cs ih => simp [HasPrefix]

theorem TrimPrefix_append (p s : GoString) : TrimPrefix (p ++ s) p = s := by
  simp [TrimPrefix, HasPrefix_append]

theorem HasPrefix_iff (s p : GoString) : HasPrefix s p = true ↔ p <+: s := by
  simp [HasPrefix]

/-- White space in front of a string is dropped with the string's own. -/
theorem dropWhile_space_append (w s : GoString) (hw : ∀ c ∈ w, IsSpace c = true) :
    (w ++ s).dropWhile IsSpace = s.dropWhile IsSpace :=
  List.dropWhile_append_of_pos hw

/-- White space around a string does not change what `TrimSpace` returns. -/
theorem TrimSpace_pad (w1 a w2 : GoString) (h1 : ∀ c ∈ w1, IsSpace c = true)
    (h2 : ∀ c ∈ w2, IsSpace c = true) : TrimSpace (w1 ++ a ++ w2) = TrimSpace a := by
  unfold TrimSpace
  rw [List.append_assoc, dropWhile_space_append w1 _ h1, List.dropWhile_append]
  have h2r : ∀ c ∈ w2.reverse, IsSpace c = true := fun c hc => h2 c (List.mem_reverse.mp hc)
  split
  · rename_i he
    have hnil : List.dropWhile IsSpace a = [] := List.isEmpty_iff.mp he
    have hw : List.dropWhile IsSpace w2 = [] := List.dropWhile_eq_nil_iff.mpr (by simpa using h2)
    rw [hnil, hw]
  · rw [List.reverse_append, dropWhile_space_append _ _ h2r]

/-- A white space character is no comma. -/
theorem comma_not_mem_of_space (w : GoString) (hw : ∀ c ∈ w, IsSpace c = true) : ',' ∉ w :=
  fun h => absurd (hw _ h) (by decide)

end strings

/-! ## Lemmas on `strconv`: `Atoi` reads back what `Itoa` prints -/

namespace strconv

theorem digitChar_toNat (d : Nat) (h : d < 10) : (digitChar d).toNat = 48 + d := by
  interval_cases d <;> rfl

theorem isDigit_digitChar (d : Nat) (h : d < 10) : isDigit (digitChar d) = true := by
  simp [isDigit, digitChar_toNat d h]; omega

theorem digitVal_digitChar (d : Nat) (h : d < 10) : digitVal (digitChar d) = d := by
  simp [digitVal, digitChar_toNat d h]

theorem utf8Size_digitChar (d : Nat) (h : d < 10) : (digitChar d).utf8Size = 1 := by
  interval_cases d <;> rfl

/-- The digits are put in front of the accumulator. -/
theorem formatBits_acc (fuel u : Nat) (acc : GoString) :
    formatBits fuel u acc = formatBits fuel u [] ++ acc := by
  induction fuel generalizing u acc with
  | zero => simp [formatBits]
  | succ k ih =>
    unfold formatBits
    split
    · simp
    · rw [ih (u / 10) (digitChar (u % 10) :: acc), ih (u / 10) [digitChar (u % 10)]]
      simp

/-- The digits of `u`, one equation for each case of the loop. -/
theorem formatBits_step (fuel u : Nat) (h : 10 ≤ u) :
    formatBits (fuel + 1) u [] = formatBits fuel (u / 10) [] ++ [digitChar (u % 10)] := by
  rw [formatBits, if_neg (by omega), formatBits_acc]

theorem formatBits_small (fuel u : Nat) (h : u < 10) :
    formatBits (fuel + 1) u [] = [digitChar u] := by
  rw [formatBits, if_pos h]

theorem formatBits_ne_nil (fuel u : Nat) : formatBits (fuel + 1) u [] ≠ [] := by
  by_cases h : u < 10
  · simp [formatBits_small fuel u h]
  · simp [formatBits_step fuel u (by omega)]

/-- Every character that `formatBits` writes is one of the ten digits. -/
theorem formatBits_mem (fuel u : Nat) :
    ∀ c ∈ formatBits fuel u [], ∃ d, d < 10 ∧ c = digitChar d := by
  induction fuel generalizing u with
  | zero => simp [formatBits]
  | succ k ih =>
    intro c hc
    by_cases h : u < 10
    · rw [formatBits_small k u h] at hc
      simp at hc
      exact ⟨u, h, hc⟩
    · rw [formatBits_step k u (by omega)] at hc
      simp at hc
      rcases hc with hc | hc
      · exact ih (u / 10) c hc
      · exact ⟨u % 10, Nat.mod_lt _ (by decide), hc⟩

theorem formatBits_isDigit (fuel u : Nat) : ∀ c ∈ formatBits fuel u [], isDigit c = true := by
  intro c hc
  obtain ⟨d, hd, rfl⟩ := formatBits_mem fuel u c hc
  exact isDigit_digitChar d hd

/-- A string of digits has one byte for each character. -/
theorem byteLen_formatBits (fuel u : Nat) :
    byteLen (formatBits fuel u []) = (formatBits fuel u []).length := by
  have key : ∀ l : GoString, (∀ c ∈ l, ∃ d, d < 10 ∧ c = digitChar d) →
      byteLen l = l.length := by
    intro l
    induction l with
    | nil => intro _; rfl
    | cons c cs ih =>
      intro hl
      obtain ⟨d, hd, hc⟩ := hl c (by simp)
      have := ih (fun x hx => hl x (by simp [hx]))
      simp only [byteLen, List.map_cons, List.sum_cons, List.length_cons] at this ⊢
      rw [this, hc, utf8Size_digitChar d hd]; omega
  exact key _ (formatBits_mem fuel u)

theorem atoiLoop_append (xs ys : GoString) (n : Nat) :
    atoiLoop (xs ++ ys) n = (atoiLoop xs n).bind (atoiLoop ys) := by
  induction xs generalizing n with
  | nil => simp [atoiLoop]
  | cons c cs ih =>
    simp only [List.cons_append, atoiLoop]
    split
    · exact ih _
    · rfl

/-- The fast path of `Atoi` reads the digits of `u` back as `u`. -/
theorem atoiLoop_formatBits (fuel u : Nat) (h : u < fuel) :
    atoiLoop (formatBits fuel u []) 0 = some u := by
  induction fuel generalizing u with
  | zero => omega
  | succ k ih =>
    by_cases hu : u < 10
    · rw [formatBits_small k u hu]
      simp [atoiLoop, isDigit_digitChar u hu, digitVal_digitChar u hu]
    · rw [formatBits_step k u (by omega), atoiLoop_append, ih (u / 10) (by omega)]
      have hm : u % 10 < 10 := Nat.mod_lt _ (by decide)
      simp [atoiLoop, isDigit_digitChar _ hm, digitVal_digitChar _ hm]
      omega

theorem parseUintLoop_append (s0 xs ys : GoString) (n : Nat) :
    parseUintLoop s0 (xs ++ ys) n =
      match parseUintLoop s0 xs n with
      | .ok m => parseUintLoop s0 ys m
      | .error e => .error e := by
  induction xs generalizing n with
  | nil => simp [parseUintLoop]
  | cons c cs ih =>
    simp only [List.cons_append, parseUintLoop]
    split
    · rfl
    · split
      · rfl
      · split
        · rfl
        · exact ih _

/-- The loop of `ParseUint` reads the digits of a 64-bit `u` back as `u`. -/
theorem parseUintLoop_formatBits (s0 : GoString) (fuel u : Nat) (h : u < fuel)
    (hu : u ≤ maxUint64) : parseUintLoop s0 (formatBits fuel u []) 0 = .ok u := by
  induction fuel generalizing u with
  | zero => omega
  | succ k ih =>
    have hmax : maxUint64 = 18446744073709551615 := by decide
    by_cases hu10 : u < 10
    · rw [formatBits_small k u hu10]
      simp only [parseUintLoop, isDigit_digitChar u hu10, digitVal_digitChar u hu10, hmax]
      have e : (0 * 10 + u) % 2 ^ 64 = u := by omega
      rw [e]
      simp
      omega
    · rw [formatBits_step k u (by omega), parseUintLoop_append, ih (u / 10) (by omega) (by omega)]
      have hm : u % 10 < 10 := Nat.mod_lt _ (by decide)
      simp only [parseUintLoop, isDigit_digitChar _ hm, digitVal_digitChar _ hm, hmax]
      have e : (u / 10 * 10 + u % 10) % 2 ^ 64 = u := by omega
      rw [e]
      have h1 : ¬ (u / 10 ≥ 18446744073709551615 / 10 + 1) := by omega
      have h2 : ¬ (u < u / 10 * 10 ∨ u > 18446744073709551615) := by omega
      simp only [Bool.not_true, Bool.false_eq_true, if_false, if_neg h1, if_neg h2]

/-- The digits of a number: a first digit, which is no sign, and the rest. -/
theorem formatBits_cons (fuel u : Nat) :
    ∃ c rest, formatBits (fuel + 1) u [] = c :: rest ∧ c ≠ '-' ∧ c ≠ '+' := by
  have hne := formatBits_ne_nil fuel u
  cases hD : formatBits (fuel + 1) u [] with
  | nil => exact absurd hD hne
  | cons c rest =>
    refine ⟨c, rest, rfl, ?_, ?_⟩
    · intro hc
      have := formatBits_isDigit (fuel + 1) u c (by rw [hD]; simp)
      rw [hc] at this; exact absurd this (by decide)
    · intro hc
      have := formatBits_isDigit (fuel + 1) u c (by rw [hD]; simp)
      rw [hc] at this; exact absurd this (by decide)

/-- `Atoi` reads a non-negative 64-bit integer back from its digits. -/
theorem Atoi_formatBits (u : Nat) (hu : u < 2 ^ 63) :
    Atoi (formatBits (u + 1) u []) = .ok (u : Int) := by
  obtain ⟨c, rest, hD, hm, hp⟩ := formatBits_cons u u
  have hfast := atoiLoop_formatBits (u + 1) u (by omega)
  have hslow := parseUintLoop_formatBits (formatBits (u + 1) u []) (u + 1) u (by omega)
    (by simp only [maxUint64]; omega)
  unfold Atoi
  split
  · rw [hD] at hfast ⊢
    simp [hm, hp, hfast]
  · have hPI : ParseInt (formatBits (u + 1) u []) = .ok (u : Int) := by
      rw [hD] at hslow ⊢
      have h63 : ¬ (2 ^ 63 ≤ u) := by omega
      simp [ParseInt, ParseUint, hm, hp, hslow]
      omega
    rw [hPI]

/-- `Atoi` reads a negative 64-bit integer back from its sign and digits. -/
theorem Atoi_neg_formatBits (u : Nat) (hu : u ≤ 2 ^ 63) :
    Atoi ('-' :: formatBits (u + 1) u []) = .ok (-(u : Int)) := by
  obtain ⟨c, rest, hD, -, -⟩ := formatBits_cons u u
  have hfast := atoiLoop_formatBits (u + 1) u (by omega)
  have hslow := parseUintLoop_formatBits (formatBits (u + 1) u []) (u + 1) u (by omega)
    (by simp only [maxUint64]; omega)
  unfold Atoi
  split
  · simp [hD]
    rw [← hD, hfast]
  · have hPI : ParseInt ('-' :: formatBits (u + 1) u []) = .ok (-(u : Int)) := by
      have hne : formatBits (u + 1) u [] ≠ [] := formatBits_ne_nil u u
      simp [ParseInt, ParseUint, hne, hslow]
      omega
    rw [hPI]

/-- Round trip of the decimal text of an `int`: `Atoi (Itoa i) = i`. -/
theorem Atoi_Itoa (i : Int) (hlo : -(2 : Int) ^ 63 ≤ i) (hhi : i < (2 : Int) ^ 63) :
    Atoi (Itoa i) = .ok i := by
  unfold Itoa
  split
  · rename_i hneg
    have h := Atoi_neg_formatBits i.natAbs (by omega)
    rw [h]
    congr 1
    omega
  · rename_i hpos
    have h := Atoi_formatBits i.natAbs (by omega)
    rw [h]
    congr 1
    omega

/-- The text of an `int` holds digits and a sign only. -/
theorem Itoa_mem (i : Int) : ∀ c ∈ Itoa i, c = '-' ∨ isDigit c = true := by
  intro c hc
  unfold Itoa at hc
  split at hc
  · simp only [List.mem_cons] at hc
    rcases hc with hc | hc
    · exact Or.inl hc
    · exact Or.inr (formatBits_isDigit _ _ c hc)
  · exact Or.inr (formatBits_isDigit _ _ c hc)

/-- No slash in the text of an `int`. -/
theorem slash_not_mem_Itoa (i : Int) : '/' ∉ Itoa i := by
  intro h
  rcases Itoa_mem i '/' h with h | h
  · exact absurd h (by decide)
  · exact absurd h (by decide)

end strconv

/-! ## Lemmas on the resource handlers -/

/-- `parseLatLong` on two halves without a comma: each half is trimmed and
parsed, the latitude first. -/
theorem parseLatLong_join (env : Env) (a b : GoString) (ha : ',' ∉ a) (hb : ',' ∉ b) :
    parseLatLong env (a ++ ',' :: b) =
      match env.ParseFloat (strings.TrimSpace a) with
      | .error e => .error ("invalid latitude: ".toList ++ e.Error env.Quote)
      | .ok lat =>
        match env.ParseFloat (strings.TrimSpace b) with
        | .error e => .error ("invalid longitude: ".toList ++ e.Error env.Quote)
        | .ok lon => .ok (lat, lon) := by
  unfold parseLatLong
  rw [strings.Split_append ',' a b ha, strings.Split_of_not_mem ',' b hb]

/-- A read whose URI lacks the prefix fails before anything else is done. -/
theorem not_HasPrefix (s p : GoString) (h : ¬ p <+: s) : (!strings.HasPrefix s p) = true := by
  rw [Bool.not_eq_true', ← Bool.not_eq_true, strings.HasPrefix_iff]
  exact h

/-- The path of a tile URI splits into its four parts. -/
theorem Split_heatmap_path (m : GoString) (z x y : Int) (hm : '/' ∉ m) :
    strings.Split '/' (strings.TrimPrefix (heatmapURI m z x y) "airquality://heatmap/".toList)
      = [m, strconv.Itoa z, strconv.Itoa x, strconv.Itoa y] := by
  have e : heatmapURI m z x y = "airquality://heatmap/".toList
      ++ (m ++ '/' :: (strconv.Itoa z ++ '/' :: (strconv.Itoa x ++ '/' :: strconv.Itoa y))) := by
    simp [heatmapURI, String.toList]
  rw [e, strings.TrimPrefix_append, strings.Split_append '/' m _ hm,
    strings.Split_append '/' _ _ (strconv.slash_not_mem_Itoa z),
    strings.Split_append '/' _ _ (strconv.slash_not_mem_Itoa x),
    strings.Split_of_not_mem '/' _ (strconv.slash_not_mem_Itoa y)]

theorem HasPrefix_heatmapURI (m : GoString) (z x y : Int) :
    strings.HasPrefix (heatmapURI m z x y) "airquality://heatmap/".toList = true := by
  have e : heatmapURI m z x y = "airquality://heatmap/".toList
      ++ (m ++ '/' :: (strconv.Itoa z ++ '/' :: (strconv.Itoa x ++ '/' :: strconv.Itoa y))) := by
    simp [heatmapURI, String.toList]
  rw [e, strings.HasPrefix_append]

/-- No map type of the list holds a slash. -/
theorem slash_not_mem_of_valid (m : GoString) (hm : m ∈ validTypes) : '/' ∉ m := by
  simp only [validTypes, List.mem_cons, List.mem_singleton, List.not_mem_nil, or_false] at hm
  rcases hm with h | h | h | h | h | h | h | h <;> rw [h] <;> decide

theorem any_validTypes (m : GoString) :
    (validTypes.any (fun t => decide (m = t))) = true ↔ m ∈ validTypes := by
  rw [List.any_eq_true]
  constructor
  · rintro ⟨t, ht, he⟩
    rw [of_decide_eq_true he]; exact ht
  · intro hm
    exact ⟨m, hm, decide_eq_true rfl⟩

/-- On a tile URI with a map type of the list, the heatmap handler calls the
provider client once, with the four parts of the URI. -/
theorem HeatmapHandler_calls_of_valid (env : Env) (h : AirQualityResourceHandler)
    (m : GoString) (z x y : Int) (hm : m ∈ validTypes)
    (hz : isInt64 z) (hx : isInt64 x) (hy : isInt64 y) :
    (h.HeatmapHandler env ⟨heatmapURI m z x y⟩).calls = [ProviderCall.GetHeatmapTile m z x y] := by
  unfold AirQualityResourceHandler.HeatmapHandler
  simp only [HasPrefix_heatmapURI, Bool.not_true, Bool.false_eq_true, if_false,
    Split_heatmap_path m z x y (slash_not_mem_of_valid m hm),
    strconv.Atoi_Itoa z hz.1 hz.2, strconv.Atoi_Itoa x hx.1 hx.2, strconv.Atoi_Itoa y hy.1 hy.2,
    (any_validTypes m).mpr hm]
  cases h.client.GetHeatmapTile env m z x y with
  | mk r http => cases r <;> rfl

theorem heatmapURI_zoom_17 : "airquality://heatmap/UAQI_RED_GREEN/17/0/0".toList
    = heatmapURI "UAQI_RED_GREEN".toList 17 0 0 := by decide

theorem heatmapURI_zoom_minus_1 : "airquality://heatmap/UAQI_RED_GREEN/-1/0/0".toList
    = heatmapURI "UAQI_RED_GREEN".toList (-1) 0 0 := by decide

/-- On a tile URI with a map type outside the list, the heatmap handler
fails with `invalid map type` before any call. -/
theorem HeatmapHandler_of_invalid (env : Env) (h : AirQualityResourceHandler)
    (m : GoString) (z x y : Int) (hm : m ∉ validTypes) (hs : '/' ∉ m)
    (hz : isInt64 z) (hx : isInt64 x) (hy : isInt64 y) :
    h.HeatmapHandler env ⟨heatmapURI m z x y⟩
      = ResourceReturn.fail ("invalid map type: ".toList ++ m) := by
  have hany : (validTypes.any (fun t => decide (m = t))) = false := by
    rw [← Bool.not_eq_true, any_validTypes]; exact hm
  unfold AirQualityResourceHandler.HeatmapHandler
  simp only [HasPrefix_heatmapURI, Bool.not_true, Bool.false_eq_true, if_false,
    Split_heatmap_path m z x y hs,
    strconv.Atoi_Itoa z hz.1 hz.2, strconv.Atoi_Itoa x hx.1 hx.2, strconv.Atoi_Itoa y hy.1 hy.2,
    hany, Bool.not_false, if_true]

/-- Whatever the URI, the heatmap handler calls the provider client at most
once, and only with a map type of the list. -/
theorem HeatmapHandler_calls (env : Env) (h : AirQualityResourceHandler)
    (request : ReadResourceRequest) :
    (h.HeatmapHandler env request).calls = [] ∨
      ∃ m z x y, m ∈ validTypes ∧
        (h.HeatmapHandler env request).calls = [ProviderCall.GetHeatmapTile m z x y] := by
  unfold AirQualityResourceHandler.HeatmapHandler
  dsimp only
  split
  · exact Or.inl rfl
  · split
    · rename_i mapTypeStr zStr xStr yStr _
      split
      · exact Or.inl rfl
      · rename_i zoom _
        split
        · exact Or.inl rfl
        · rename_i x _
          split
          · exact Or.inl rfl
          · rename_i y _
            split
            · exact Or.inl rfl
            · rename_i hv
              refine Or.inr ⟨mapTypeStr, zoom, x, y, ?_, ?_⟩
              · rw [← any_validTypes]; simpa using hv
              · split <;> rfl
    · exact Or.inl rfl

/-! ## Lemmas on the client and the tool handlers -/

/-- A POST that succeeds sent one request, got status 200 and a body that
`unmarshal` decodes to the response. -/
theorem doPostRequest_ok {α : Type} (env : Env) (c : Client) (url : GoString)
    (reqBody : Except GoString Json) (unmarshal : Bytes → Except GoString α)
    (resp : α) (http : List HttpRequest)
    (h : c.doPostRequest env url reqBody unmarshal = (.ok resp, http)) :
    ∃ q body, http = [q] ∧ env.httpDo q = .response 200 body ∧ unmarshal body = .ok resp := by
  unfold Client.doPostRequest at h
  split at h
  · cases h
  · split at h
    · cases h
    · dsimp only at h
      split at h
      · cases h
      · cases h
      · rename_i status body hdo
        split at h
        · cases h
        · rename_i hs
          split at h
          · cases h
          · rename_i r hr
            injection h with h1 h2
            injection h1 with h1
            subst h1
            have hs' : status = 200 := by
              by_contra hne
              exact hs hne
            subst hs'
            exact ⟨_, body, h2.symm, hdo, hr⟩

/-- A tile fetch that succeeds sent one request and got status 200. -/
theorem GetHeatmapTile_ok (env : Env) (c : Client) (m : MapType) (z x y : Int)
    (data : Bytes) (http : List HttpRequest)
    (h : c.GetHeatmapTile env m z x y = (.ok data, http)) :
    ∃ q, http = [q] ∧ env.httpDo q = .response 200 data := by
  unfold Client.GetHeatmapTile at h
  dsimp only at h
  split at h
  · cases h
  · split at h
    · cases h
    · split at h <;> cases h
    · rename_i status body hdo
      split at h
      · cases h
      · rename_i hs
        injection h with h1 h2
        injection h1 with h1
        subst h1
        have hs' : status = 200 := by
          by_contra hne
          exact hs hne
        subst hs'
        exact ⟨_, h2.symm, hdo⟩

theorem GetCurrentConditions_ok (env : Env) (c : Client) (req : CurrentConditionsRequest)
    (resp : CurrentConditionsResponse) (http : List HttpRequest)
    (h : c.GetCurrentConditions env req = (.ok resp, http)) :
    ∃ q body, http = [q] ∧ env.httpDo q = .response 200 body
      ∧ env.unmarshalCurrentConditions body = .ok resp :=
  doPostRequest_ok env c (baseURL ++ "/currentConditions:lookup?key=".toList ++ c.apiKey)
    (json.marshalCurrentConditionsRequest env.jsonFloat req) env.unmarshalCurrentConditions
    resp http h

theorem GetForecast_ok (env : Env) (c : Client) (req : ForecastRequest)
    (resp : ForecastResponse) (http : List HttpRequest)
    (h : c.GetForecast env req = (.ok resp, http)) :
    ∃ q body, http = [q] ∧ env.httpDo q = .response 200 body
      ∧ env.unmarshalForecast body = .ok resp :=
  doPostRequest_ok env c (baseURL ++ "/forecast:lookup?key=".toList ++ c.apiKey)
    (json.marshalForecastRequest env.jsonFloat req) env.unmarshalForecast resp http h

theorem GetHistory_ok (env : Env) (c : Client) (req : HistoryRequest)
    (resp : HistoryResponse) (http : List HttpRequest)
    (h : c.GetHistory env req = (.ok resp, http)) :
    ∃ q body, http = [q] ∧ env.httpDo q = .response 200 body
      ∧ env.unmarshalHistory body = .ok resp :=
  doPostRequest_ok env c (baseURL ++ "/history:lookup?key=".toList ++ c.apiKey)
    (json.marshalHistoryRequest env.jsonFloat req) env.unmarshalHistory resp http h

/-- An error result keeps the discipline. -/
theorem toolError_reportsInResult (env : Env) (accepts : Bytes → Prop) (text : GoString)
    (calls : List ProviderCall) (http : List HttpRequest) :
    (toolError text calls http).reportsInResult env accepts :=
  ⟨_, text, rfl, rfl, rfl, fun h => by cases h⟩

/-- The heatmap tool keeps the discipline. -/
theorem NewHeatmapHandler_reports (env : Env) (apiKey : GoString) (request : CallToolRequest) :
    (NewHeatmapHandler env apiKey request).reportsInResult env (fun _ => True) := by
  unfold NewHeatmapHandler
  split
  · exact toolError_reportsInResult _ _ _ _ _
  · rename_i input _
    split
    · exact toolError_reportsInResult _ _ _ _ _
    · dsimp only
      cases hres : (NewClient apiKey).GetHeatmapTile env input.MapType input.Zoom input.X input.Y with
      | mk r http =>
        cases r with
        | error e => exact toolError_reportsInResult _ _ _ _ _
        | ok data =>
          obtain ⟨q, hq, hdo⟩ := GetHeatmapTile_ok env _ _ _ _ _ data http hres
          exact ⟨_, _, rfl, rfl, rfl, fun _ => ⟨q, data, hq, hdo, trivial⟩⟩

/-- The current conditions tool keeps the discipline. -/
theorem NewCurrentConditionsHandler_reports (env : Env) (apiKey : GoString)
    (request : CallToolRequest) :
    (NewCurrentConditionsHandler env apiKey request).reportsInResult env
      (fun body => ∃ resp, env.unmarshalCurrentConditions body = .ok resp) := by
  unfold NewCurrentConditionsHandler
  split
  · exact toolError_reportsInResult _ _ _ _ _
  · rename_i input _
    dsimp only
    cases hres : (NewClient apiKey).GetCurrentConditions env input.request with
    | mk r http =>
      cases r with
      | error e => exact toolError_reportsInResult _ _ _ _ _
      | ok resp =>
        obtain ⟨q, body, hq, hdo, hun⟩ := GetCurrentConditions_ok env _ _ resp http hres
        dsimp only
        split
        · exact toolError_reportsInResult _ _ _ _ _
        · exact ⟨_, _, rfl, rfl, rfl, fun _ => ⟨q, body, hq, hdo, resp, hun⟩⟩

/-- The forecast tool keeps the discipline. -/
theorem NewForecastHandler_reports (env : Env) (apiKey : GoString) (request : CallToolRequest) :
    (NewForecastHandler env apiKey request).reportsInResult env
      (fun body => ∃ resp, env.unmarshalForecast body = .ok resp) := by
  unfold NewForecastHandler
  split
  · exact toolError_reportsInResult _ _ _ _ _
  · rename_i input _
    dsimp only
    cases hres : (NewClient apiKey).GetForecast env input.request with
    | mk r http =>
      cases r with
      | error e => exact toolError_reportsInResult _ _ _ _ _
      | ok resp =>
        obtain ⟨q, body, hq, hdo, hun⟩ := GetForecast_ok env _ _ resp http hres
        dsimp only
        split
        · exact toolError_reportsInResult _ _ _ _ _
        · exact ⟨_, _, rfl, rfl, rfl, fun _ => ⟨q, body, hq, hdo, resp, hun⟩⟩

/-- The history tool keeps the discipline. -/
theorem NewHistoryHandler_reports (env : Env) (apiKey : GoString) (request : CallToolRequest) :
    (NewHistoryHandler env apiKey request).reportsInResult env
      (fun body => ∃ resp, env.unmarshalHistory body = .ok resp) := by
  unfold NewHistoryHandler
  split
  · exact toolError_reportsInResult _ _ _ _ _
  · rename_i input _
    dsimp only
    cases hres : (NewClient apiKey).GetHistory env input.request with
    | mk r http =>
      cases r with
      | error e => exact toolError_reportsInResult _ _ _ _ _
      | ok resp =>
        obtain ⟨q, body, hq, hdo, hun⟩ := GetHistory_ok env _ _ resp http hres
        dsimp only
        split
        · exact toolError_reportsInResult _ _ _ _ _
        · exact ⟨_, _, rfl, rfl, rfl, fun _ => ⟨q, body, hq, hdo, resp, hun⟩⟩

/-- With an input whose zoom is within 0..16, the heatmap tool calls the
provider client with the decoded fields, whatever the map type. -/
theorem NewHeatmapHandler_calls (env : Env) (apiKey : GoString) (request : CallToolRequest)
    (input : HeatmapInput)
    (hdec : parseInput HeatmapInput.Unmarshal {} request.Arguments = .ok input)
    (hz : 0 ≤ input.Zoom ∧ input.Zoom ≤ 16) :
    (NewHeatmapHandler env apiKey request).calls
        = [ProviderCall.GetHeatmapTile input.MapType input.Zoom input.X input.Y] := by
  unfold NewHeatmapHandler
  rw [hdec]
  have hz' : ¬ (input.Zoom < 0 ∨ input.Zoom > 16) := by omega
  simp only [if_neg hz']
  cases (NewClient apiKey).GetHeatmapTile env input.MapType input.Zoom input.X input.Y with
  | mk r http => cases r <;> rfl

/-- The location tools call the provider client with the request built from
the decoded input, whatever the input. -/
theorem NewCurrentConditionsHandler_calls (env : Env) (apiKey : GoString)
    (request : CallToolRequest) (input : CurrentConditionsInput)
    (hdec : parseInput (CurrentConditionsInput.Unmarshal env) {} request.Arguments = .ok input) :
    (NewCurrentConditionsHandler env apiKey request).calls
      = [ProviderCall.GetCurrentConditions input.request] := by
  unfold NewCurrentConditionsHandler
  rw [hdec]
  dsimp only
  split
  · rfl
  · split <;> rfl

theorem NewForecastHandler_calls (env : Env) (apiKey : GoString)
    (request : CallToolRequest) (input : ForecastInput)
    (hdec : parseInput (ForecastInput.Unmarshal env) {} request.Arguments = .ok input) :
    (NewForecastHandler env apiKey request).calls = [ProviderCall.GetForecast input.request] := by
  unfold NewForecastHandler
  rw [hdec]
  dsimp only
  split
  · rfl
  · split <;> rfl

theorem NewHistoryHandler_calls (env : Env) (apiKey : GoString)
    (request : CallToolRequest) (input : HistoryInput)
    (hdec : parseInput (HistoryInput.Unmarshal env) {} request.Arguments = .ok input) :
    (NewHistoryHandler env apiKey request).calls = [ProviderCall.GetHistory input.request] := by
  unfold NewHistoryHandler
  rw [hdec]
  dsimp only
  split
  · rfl
  · split <;> rfl

/-! ## Theorems -/

/-- C1: each of the four tool handlers, for every request and whatever the
provider does, returns a result and no Go error; the result holds one text,
and it is flagged `IsError` unless the one HTTP request the handler sent was
answered with status 200 and (for the three JSON tools) a body that decodes.
So an argument that does not decode, a failed check, a transport failure, a
status other than 200 and an undecodable body all show as `IsError = true`. -/
theorem C1_tool_failures_are_results (env : Env) (apiKey : GoString)
    (request : CallToolRequest) :
    (NewCurrentConditionsHandler env apiKey request).reportsInResult env
        (fun body => ∃ resp, env.unmarshalCurrentConditions body = .ok resp)
    ∧ (NewForecastHandler env apiKey request).reportsInResult env
        (fun body => ∃ resp, env.unmarshalForecast body = .ok resp)
    ∧ (NewHistoryHandler env apiKey request).reportsInResult env
        (fun body => ∃ resp, env.unmarshalHistory body = .ok resp)
    ∧ (NewHeatmapHandler env apiKey request).reportsInResult env (fun _ => True) :=
  ⟨NewCurrentConditionsHandler_reports env apiKey request,
    NewForecastHandler_reports env apiKey request,
    NewHistoryHandler_reports env apiKey request,
    NewHeatmapHandler_reports env apiKey request⟩

/-- C2: when the arguments of a heatmap tool call decode to an input whose
zoom is below 0 or above 16, the handler returns the error result with the
text `zoom must be between 0 and 16` and calls neither the provider client
nor the network; and whatever the request, a call of `GetHeatmapTile` that
the handler makes has its zoom within 0..16. -/
theorem C2_heatmap_tool_rejects_zoom_out_of_range (env : Env) (apiKey : GoString)
    (request : CallToolRequest) (input : HeatmapInput)
    (hdec : parseInput HeatmapInput.Unmarshal {} request.Arguments = .ok input)
    (hz : input.Zoom < 0 ∨ input.Zoom > 16) :
    NewHeatmapHandler env apiKey request =
      { result := some { IsError := true,
                         Content := [.TextContent "zoom must be between 0 and 16".toList] },
        err := none, calls := [], http := [] }
    ∧ ∀ (r : CallToolRequest) (m : MapType) (z x y : Int),
        ProviderCall.GetHeatmapTile m z x y ∈ (NewHeatmapHandler env apiKey r).calls →
          0 ≤ z ∧ z ≤ 16 := by
  constructor
  · unfold NewHeatmapHandler
    rw [hdec]
    simp only [if_pos hz]
    rfl
  · intro r m z x y hmem
    unfold NewHeatmapHandler at hmem
    split at hmem
    · cases hmem
    · rename_i inp _
      split at hmem
      · cases hmem
      · rename_i hzoom
        dsimp only at hmem
        have hc : ProviderCall.GetHeatmapTile m z x y
            ∈ [ProviderCall.GetHeatmapTile inp.MapType inp.Zoom inp.X inp.Y] := by
          split at hmem <;> exact hmem
        rw [List.mem_singleton] at hc
        injection hc with _ hzz _ _
        rw [hzz]
        omega

/-- C2 at the arguments `{"mapType": "US_AQI", "zoom": 17, "x": 0, "y": 0}`. -/
theorem C2_heatmap_tool_rejects_zoom_out_of_range_witness :
    NewHeatmapHandler exampleEnv "KEY".toList ⟨some (.ok zoom17Arguments)⟩ =
      { result := some { IsError := true,
                         Content := [.TextContent "zoom must be between 0 and 16".toList] },
        err := none, calls := [], http := [] } :=
  (C2_heatmap_tool_rejects_zoom_out_of_range exampleEnv "KEY".toList
    ⟨some (.ok zoom17Arguments)⟩ { MapType := "US_AQI".toList, Zoom := 17, X := 0, Y := 0 }
    (by decide) (by decide)).1

/-- C3: for integers `zoom`, `x`, `y` in the range of `int`, the heatmap
resource handler, read at `airquality://heatmap/{mapType}/{zoom}/{x}/{y}`,
passes every check and calls the provider client with exactly
`(mapType, zoom, x, y)` if and only if `mapType` is one of the eight
`MapType` constants; the list the handler checks against is the list of
these constants. -/
theorem C3_heatmap_resource_accepts_exactly_the_map_types (env : Env)
    (h : AirQualityResourceHandler) (m : GoString) (z x y : Int)
    (hz : isInt64 z) (hx : isInt64 x) (hy : isInt64 y) :
    validTypes = mapTypeConstants ∧
    ((h.HeatmapHandler env ⟨heatmapURI m z x y⟩).calls = [ProviderCall.GetHeatmapTile m z x y]
      ↔ m ∈ mapTypeConstants) := by
  have hlist : validTypes = mapTypeConstants := rfl
  refine ⟨hlist, ?_, ?_⟩
  · intro hc
    rcases HeatmapHandler_calls env h ⟨heatmapURI m z x y⟩ with h0 | ⟨m', z', x', y', hm', h1⟩
    · rw [h0] at hc; cases hc
    · rw [h1] at hc
      injection hc with hc _
      injection hc with hc _
      rw [← hlist, ← hc]; exact hm'
  · intro hm
    exact HeatmapHandler_calls_of_valid env h m z x y (hlist ▸ hm) hz hx hy

/-- C3 at the tile `US_AQI/3/1/2`. -/
theorem C3_heatmap_resource_accepts_exactly_the_map_types_witness :
    (exampleHandler.HeatmapHandler exampleEnv ⟨"airquality://heatmap/US_AQI/3/1/2".toList⟩).calls
      = [ProviderCall.GetHeatmapTile "US_AQI".toList 3 1 2] :=
  (C3_heatmap_resource_accepts_exactly_the_map_types exampleEnv exampleHandler "US_AQI".toList
    3 1 2 (by decide) (by decide) (by decide)).2.mpr (by decide)

/-- C4 as stated fails: the URI `airquality://heatmap/FOO/abc/0/0` has the
map type part `FOO`, none of the eight, and the handler's error is the one
for the zoom level; and with the map type `FOO/BAR` before `/1/2/3` the error
is the one for the number of segments. Neither holds `invalid map type`. -/
theorem C4_counterexample_zoom_checked_before_map_type :
    "FOO".toList ∉ validTypes
    ∧ (exampleHandler.HeatmapHandler exampleEnv ⟨"airquality://heatmap/FOO/abc/0/0".toList⟩).err
      = some "invalid zoom level: strconv.Atoi: parsing \x22abc\x22: invalid syntax".toList
    ∧ ¬ ("invalid map type".toList <:+:
      "invalid zoom level: strconv.Atoi: parsing \x22abc\x22: invalid syntax".toList)
    ∧ "FOO/BAR".toList ∉ validTypes
    ∧ (exampleHandler.HeatmapHandler exampleEnv ⟨heatmapURI "FOO/BAR".toList 1 2 3⟩).err
      = some "invalid heatmap URI format, expected \x7bmapType\x7d/\x7bz\x7d/\x7bx\x7d/\x7by\x7d".toList
    ∧ ¬ ("invalid map type".toList <:+:
      "invalid heatmap URI format, expected \x7bmapType\x7d/\x7bz\x7d/\x7bx\x7d/\x7by\x7d".toList) := by
  decide

/-- C4, amended: read at `airquality://heatmap/{mapType}/{zoom}/{x}/{y}` with
integers `zoom`, `x`, `y` and a `mapType` segment, without a slash, that is
none of the eight map types, the heatmap resource handler returns no result
and an error holding `invalid map type`, and calls neither the provider
client nor the network; and whatever the URI of a read, the handler calls the
provider client with a map type of the eight only. -/
theorem C4_heatmap_resource_rejects_other_map_types (env : Env)
    (h : AirQualityResourceHandler) (m : GoString) (z x y : Int)
    (hm : m ∉ validTypes) (hs : '/' ∉ m)
    (hz : isInt64 z) (hx : isInt64 x) (hy : isInt64 y) :
    (∃ e, "invalid map type".toList <:+: e ∧
      h.HeatmapHandler env ⟨heatmapURI m z x y⟩
        = { result := none, err := some e, calls := [], http := [] })
    ∧ ∀ (request : ReadResourceRequest) (m' : GoString) (z' x' y' : Int),
        ProviderCall.GetHeatmapTile m' z' x' y' ∈ (h.HeatmapHandler env request).calls →
          m' ∈ validTypes := by
  refine ⟨⟨"invalid map type: ".toList ++ m, ?_, ?_⟩, ?_⟩
  · exact ⟨[], ": ".toList ++ m, by simp [String.toList]⟩
  · exact HeatmapHandler_of_invalid env h m z x y hm hs hz hx hy
  · intro request m' z' x' y' hmem
    rcases HeatmapHandler_calls env h request with h0 | ⟨m1, z1, x1, y1, hm1, h1⟩
    · rw [h0] at hmem; cases hmem
    · rw [h1, List.mem_singleton] at hmem
      injection hmem with hmem
      rw [hmem]; exact hm1

/-- C4, amended, at the tile `PM10/3/1/2`. -/
theorem C4_heatmap_resource_rejects_other_map_types_witness :
    ∃ e, "invalid map type".toList <:+: e ∧
      exampleHandler.HeatmapHandler exampleEnv ⟨"airquality://heatmap/PM10/3/1/2".toList⟩
        = { result := none, err := some e, calls := [], http := [] } :=
  (C4_heatmap_resource_rejects_other_map_types exampleEnv exampleHandler "PM10".toList 3 1 2
    (by decide) (by decide) (by decide) (by decide) (by decide)).1

/-- C5 (the code at the failing inputs): read at the tile URIs with zoom 17
and with zoom -1, both outside 0..16, the heatmap resource handler does not
reject the read: it calls the provider client with that zoom, and in the
example environment it sends the HTTP request. -/
theorem C5_heatmap_resource_passes_zoom_out_of_range (env : Env)
    (h : AirQualityResourceHandler) :
    (h.HeatmapHandler env ⟨"airquality://heatmap/UAQI_RED_GREEN/17/0/0".toList⟩).calls
      = [ProviderCall.GetHeatmapTile "UAQI_RED_GREEN".toList 17 0 0]
    ∧ (h.HeatmapHandler env ⟨"airquality://heatmap/UAQI_RED_GREEN/-1/0/0".toList⟩).calls
      = [ProviderCall.GetHeatmapTile "UAQI_RED_GREEN".toList (-1) 0 0]
    ∧ ((exampleHandler.HeatmapHandler exampleEnv
        ⟨"airquality://heatmap/UAQI_RED_GREEN/17/0/0".toList⟩).http.map (fun q => q.URL))
      = ["https://airquality.googleapis.com/v1/mapTypes/UAQI_RED_GREEN/heatmapTiles/17/0/0?key=KEY".toList] := by
  rw [heatmapURI_zoom_17, heatmapURI_zoom_minus_1]
  refine ⟨?_, ?_, ?_⟩
  · exact HeatmapHandler_calls_of_valid env h _ 17 0 0 (by decide) (by decide) (by decide)
      (by decide)
  · exact HeatmapHandler_calls_of_valid env h _ (-1) 0 0 (by decide) (by decide) (by decide)
      (by decide)
  · decide

/-- C6 (the code at the failing inputs): the heatmap tool handler, called
with the map type `NOT_A_MAP` or with no arguments at all, returns no error
result before the provider call: it calls the provider client with that map
type, empty in the second case; and in the example environment it sends the
HTTP request for `NOT_A_MAP`. -/
theorem C6_heatmap_tool_passes_any_map_type (env : Env) (apiKey : GoString) :
    (NewHeatmapHandler env apiKey ⟨some (.ok notAMapArguments)⟩).calls
        = [ProviderCall.GetHeatmapTile "NOT_A_MAP".toList 1 0 0]
    ∧ (NewHeatmapHandler env apiKey ⟨none⟩).calls = [ProviderCall.GetHeatmapTile [] 0 0 0]
    ∧ ((NewHeatmapHandler exampleEnv "KEY".toList ⟨some (.ok notAMapArguments)⟩).http.map
        (fun q => q.URL))
      = ["https://airquality.googleapis.com/v1/mapTypes/NOT_A_MAP/heatmapTiles/1/0/0?key=KEY".toList] := by
  refine ⟨?_, ?_, ?_⟩
  · exact NewHeatmapHandler_calls env apiKey ⟨some (.ok notAMapArguments)⟩
      { MapType := "NOT_A_MAP".toList, Zoom := 1, X := 0, Y := 0 } (by decide) (by decide)
  · exact NewHeatmapHandler_calls env apiKey ⟨none⟩ {} rfl (by decide)
  · decide

/-- C7 (the code at the failing inputs): called with no arguments, or with
an empty argument object, each of the three location tools calls the provider
client with latitude 0 and longitude 0; and in the example environment the
current conditions tool, given a longitude only, calls it with latitude 0. -/
theorem C7_location_tools_default_missing_coordinates (env : Env) (apiKey : GoString) :
    (NewCurrentConditionsHandler env apiKey ⟨none⟩).calls
        = [ProviderCall.GetCurrentConditions { Location := ⟨Float64.zero, Float64.zero⟩ }]
    ∧ (NewCurrentConditionsHandler env apiKey ⟨some (.ok (.obj []))⟩).calls
        = [ProviderCall.GetCurrentConditions { Location := ⟨Float64.zero, Float64.zero⟩ }]
    ∧ (NewForecastHandler env apiKey ⟨none⟩).calls
        = [ProviderCall.GetForecast { Location := ⟨Float64.zero, Float64.zero⟩ }]
    ∧ (NewForecastHandler env apiKey ⟨some (.ok (.obj []))⟩).calls
        = [ProviderCall.GetForecast { Location := ⟨Float64.zero, Float64.zero⟩ }]
    ∧ (NewHistoryHandler env apiKey ⟨none⟩).calls
        = [ProviderCall.GetHistory { Location := ⟨Float64.zero, Float64.zero⟩ }]
    ∧ (NewHistoryHandler env apiKey ⟨some (.ok (.obj []))⟩).calls
        = [ProviderCall.GetHistory { Location := ⟨Float64.zero, Float64.zero⟩ }]
    ∧ (NewCurrentConditionsHandler exampleEnv apiKey ⟨some (.ok longitudeOnlyArguments)⟩).calls
        = [ProviderCall.GetCurrentConditions { Location := ⟨Float64.zero, ⟨5⟩⟩ }] := by
  refine ⟨?_, ?_, ?_, ?_, ?_, ?_, ?_⟩
  · exact NewCurrentConditionsHandler_calls env apiKey ⟨none⟩ {} rfl
  · exact NewCurrentConditionsHandler_calls env apiKey ⟨some (.ok (.obj []))⟩ {} rfl
  · exact NewForecastHandler_calls env apiKey ⟨none⟩ {} rfl
  · exact NewForecastHandler_calls env apiKey ⟨some (.ok (.obj []))⟩ {} rfl
  · exact NewHistoryHandler_calls env apiKey ⟨none⟩ {} rfl
  · exact NewHistoryHandler_calls env apiKey ⟨some (.ok (.obj []))⟩ {} rfl
  · exact NewCurrentConditionsHandler_calls exampleEnv apiKey
      ⟨some (.ok longitudeOnlyArguments)⟩ { Longitude := ⟨5⟩ } (by decide)

/-- C8: a latitude and a longitude written as `lat,lon` are read back by
`parseLatLong` as the same pair, without error. The float routines are those
of the library: `format` is any way of writing a float that
`strconv.ParseFloat` reads back at `lat` and at `lon` and that puts no comma
and no surrounding white space. -/
theorem C8_parseLatLong_round_trip (env : Env) (format : Float64 → GoString)
    (lat lon : Float64)
    (hlat : env.ParseFloat (format lat) = .ok lat)
    (hlon : env.ParseFloat (format lon) = .ok lon)
    (clat : ',' ∉ format lat) (clon : ',' ∉ format lon)
    (tlat : strings.TrimSpace (format lat) = format lat)
    (tlon : strings.TrimSpace (format lon) = format lon) :
    parseLatLong env (format lat ++ ",".toList ++ format lon) = .ok (lat, lon) := by
  have hj := parseLatLong_join env (format lat) (format lon) clat clon
  rw [tlat, tlon, hlat, hlon] at hj
  simpa using hj

/-- C8 at the pair written `37,122` in the example environment. -/
theorem C8_parseLatLong_round_trip_witness :
    parseLatLong exampleEnv "37,122".toList = .ok (⟨37⟩, ⟨122⟩) :=
  C8_parseLatLong_round_trip exampleEnv exampleFormat ⟨37⟩ ⟨122⟩ (by decide) (by decide)
    (by decide) (by decide) (by decide) (by decide)

/-- C9: white space around either coordinate does not change the result of
`parseLatLong`, be it the pair or the error. -/
theorem C9_parseLatLong_ignores_surrounding_space (env : Env) (a b w1 w2 w3 w4 : GoString)
    (ha : ',' ∉ a) (hb : ',' ∉ b)
    (h1 : ∀ c ∈ w1, strings.IsSpace c = true) (h2 : ∀ c ∈ w2, strings.IsSpace c = true)
    (h3 : ∀ c ∈ w3, strings.IsSpace c = true) (h4 : ∀ c ∈ w4, strings.IsSpace c = true) :
    parseLatLong env (w1 ++ a ++ w2 ++ ",".toList ++ w3 ++ b ++ w4)
      = parseLatLong env (a ++ ",".toList ++ b) := by
  have hl : ',' ∉ w1 ++ a ++ w2 := by
    simp only [List.mem_append, not_or]
    exact ⟨⟨strings.comma_not_mem_of_space w1 h1, ha⟩, strings.comma_not_mem_of_space w2 h2⟩
  have hr : ',' ∉ w3 ++ b ++ w4 := by
    simp only [List.mem_append, not_or]
    exact ⟨⟨strings.comma_not_mem_of_space w3 h3, hb⟩, strings.comma_not_mem_of_space w4 h4⟩
  have e1 : w1 ++ a ++ w2 ++ ",".toList ++ w3 ++ b ++ w4
      = (w1 ++ a ++ w2) ++ ',' :: (w3 ++ b ++ w4) := by
    simp [String.toList]
  have e2 : a ++ ",".toList ++ b = a ++ ',' :: b := by simp [String.toList]
  rw [e1, e2, parseLatLong_join env _ _ hl hr, parseLatLong_join env a b ha hb,
    strings.TrimSpace_pad w1 a w2 h1 h2, strings.TrimSpace_pad w3 b w4 h3 h4]

/-- C9 at `" 37\t,  122\n"` in the example environment. -/
theorem C9_parseLatLong_ignores_surrounding_space_witness :
    parseLatLong exampleEnv " 37\t,  122\n".toList = parseLatLong exampleEnv "37,122".toList :=
  C9_parseLatLong_ignores_surrounding_space exampleEnv "37".toList "122".toList
    " ".toList "\t".toList "  ".toList "\n".toList (by decide) (by decide) (by decide)
    (by decide) (by decide) (by decide)

/-- C10: each of the four resource handlers, given a URI that does not start
with its prefix, returns no result and the error `invalid URI format`, and
calls neither the provider client nor the network. -/
theorem C10_wrong_prefix_is_invalid_uri_format (env : Env) (h : AirQualityResourceHandler)
    (request : ReadResourceRequest) :
    (¬ "airquality://current/".toList <+: request.URI →
      h.CurrentConditionsHandler env request = ResourceReturn.fail "invalid URI format".toList)
    ∧ (¬ "airquality://forecast/".toList <+: request.URI →
      h.ForecastHandler env request = ResourceReturn.fail "invalid URI format".toList)
    ∧ (¬ "airquality://history/".toList <+: request.URI →
      h.HistoryHandler env request = ResourceReturn.fail "invalid URI format".toList)
    ∧ (¬ "airquality://heatmap/".toList <+: request.URI →
      h.HeatmapHandler env request = ResourceReturn.fail "invalid URI format".toList) := by
  refine ⟨fun hp => ?_, fun hp => ?_, fun hp => ?_, fun hp => ?_⟩
  · unfold AirQualityResourceHandler.CurrentConditionsHandler
    simp only [not_HasPrefix _ _ hp, if_true]
  · unfold AirQualityResourceHandler.ForecastHandler
    simp only [not_HasPrefix _ _ hp, if_true]
  · unfold AirQualityResourceHandler.HistoryHandler
    simp only [not_HasPrefix _ _ hp, if_true]
  · unfold AirQualityResourceHandler.HeatmapHandler
    simp only [not_HasPrefix _ _ hp, if_true]

/-- C10 at a forecast URI: the current, history and heatmap handlers refuse
it, and so does the forecast handler for `airquality://forecasts/1,2`. -/
theorem C10_wrong_prefix_is_invalid_uri_format_witness :
    (exampleHandler.CurrentConditionsHandler exampleEnv ⟨"airquality://forecast/1,2".toList⟩).err
        = some "invalid URI format".toList
    ∧ (exampleHandler.CurrentConditionsHandler exampleEnv
        ⟨"airquality://forecast/1,2".toList⟩).calls = []
    ∧ (exampleHandler.ForecastHandler exampleEnv ⟨"airquality://forecasts/1,2".toList⟩).err
        = some "invalid URI format".toList
    ∧ (exampleHandler.HistoryHandler exampleEnv ⟨"airquality://forecast/1,2".toList⟩).err
        = some "invalid URI format".toList
    ∧ (exampleHandler.HeatmapHandler exampleEnv ⟨"airquality://forecast/1,2".toList⟩).err
        = some "invalid URI format".toList := by
  have a := C10_wrong_prefix_is_invalid_uri_format exampleEnv exampleHandler
    ⟨"airquality://forecast/1,2".toList⟩
  have b := C10_wrong_prefix_is_invalid_uri_format exampleEnv exampleHandler
    ⟨"airquality://forecasts/1,2".toList⟩
  refine ⟨?_, ?_, ?_, ?_, ?_⟩
  · rw [a.1 (by decide)]; rfl
  · rw [a.1 (by decide)]; rfl
  · rw [b.2.1 (by decide)]; rfl
  · rw [a.2.2.1 (by decide)]; rfl
  · rw [a.2.2.2 (by decide)]; rfl

/-! ## The requests of the location resources -/

theorem HasPrefix_append_not (p s : GoString) : (!strings.HasPrefix (p ++ s) p) = false := by
  rw [strings.HasPrefix_append]; rfl

/-- C13: when the location part of the URI parses to `(lat, lon)`, the current,
forecast and history resource handlers call the provider client once, with
the request that holds this location and `UniversalAqi = true`, the history
request with `Hours = 24` besides, and every other field at its zero value. -/
theorem C13_location_resources_build_the_request (env : Env) (h : AirQualityResourceHandler)
    (loc : GoString) (lat lon : Float64) (hp : parseLatLong env loc = .ok (lat, lon)) :
    (h.CurrentConditionsHandler env ⟨"airquality://current/".toList ++ loc⟩).calls
      = [ProviderCall.GetCurrentConditions
          { Location := { Latitude := lat, Longitude := lon }, ExtraComputations := [],
            UaqiColorPalette := [], CustomLocalAqis := [], UniversalAqi := some true,
            LanguageCode := [] }]
    ∧ (h.ForecastHandler env ⟨"airquality://forecast/".toList ++ loc⟩).calls
      = [ProviderCall.GetForecast
          { Location := { Latitude := lat, Longitude := lon }, ExtraComputations := [],
            UaqiColorPalette := [], CustomLocalAqis := [], PageSize := 0, PageToken := [],
            DateTime := [], Period := none, UniversalAqi := some true, LanguageCode := [] }]
    ∧ (h.HistoryHandler env ⟨"airquality://history/".toList ++ loc⟩).calls
      = [ProviderCall.GetHistory
          { PageSize := 0, PageToken := [], Location := { Latitude := lat, Longitude := lon },
            ExtraComputations := [], UaqiColorPalette := [], CustomLocalAqis := [],
            DateTime := [], Hours := 24, Period := none, UniversalAqi := some true,
            LanguageCode := [] }] := by
  refine ⟨?_, ?_, ?_⟩
  · unfold AirQualityResourceHandler.CurrentConditionsHandler
    simp only [HasPrefix_append_not, Bool.false_eq_true, if_false, strings.TrimPrefix_append, hp]
    split
    · rfl
    · split <;> rfl
  · unfold AirQualityResourceHandler.ForecastHandler
    simp only [HasPrefix_append_not, Bool.false_eq_true, if_false, strings.TrimPrefix_append, hp]
    split
    · rfl
    · split <;> rfl
  · unfold AirQualityResourceHandler.HistoryHandler
    simp only [HasPrefix_append_not, Bool.false_eq_true, if_false, strings.TrimPrefix_append, hp]
    split
    · rfl
    · split <;> rfl

/-- C13 at the location `37,122` in the example environment. -/
theorem C13_location_resources_build_the_request_witness :
    (exampleHandler.HistoryHandler exampleEnv ⟨"airquality://history/37,122".toList⟩).calls
      = [ProviderCall.GetHistory
          { PageSize := 0, PageToken := [], Location := { Latitude := ⟨37⟩, Longitude := ⟨122⟩ },
            ExtraComputations := [], UaqiColorPalette := [], CustomLocalAqis := [],
            DateTime := [], Hours := 24, Period := none, UniversalAqi := some true,
            LanguageCode := [] }] :=
  (C13_location_resources_build_the_request exampleEnv exampleHandler "37,122".toList
    ⟨37⟩ ⟨122⟩ (by decide)).2.2

/-! ## Lemmas on a provider that answers with a status other than 200 -/

/-- The body is the end of the text of the provider error. -/
theorem body_infix_apiRequestFailed (pre : GoString) (S : Int) (B : Bytes) :
    B.toGoString <:+: pre ++ apiRequestFailed S B :=
  ⟨pre ++ ("API request failed with status ".toList ++ strconv.Itoa S ++ ": ".toList), [],
    by simp [apiRequestFailed]⟩

/-- A POST answered with a status other than 200 fails with the provider
error, unless it failed before anything was sent. -/
theorem doPostRequest_not_200 {α : Type} (env : Env) (c : Client) (url : GoString)
    (reqBody : Except GoString Json) (unmarshal : Bytes → Except GoString α)
    (S : Int) (B : Bytes) (hS : S ≠ 200) (hdo : ∀ q, env.httpDo q = .response S B) :
    (c.doPostRequest env url reqBody unmarshal).2 = [] ∨
      (c.doPostRequest env url reqBody unmarshal).1 = .error (apiRequestFailed S B) := by
  unfold Client.doPostRequest
  split
  · exact Or.inl rfl
  · split
    · exact Or.inl rfl
    · dsimp only
      rw [hdo]
      simp [hS]

/-- A tile fetch answered with a status other than 200 fails with the provider
error, unless it failed before anything was sent. -/
theorem GetHeatmapTile_not_200 (env : Env) (c : Client) (m : MapType) (z x y : Int)
    (S : Int) (B : Bytes) (hS : S ≠ 200) (hdo : ∀ q, env.httpDo q = .response S B) :
    (c.GetHeatmapTile env m z x y).2 = [] ∨
      (c.GetHeatmapTile env m z x y).1 = .error (apiRequestFailed S B) := by
  unfold Client.GetHeatmapTile
  dsimp only
  split
  · exact Or.inl rfl
  · rw [hdo]
    simp [hS]

theorem toolError_failsWith (pre : GoString) (S : Int) (B : Bytes)
    (calls : List ProviderCall) (http : List HttpRequest) :
    (toolError (pre ++ apiRequestFailed S B) calls http).failsWith B.toGoString :=
  ⟨_, rfl, rfl, body_infix_apiRequestFailed pre S B⟩

theorem NewCurrentConditionsHandler_not_200 (env : Env) (apiKey : GoString)
    (request : CallToolRequest) (S : Int) (B : Bytes) (hS : S ≠ 200)
    (hdo : ∀ q, env.httpDo q = .response S B)
    (hsent : (NewCurrentConditionsHandler env apiKey request).http ≠ []) :
    (NewCurrentConditionsHandler env apiKey request).failsWith B.toGoString := by
  unfold NewCurrentConditionsHandler at hsent ⊢
  split at hsent
  · exact absurd rfl hsent
  · rename_i input hin
    dsimp only at hsent ⊢
    have hc := doPostRequest_not_200 env (NewClient apiKey)
      (baseURL ++ "/currentConditions:lookup?key=".toList ++ (NewClient apiKey).apiKey)
      (json.marshalCurrentConditionsRequest env.jsonFloat input.request)
      env.unmarshalCurrentConditions S B hS hdo
    change ((NewClient apiKey).GetCurrentConditions env input.request).2 = [] ∨
      ((NewClient apiKey).GetCurrentConditions env input.request).1 = _ at hc
    cases hres : (NewClient apiKey).GetCurrentConditions env input.request with
    | mk r http =>
      rw [hres] at hc hsent
      dsimp only at hc hsent
      rcases hc with hc | hc
      · exfalso
        apply hsent
        cases r with
        | error e => exact hc
        | ok resp => dsimp only; split <;> exact hc
      · rw [hc]
        exact toolError_failsWith _ S B _ _


theorem NewForecastHandler_not_200 (env : Env) (apiKey : GoString)
    (request : CallToolRequest) (S : Int) (B : Bytes) (hS : S ≠ 200)
    (hdo : ∀ q, env.httpDo q = .response S B)
    (hsent : (NewForecastHandler env apiKey request).http ≠ []) :
    (NewForecastHandler env apiKey request).failsWith B.toGoString := by
  unfold NewForecastHandler at hsent ⊢
  split at hsent
  · exact absurd rfl hsent
  · rename_i input hin
    dsimp only at hsent ⊢
    have hc := doPostRequest_not_200 env (NewClient apiKey)
      (baseURL ++ "/forecast:lookup?key=".toList ++ (NewClient apiKey).apiKey)
      (json.marshalForecastRequest env.jsonFloat input.request)
      env.unmarshalForecast S B hS hdo
    change ((NewClient apiKey).GetForecast env input.request).2 = [] ∨
      ((NewClient apiKey).GetForecast env input.request).1 = _ at hc
    cases hres : (NewClient apiKey).GetForecast env input.request with
    | mk r http =>
      rw [hres] at hc hsent
      dsimp only at hc hsent
      rcases hc with hc | hc
      · exfalso
        apply hsent
        cases r with
        | error e => exact hc
        | ok resp => dsimp only; split <;> exact hc
      · rw [hc]
        exact toolError_failsWith _ S B _ _

theorem NewHistoryHandler_not_200 (env : Env) (apiKey : GoString)
    (request : CallToolRequest) (S : Int) (B : Bytes) (hS : S ≠ 200)
    (hdo : ∀ q, env.httpDo q = .response S B)
    (hsent : (NewHistoryHandler env apiKey request).http ≠ []) :
    (NewHistoryHandler env apiKey request).failsWith B.toGoString := by
  unfold NewHistoryHandler at hsent ⊢
  split at hsent
  · exact absurd rfl hsent
  · rename_i input hin
    dsimp only at hsent ⊢
    have hc := doPostRequest_not_200 env (NewClient apiKey)
      (baseURL ++ "/history:lookup?key=".toList ++ (NewClient apiKey).apiKey)
      (json.marshalHistoryRequest env.jsonFloat input.request)
      env.unmarshalHistory S B hS hdo
    change ((NewClient apiKey).GetHistory env input.request).2 = [] ∨
      ((NewClient apiKey).GetHistory env input.request).1 = _ at hc
    cases hres : (NewClient apiKey).GetHistory env input.request with
    | mk r http =>
      rw [hres] at hc hsent
      dsimp only at hc hsent
      rcases hc with hc | hc
      · exfalso
        apply hsent
        cases r with
        | error e => exact hc
        | ok resp => dsimp only; split <;> exact hc
      · rw [hc]
        exact toolError_failsWith _ S B _ _

theorem NewHeatmapHandler_not_200 (env : Env) (apiKey : GoString)
    (request : CallToolRequest) (S : Int) (B : Bytes) (hS : S ≠ 200)
    (hdo : ∀ q, env.httpDo q = .response S B)
    (hsent : (NewHeatmapHandler env apiKey request).http ≠ []) :
    (NewHeatmapHandler env apiKey request).failsWith B.toGoString := by
  unfold NewHeatmapHandler at hsent ⊢
  split at hsent
  · exact absurd rfl hsent
  · rename_i input hin
    split at hsent
    · exact absurd rfl hsent
    · rename_i hzoom
      rw [if_neg hzoom]
      dsimp only at hsent ⊢
      have hc := GetHeatmapTile_not_200 env (NewClient apiKey) input.MapType input.Zoom input.X
        input.Y S B hS hdo
      cases hres : (NewClient apiKey).GetHeatmapTile env input.MapType input.Zoom input.X
          input.Y with
      | mk r http =>
        rw [hres] at hc hsent
        dsimp only at hc hsent
        rcases hc with hc | hc
        · exfalso
          apply hsent
          cases r <;> exact hc
        · rw [hc]
          exact toolError_failsWith _ S B _ _

theorem CurrentConditionsHandler_not_200 (env : Env) (h : AirQualityResourceHandler)
    (request : ReadResourceRequest) (S : Int) (B : Bytes) (hS : S ≠ 200)
    (hdo : ∀ q, env.httpDo q = .response S B)
    (hsent : (h.CurrentConditionsHandler env request).http ≠ []) :
    (h.CurrentConditionsHandler env request).faultsWith B.toGoString := by
  unfold AirQualityResourceHandler.CurrentConditionsHandler at hsent ⊢
  dsimp only at hsent ⊢
  split at hsent
  · exact absurd rfl hsent
  · rename_i hpre
    rw [if_neg hpre]
    split at hsent
    · exact absurd rfl hsent
    · rename_i lat lon hll
      have hc := doPostRequest_not_200 env h.client
        (baseURL ++ "/currentConditions:lookup?key=".toList ++ h.client.apiKey)
        (json.marshalCurrentConditionsRequest env.jsonFloat { Location := { Latitude := lat, Longitude := lon }, UniversalAqi := some true })
        env.unmarshalCurrentConditions S B hS hdo
      change (h.client.GetCurrentConditions env { Location := { Latitude := lat, Longitude := lon }, UniversalAqi := some true }).2 = [] ∨
        (h.client.GetCurrentConditions env { Location := { Latitude := lat, Longitude := lon }, UniversalAqi := some true }).1 = _ at hc
      cases hres : h.client.GetCurrentConditions env { Location := { Latitude := lat, Longitude := lon }, UniversalAqi := some true } with
      | mk r http =>
        rw [hres] at hc hsent
        dsimp only at hc hsent
        rcases hc with hc | hc
        · exfalso
          apply hsent
          cases r with
          | error e => exact hc
          | ok resp => dsimp only; split <;> exact hc
        · rw [hc]
          exact ⟨rfl, _, rfl, body_infix_apiRequestFailed _ S B⟩

theorem ForecastHandler_not_200 (env : Env) (h : AirQualityResourceHandler)
    (request : ReadResourceRequest) (S : Int) (B : Bytes) (hS : S ≠ 200)
    (hdo : ∀ q, env.httpDo q = .response S B)
    (hsent : (h.ForecastHandler env request).http ≠ []) :
    (h.ForecastHandler env request).faultsWith B.toGoString := by
  unfold AirQualityResourceHandler.ForecastHandler at hsent ⊢
  dsimp only at hsent ⊢
  split at hsent
  · exact absurd rfl hsent
  · rename_i hpre
    rw [if_neg hpre]
    split at hsent
    · exact absurd rfl hsent
    · rename_i lat lon hll
      have hc := doPostRequest_not_200 env h.client
        (baseURL ++ "/forecast:lookup?key=".toList ++ h.client.apiKey)
        (json.marshalForecastRequest env.jsonFloat { Location := { Latitude := lat, Longitude := lon }, UniversalAqi := some true })
        env.unmarshalForecast S B hS hdo
      change (h.client.GetForecast env { Location := { Latitude := lat, Longitude := lon }, UniversalAqi := some true }).2 = [] ∨
        (h.client.GetForecast env { Location := { Latitude := lat, Longitude := lon }, UniversalAqi := some true }).1 = _ at hc
      cases hres : h.client.GetForecast env { Location := { Latitude := lat, Longitude := lon }, UniversalAqi := some true } with
      | mk r http =>
        rw [hres] at hc hsent
        dsimp only at hc hsent
        rcases hc with hc | hc
        · exfalso
          apply hsent
          cases r with
          | error e => exact hc
          | ok resp => dsimp only; split <;> exact hc
        · rw [hc]
          exact ⟨rfl, _, rfl, body_infix_apiRequestFailed _ S B⟩

theorem HistoryHandler_not_200 (env : Env) (h : AirQualityResourceHandler)
    (request : ReadResourceRequest) (S : Int) (B : Bytes) (hS : S ≠ 200)
    (hdo : ∀ q, env.httpDo q = .response S B)
    (hsent : (h.HistoryHandler env request).http ≠ []) :
    (h.HistoryHandler env request).faultsWith B.toGoString := by
  unfold AirQualityResourceHandler.HistoryHandler at hsent ⊢
  dsimp only at hsent ⊢
  split at hsent
  · exact absurd rfl hsent
  · rename_i hpre
    rw [if_neg hpre]
    split at hsent
    · exact absurd rfl hsent
    · rename_i lat lon hll
      have hc := doPostRequest_not_200 env h.client
        (baseURL ++ "/history:lookup?key=".toList ++ h.client.apiKey)
        (json.marshalHistoryRequest env.jsonFloat { Location := { Latitude := lat, Longitude := lon }, Hours := 24, UniversalAqi := some true })
        env.unmarshalHistory S B hS hdo
      change (h.client.GetHistory env { Location := { Latitude := lat, Longitude := lon }, Hours := 24, UniversalAqi := some true }).2 = [] ∨
        (h.client.GetHistory env { Location := { Latitude := lat, Longitude := lon }, Hours := 24, UniversalAqi := some true }).1 = _ at hc
      cases hres : h.client.GetHistory env { Location := { Latitude := lat, Longitude := lon }, Hours := 24, UniversalAqi := some true } with
      | mk r http =>
        rw [hres] at hc hsent
        dsimp only at hc hsent
        rcases hc with hc | hc
        · exfalso
          apply hsent
          cases r with
          | error e => exact hc
          | ok resp => dsimp only; split <;> exact hc
        · rw [hc]
          exact ⟨rfl, _, rfl, body_infix_apiRequestFailed _ S B⟩


theorem HeatmapHandler_not_200 (env : Env) (h : AirQualityResourceHandler)
    (request : ReadResourceRequest) (S : Int) (B : Bytes) (hS : S ≠ 200)
    (hdo : ∀ q, env.httpDo q = .response S B)
    (hsent : (h.HeatmapHandler env request).http ≠ []) :
    (h.HeatmapHandler env request).faultsWith B.toGoString := by
  unfold AirQualityResourceHandler.HeatmapHandler at hsent ⊢
  dsimp only at hsent ⊢
  split at hsent
  · exact absurd rfl hsent
  · rename_i hpre
    rw [if_neg hpre]
    split at hsent
    · rename_i m zs xs ys hsplit
      split at hsent
      · exact absurd rfl hsent
      · rename_i zoom hz
        split at hsent
        · exact absurd rfl hsent
        · rename_i x hx
          split at hsent
          · exact absurd rfl hsent
          · rename_i y hy
            split at hsent
            · exact absurd rfl hsent
            · rename_i hvalid
              rw [if_neg hvalid]
              have hc := GetHeatmapTile_not_200 env h.client m zoom x y S B hS hdo
              cases hres : h.client.GetHeatmapTile env m zoom x y with
              | mk r http =>
                rw [hres] at hc hsent
                dsimp only at hc hsent
                rcases hc with hc | hc
                · exfalso
                  apply hsent
                  cases r <;> exact hc
                · rw [hc]
                  exact ⟨rfl, _, rfl, body_infix_apiRequestFailed _ S B⟩
    · exact absurd rfl hsent

/-- C15: let the provider answer every request with a status `S` other than
200 and the body `B`. Then each tool handler that sent its request returns an
error result, and no Go error, whose text holds `B`; and each of the four
resource handlers that sent its request returns no result and an error whose
message holds `B`. -/
theorem C15_provider_failure_carries_the_body (env : Env) (S : Int) (B : Bytes)
    (hS : S ≠ 200) (hdo : ∀ q, env.httpDo q = .response S B)
    (apiKey : GoString) (call : CallToolRequest)
    (h : AirQualityResourceHandler) (read : ReadResourceRequest) :
    ((NewCurrentConditionsHandler env apiKey call).http ≠ [] →
        (NewCurrentConditionsHandler env apiKey call).failsWith B.toGoString)
    ∧ ((NewForecastHandler env apiKey call).http ≠ [] →
        (NewForecastHandler env apiKey call).failsWith B.toGoString)
    ∧ ((NewHistoryHandler env apiKey call).http ≠ [] →
        (NewHistoryHandler env apiKey call).failsWith B.toGoString)
    ∧ ((NewHeatmapHandler env apiKey call).http ≠ [] →
        (NewHeatmapHandler env apiKey call).failsWith B.toGoString)
    ∧ ((h.CurrentConditionsHandler env read).http ≠ [] →
        (h.CurrentConditionsHandler env read).faultsWith B.toGoString)
    ∧ ((h.ForecastHandler env read).http ≠ [] →
        (h.ForecastHandler env read).faultsWith B.toGoString)
    ∧ ((h.HistoryHandler env read).http ≠ [] →
        (h.HistoryHandler env read).faultsWith B.toGoString)
    ∧ ((h.HeatmapHandler env read).http ≠ [] →
        (h.HeatmapHandler env read).faultsWith B.toGoString) :=
  ⟨NewCurrentConditionsHandler_not_200 env apiKey call S B hS hdo,
    NewForecastHandler_not_200 env apiKey call S B hS hdo,
    NewHistoryHandler_not_200 env apiKey call S B hS hdo,
    NewHeatmapHandler_not_200 env apiKey call S B hS hdo,
    CurrentConditionsHandler_not_200 env h read S B hS hdo,
    ForecastHandler_not_200 env h read S B hS hdo,
    HistoryHandler_not_200 env h read S B hS hdo,
    HeatmapHandler_not_200 env h read S B hS hdo⟩

/-- C15 at status 500 and the body `quota exceeded`: the current conditions
tool, called without arguments, and the current conditions resource, read at
`airquality://current/37,122`, both report `quota exceeded`. -/
theorem C15_provider_failure_carries_the_body_witness :
    (NewCurrentConditionsHandler exampleEnv "KEY".toList ⟨none⟩).failsWith
        "quota exceeded".toList
    ∧ (exampleHandler.CurrentConditionsHandler exampleEnv
        ⟨"airquality://current/37,122".toList⟩).faultsWith "quota exceeded".toList := by
  have hb : Bytes.toGoString quotaExceeded = "quota exceeded".toList := by decide
  have t := C15_provider_failure_carries_the_body exampleEnv 500 quotaExceeded (by decide)
    (fun _ => rfl) "KEY".toList ⟨none⟩ exampleHandler ⟨"airquality://current/37,122".toList⟩
  rw [hb] at t
  refine ⟨t.1 ?_, t.2.2.2.2.1 ?_⟩
  · have hl : (NewCurrentConditionsHandler exampleEnv "KEY".toList ⟨none⟩).http.length = 1 := by
      decide
    intro he
    rw [he] at hl
    cases hl
  · have hl : (exampleHandler.CurrentConditionsHandler exampleEnv
        ⟨"airquality://current/37,122".toList⟩).http.length = 1 := by decide
    intro he
    rw [he] at hl
    cases hl

/-! ## Lemmas on the status check of the client -/

/-- The provider error is not the error of decoding a body. -/
theorem decodedBody_ne_apiRequestFailed {α : Type} (r : Except GoString α) (S : Int)
    (B : Bytes) : decodedBody r ≠ .error (apiRequestFailed S B) := by
  cases r with
  | ok v => intro h; cases h
  | error e =>
    intro h
    simp only [decodedBody, apiRequestFailed] at h
    injection h with h
    have h0 := congrArg List.head? h
    simp [String.toList] at h0

/-- What a POST comes to once a response with its body is there. -/
theorem doPostRequest_response {α : Type} (env : Env) (c : Client) (url : GoString)
    (jsonData : Json) (unmarshal : Bytes → Except GoString α) (status : Int) (body : Bytes)
    (hnr : ∀ m u, env.newRequestError m u = none)
    (hdo : ∀ q, env.httpDo q = .response status body) :
    (c.doPostRequest env url (.ok jsonData) unmarshal).1 =
      if status ≠ 200 then .error (apiRequestFailed status body)
      else decodedBody (unmarshal body) := by
  unfold Client.doPostRequest
  simp only [hnr, hdo]
  split
  · rfl
  · unfold decodedBody
    split <;> simp_all

/-- What a tile fetch comes to once a response with its body is there. -/
theorem GetHeatmapTile_response (env : Env) (c : Client) (m : MapType) (z x y : Int)
    (status : Int) (body : Bytes)
    (hnr : ∀ m u, env.newRequestError m u = none)
    (hdo : ∀ q, env.httpDo q = .response status body) :
    (c.GetHeatmapTile env m z x y).1 =
      if status ≠ 200 then .error (apiRequestFailed status body) else .ok body := by
  unfold Client.GetHeatmapTile
  simp only [hnr, hdo]
  split <;> rfl


/-- C14 as stated fails: 201 is a 2xx status and the body decodes, yet the
current conditions operation and the tile operation both fail with the
provider error. -/
theorem C14_counterexample_status_201 :
    (statusEnv 201).unmarshalCurrentConditions [123, 125] = .ok emptyCurrentConditionsResponse
    ∧ ((NewClient "KEY".toList).GetCurrentConditions (statusEnv 201)
        { Location := ⟨Float64.zero, Float64.zero⟩ }).1
      = .error "API request failed with status 201: \x7b\x7d".toList
    ∧ ((NewClient "KEY".toList).GetHeatmapTile (statusEnv 201) "US_AQI".toList 1 0 0).1
      = .error "API request failed with status 201: \x7b\x7d".toList := by
  decide

/-- C14, amended: once a response with status and body is there, each of the
three JSON operations and the tile operation fails with the provider error,
which carries the status code and the body, exactly when the status is not
200; for status 200 a JSON operation returns the decoded body, or the error
of decoding it, and the tile operation returns the bytes of the body. -/
theorem C14_provider_error_exactly_when_status_not_200 (env : Env) (c : Client)
    (status : Int) (body : Bytes)
    (hnr : ∀ m u, env.newRequestError m u = none)
    (hdo : ∀ q, env.httpDo q = .response status body)
    (cur : CurrentConditionsRequest) (fc : ForecastRequest) (hi : HistoryRequest)
    (j1 j2 j3 : Json)
    (h1 : json.marshalCurrentConditionsRequest env.jsonFloat cur = .ok j1)
    (h2 : json.marshalForecastRequest env.jsonFloat fc = .ok j2)
    (h3 : json.marshalHistoryRequest env.jsonFloat hi = .ok j3)
    (m : MapType) (z x y : Int) :
    ((c.GetCurrentConditions env cur).1 = .error (apiRequestFailed status body) ↔ status ≠ 200)
    ∧ (status = 200 →
        (c.GetCurrentConditions env cur).1 = decodedBody (env.unmarshalCurrentConditions body))
    ∧ ((c.GetForecast env fc).1 = .error (apiRequestFailed status body) ↔ status ≠ 200)
    ∧ (status = 200 → (c.GetForecast env fc).1 = decodedBody (env.unmarshalForecast body))
    ∧ ((c.GetHistory env hi).1 = .error (apiRequestFailed status body) ↔ status ≠ 200)
    ∧ (status = 200 → (c.GetHistory env hi).1 = decodedBody (env.unmarshalHistory body))
    ∧ ((c.GetHeatmapTile env m z x y).1 = .error (apiRequestFailed status body) ↔ status ≠ 200)
    ∧ (status = 200 → (c.GetHeatmapTile env m z x y).1 = .ok body) := by
  have e1 : (c.GetCurrentConditions env cur).1 =
      if status ≠ 200 then .error (apiRequestFailed status body)
      else decodedBody (env.unmarshalCurrentConditions body) := by
    unfold Client.GetCurrentConditions
    rw [h1]
    exact doPostRequest_response env c _ j1 _ status body hnr hdo
  have e2 : (c.GetForecast env fc).1 =
      if status ≠ 200 then .error (apiRequestFailed status body)
      else decodedBody (env.unmarshalForecast body) := by
    unfold Client.GetForecast
    rw [h2]
    exact doPostRequest_response env c _ j2 _ status body hnr hdo
  have e3 : (c.GetHistory env hi).1 =
      if status ≠ 200 then .error (apiRequestFailed status body)
      else decodedBody (env.unmarshalHistory body) := by
    unfold Client.GetHistory
    rw [h3]
    exact doPostRequest_response env c _ j3 _ status body hnr hdo
  have e4 := GetHeatmapTile_response env c m z x y status body hnr hdo
  rw [e1, e2, e3, e4]
  by_cases hs : status = 200
  · have hn : ¬ status ≠ 200 := fun h => h hs
    simp only [if_neg hn, hs, ne_eq, not_true_eq_false, iff_false, forall_true_left]
    refine ⟨decodedBody_ne_apiRequestFailed _ _ _, rfl, decodedBody_ne_apiRequestFailed _ _ _,
      rfl, decodedBody_ne_apiRequestFailed _ _ _, rfl, ?_, rfl⟩
    intro h; cases h
  · simp [hs]

/-- C14, amended, at status 200 and a body that decodes: the current
conditions operation returns the decoded response and the tile operation the
bytes of the body. -/
theorem C14_provider_error_exactly_when_status_not_200_witness :
    ((NewClient "KEY".toList).GetCurrentConditions (statusEnv 200)
        { Location := ⟨Float64.zero, Float64.zero⟩ }).1 = .ok emptyCurrentConditionsResponse
    ∧ ((NewClient "KEY".toList).GetHeatmapTile (statusEnv 200) "US_AQI".toList 1 0 0).1
      = .ok [123, 125] := by
  have t := C14_provider_error_exactly_when_status_not_200 (statusEnv 200)
    (NewClient "KEY".toList) 200 [123, 125] (fun _ _ => rfl) (fun _ => rfl)
    { Location := ⟨Float64.zero, Float64.zero⟩ } { Location := ⟨Float64.zero, Float64.zero⟩ }
    { Location := ⟨Float64.zero, Float64.zero⟩ } _ _ _ rfl rfl rfl "US_AQI".toList 1 0 0
  exact ⟨t.2.1 rfl, t.2.2.2.2.2.2.2 rfl⟩

/-! ## Lemmas on the checks of the heatmap resource -/

/-- Two texts that differ within their first nine characters differ. -/
theorem ne_of_take_ne (a b : GoString) (h : a.take 9 ≠ b.take 9) : a ≠ b :=
  fun e => h (by rw [e])

/-- The heatmap handler on a path of four segments: the checks in their order. -/
theorem HeatmapHandler_four_segments (env : Env) (h : AirQualityResourceHandler)
    (path m zs xs ys : GoString) (hsplit : strings.Split '/' path = [m, zs, xs, ys]) :
    h.HeatmapHandler env ⟨"airquality://heatmap/".toList ++ path⟩ =
      match strconv.Atoi zs with
      | .error e => .fail ("invalid zoom level: ".toList ++ e.Error env.Quote)
      | .ok zoom =>
        match strconv.Atoi xs with
        | .error e => .fail ("invalid x coordinate: ".toList ++ e.Error env.Quote)
        | .ok x =>
          match strconv.Atoi ys with
          | .error e => .fail ("invalid y coordinate: ".toList ++ e.Error env.Quote)
          | .ok y =>
            if m ∈ validTypes then
              match (h.client.GetHeatmapTile env m zoom x y).1 with
              | .error e =>
                ⟨none, some ("failed to get heatmap tile: ".toList ++ e),
                  [ProviderCall.GetHeatmapTile m zoom x y],
                  (h.client.GetHeatmapTile env m zoom x y).2⟩
              | .ok data =>
                ⟨some ⟨[{ URI := "airquality://heatmap/".toList ++ path,
                          MIMEType := "image/png".toList,
                          Text := base64.EncodeToString data }]⟩,
                  none, [ProviderCall.GetHeatmapTile m zoom x y],
                  (h.client.GetHeatmapTile env m zoom x y).2⟩
            else .fail ("invalid map type: ".toList ++ m) := by
  unfold AirQualityResourceHandler.HeatmapHandler
  simp only [HasPrefix_append_not, Bool.false_eq_true, if_false, strings.TrimPrefix_append,
    hsplit]
  split
  · rfl
  · split
    · rfl
    · split
      · rfl
      · by_cases hm : m ∈ validTypes
        · have hany := (any_validTypes m).mpr hm
          simp only [hany, Bool.not_true, Bool.false_eq_true, if_false, if_pos hm]
        · have hany : (validTypes.any (fun t => decide (m = t))) = false := by
            rw [← Bool.not_eq_true, any_validTypes]; exact hm
          simp only [hany, Bool.not_false, if_true, if_neg hm]

/-- The heatmap handler on a path that has not four segments. -/
theorem HeatmapHandler_other_segments (env : Env) (h : AirQualityResourceHandler)
    (path : GoString) (hlen : (strings.Split '/' path).length ≠ 4) :
    h.HeatmapHandler env ⟨"airquality://heatmap/".toList ++ path⟩
      = .fail invalidHeatmapURIFormat := by
  unfold AirQualityResourceHandler.HeatmapHandler
  simp only [HasPrefix_append_not, Bool.false_eq_true, if_false, strings.TrimPrefix_append]
  split
  · rename_i heq
    rw [heq] at hlen
    exact absurd rfl hlen
  · rfl

/-- A list of four elements. -/
theorem eq_four_of_length {α : Type} (l : List α) (h : l.length = 4) :
    ∃ a b c d, l = [a, b, c, d] := by
  match l, h with
  | [a, b, c, d], _ => exact ⟨a, b, c, d, rfl⟩


/-- On four segments the error is never the one for the number of segments. -/
theorem HeatmapHandler_four_segments_err (env : Env) (h : AirQualityResourceHandler)
    (path m zs xs ys : GoString) (hsplit : strings.Split '/' path = [m, zs, xs, ys]) :
    (h.HeatmapHandler env ⟨"airquality://heatmap/".toList ++ path⟩).err
      ≠ some invalidHeatmapURIFormat := by
  rw [HeatmapHandler_four_segments env h path m zs xs ys hsplit]
  have key : ∀ (pre rest : GoString), pre.take 9 ≠ invalidHeatmapURIFormat.take 9 →
      9 ≤ pre.length → (ResourceReturn.fail (pre ++ rest)).err ≠ some invalidHeatmapURIFormat := by
    intro pre rest hne hlen he
    simp only [ResourceReturn.fail, Option.some.injEq] at he
    apply hne
    rw [← he, List.take_append_of_le_length hlen]
  split
  · exact key _ _ (by decide) (by decide)
  · split
    · exact key _ _ (by decide) (by decide)
    · split
      · exact key _ _ (by decide) (by decide)
      · split
        · split
          · intro he
            simp only [Option.some.injEq] at he
            have h0 := congrArg List.head? he
            simp [String.toList, invalidHeatmapURIFormat] at h0
          · intro he; cases he
        · exact key _ _ (by decide) (by decide)

/-- C12 as stated fails: on the four segments `FOO/a/b/0` the `x` segment `b`
is no integer and the map type `FOO` is not recognized, yet the error is the
one for the zoom level: it does not start with `invalid x coordinate` and it
is not `invalid map type: FOO`. -/
theorem C12_counterexample_first_failure_only :
    strings.Split '/' "FOO/a/b/0".toList = ["FOO".toList, "a".toList, "b".toList, "0".toList]
    ∧ strconv.Atoi "b".toList = .error ⟨"Atoi".toList, "b".toList, .ErrSyntax⟩
    ∧ "FOO".toList ∉ validTypes
    ∧ (exampleHandler.HeatmapHandler exampleEnv ⟨"airquality://heatmap/FOO/a/b/0".toList⟩).err
      = some "invalid zoom level: strconv.Atoi: parsing \x22a\x22: invalid syntax".toList
    ∧ ¬ ("invalid x coordinate".toList <+:
      "invalid zoom level: strconv.Atoi: parsing \x22a\x22: invalid syntax".toList)
    ∧ "invalid zoom level: strconv.Atoi: parsing \x22a\x22: invalid syntax".toList
      ≠ "invalid map type: FOO".toList := by
  decide

/-- C12, amended: for a URI with the heatmap prefix, the handler faults with
`invalid heatmap URI format, expected {mapType}/{z}/{x}/{y}` exactly when the
rest has not four segments; on four segments the checks run in the order
zoom, x, y, map type and the first that fails gives the error: a zoom that
`strconv.Atoi` rejects gives `invalid zoom level: ...`, after an integer zoom
an `x` that it rejects gives `invalid x coordinate: ...`, after integer zoom
and `x` a `y` that it rejects gives `invalid y coordinate: ...`, and after
three integers a map type outside the eight gives `invalid map type: ` and
the map type. In each case there is no result, no provider call and no HTTP
request. -/
theorem C12_heatmap_path_checks_in_order (env : Env) (h : AirQualityResourceHandler)
    (path : GoString) :
    ((h.HeatmapHandler env ⟨"airquality://heatmap/".toList ++ path⟩).err
        = some invalidHeatmapURIFormat ↔ (strings.Split '/' path).length ≠ 4)
    ∧ ((strings.Split '/' path).length ≠ 4 →
        h.HeatmapHandler env ⟨"airquality://heatmap/".toList ++ path⟩
          = { result := none, err := some invalidHeatmapURIFormat, calls := [], http := [] })
    ∧ ∀ m zs xs ys, strings.Split '/' path = [m, zs, xs, ys] →
      (∀ e, strconv.Atoi zs = .error e →
        h.HeatmapHandler env ⟨"airquality://heatmap/".toList ++ path⟩
          = { result := none, err := some ("invalid zoom level: ".toList ++ e.Error env.Quote),
              calls := [], http := [] })
      ∧ (∀ z e, strconv.Atoi zs = .ok z → strconv.Atoi xs = .error e →
        h.HeatmapHandler env ⟨"airquality://heatmap/".toList ++ path⟩
          = { result := none, err := some ("invalid x coordinate: ".toList ++ e.Error env.Quote),
              calls := [], http := [] })
      ∧ (∀ z x e, strconv.Atoi zs = .ok z → strconv.Atoi xs = .ok x →
          strconv.Atoi ys = .error e →
        h.HeatmapHandler env ⟨"airquality://heatmap/".toList ++ path⟩
          = { result := none, err := some ("invalid y coordinate: ".toList ++ e.Error env.Quote),
              calls := [], http := [] })
      ∧ (∀ z x y, strconv.Atoi zs = .ok z → strconv.Atoi xs = .ok x →
          strconv.Atoi ys = .ok y → m ∉ validTypes →
        h.HeatmapHandler env ⟨"airquality://heatmap/".toList ++ path⟩
          = { result := none, err := some ("invalid map type: ".toList ++ m),
              calls := [], http := [] }) := by
  refine ⟨⟨?_, ?_⟩, ?_, ?_⟩
  · intro he hlen
    obtain ⟨m, zs, xs, ys, hsplit⟩ := eq_four_of_length _ hlen
    exact HeatmapHandler_four_segments_err env h path m zs xs ys hsplit he
  · intro hlen
    rw [HeatmapHandler_other_segments env h path hlen]; rfl
  · intro hlen
    rw [HeatmapHandler_other_segments env h path hlen]; rfl
  · intro m zs xs ys hsplit
    rw [HeatmapHandler_four_segments env h path m zs xs ys hsplit]
    refine ⟨?_, ?_, ?_, ?_⟩
    · intro e hz; rw [hz]; rfl
    · intro z e hz hx; rw [hz, hx]; rfl
    · intro z x e hz hx hy; rw [hz, hx, hy]; rfl
    · intro z x y hz hx hy hm; rw [hz, hx, hy]; simp only [if_neg hm]; rfl

/-- C12, amended, at the paths `US_AQI/3/1`, `US_AQI/3/b/2` and `PM10/3/1/2`. -/
theorem C12_heatmap_path_checks_in_order_witness :
    (exampleHandler.HeatmapHandler exampleEnv ⟨"airquality://heatmap/US_AQI/3/1".toList⟩).err
        = some invalidHeatmapURIFormat
    ∧ (exampleHandler.HeatmapHandler exampleEnv ⟨"airquality://heatmap/US_AQI/3/b/2".toList⟩).err
        = some "invalid x coordinate: strconv.Atoi: parsing \x22b\x22: invalid syntax".toList
    ∧ (exampleHandler.HeatmapHandler exampleEnv ⟨"airquality://heatmap/PM10/3/1/2".toList⟩).err
        = some "invalid map type: PM10".toList := by
  have a := C12_heatmap_path_checks_in_order exampleEnv exampleHandler "US_AQI/3/1".toList
  have b := C12_heatmap_path_checks_in_order exampleEnv exampleHandler "US_AQI/3/b/2".toList
  have c := C12_heatmap_path_checks_in_order exampleEnv exampleHandler "PM10/3/1/2".toList
  refine ⟨?_, ?_, ?_⟩
  · exact a.1.mpr (by decide)
  · have hb := (b.2.2 "US_AQI".toList "3".toList "b".toList "2".toList (by decide)).2.1 3
      ⟨"Atoi".toList, "b".toList, .ErrSyntax⟩ (by decide) (by decide)
    exact congrArg (fun r => r.err) hb
  · have hc := (c.2.2 "PM10".toList "3".toList "1".toList "2".toList (by decide)).2.2.2 3 1 2
      (by decide) (by decide) (by decide) (by decide)
    exact congrArg (fun r => r.err) hc

/-! ## Lemmas on the errors of `parseLatLong` -/

namespace strings

/-- A string that splits into one piece is that piece. -/
theorem eq_of_Split_singleton (sep : Char) (s b : GoString) (h : Split sep s = [b]) : s = b := by
  induction s generalizing b with
  | nil => simpa [Split] using h
  | cons c cs ih =>
    rw [Split] at h
    split at h
    · have hne := Split_ne_nil sep cs
      cases hS : Split sep cs with
      | nil => exact absurd hS hne
      | cons p ps => rw [hS] at h; cases h
    · cases hS : Split sep cs with
      | nil => exact absurd hS (Split_ne_nil sep cs)
      | cons p ps =>
        rw [hS] at h
        simp only [List.cons.injEq] at h
        obtain ⟨h1, h2⟩ := h
        subst h2
        rw [ih p hS, h1]

/-- A string that splits into two pieces is these pieces around the
separator. -/
theorem eq_of_Split_pair (sep : Char) (s a b : GoString) (h : Split sep s = [a, b]) :
    s = a ++ sep :: b := by
  induction s generalizing a with
  | nil => simp [Split] at h
  | cons c cs ih =>
    rw [Split] at h
    split at h
    · rename_i hc
      simp only [List.cons.injEq] at h
      obtain ⟨h1, h2⟩ := h
      rw [← h1, hc, eq_of_Split_singleton sep cs b h2]
      rfl
    · cases hS : Split sep cs with
      | nil => exact absurd hS (Split_ne_nil sep cs)
      | cons p ps =>
        rw [hS] at h
        simp only [List.cons.injEq] at h
        obtain ⟨h1, h2⟩ := h
        subst h2
        rw [ih p hS, ← h1]
        rfl

/-- What `TrimSpace` returns is a part of its argument. -/
theorem TrimSpace_infix (s : GoString) : TrimSpace s <:+: s := by
  unfold TrimSpace
  have h1 : (List.dropWhile IsSpace s).reverse.dropWhile IsSpace
      <:+ (List.dropWhile IsSpace s).reverse := List.dropWhile_suffix _
  have h2 : ((List.dropWhile IsSpace s).reverse.dropWhile IsSpace).reverse
      <+: (List.dropWhile IsSpace s).reverse.reverse := List.reverse_prefix.mpr h1
  rw [List.reverse_reverse] at h2
  exact h2.isInfix.trans (List.dropWhile_suffix _).isInfix

end strings

/-- The quoted input is part of the text of a `NumError`. -/
theorem Quote_infix_Error (quote : GoString → GoString) (e : strconv.NumError)
    (pre : GoString) : quote e.Num <:+: pre ++ e.Error quote :=
  ⟨pre ++ ("strconv.".toList ++ e.Func ++ ": parsing ".toList), ": ".toList ++ e.Err.Error,
    by simp [strconv.NumError.Error]⟩


namespace strconv

/-- The error of `ParseInt` names its input. -/
theorem ParseInt_error_Num (s : GoString) (e : NumError) (h : ParseInt s = .error e) :
    e.Num = s := by
  unfold ParseInt at h
  split at h
  · injection h with h; rw [← h]; rfl
  · dsimp only at h
    split at h
    · injection h with h; rw [← h]; rfl
    · split at h
      · injection h with h; rw [← h]; rfl
      · split at h
        · injection h with h; rw [← h]; rfl
        · cases h

/-- The error of `Atoi` names its input. -/
theorem Atoi_error_Num (s : GoString) (e : NumError) (h : Atoi s = .error e) : e.Num = s := by
  unfold Atoi at h
  split at h
  · split at h
    · injection h with h; rw [← h]; rfl
    · dsimp only at h
      split at h
      · split at h
        · injection h with h; rw [← h]; rfl
        · split at h
          · injection h with h; rw [← h]; rfl
          · cases h
      · split at h
        · injection h with h; rw [← h]; rfl
        · split at h
          · injection h with h; rw [← h]; rfl
          · cases h
  · split at h
    · cases h
    · rename_i e' he'
      injection h with h
      rw [← h]
      exact ParseInt_error_Num s e' he'

end strconv

/-- The float parser of the example environment names its input in its
error, as `strconv.ParseFloat` does. -/
theorem exampleEnv_ParseFloat_Num (t : GoString) (e : strconv.NumError)
    (h : exampleEnv.ParseFloat t = .error e) : e.Num = t := by
  simp only [exampleEnv] at h
  split at h
  · cases h
  · rename_i e' he'
    injection h with h
    rw [← h]
    exact strconv.Atoi_error_Num t e' he'

/-- C11 as stated fails: on `1,2,3`, which has three parts, `parseLatLong`
fails with a fixed message that holds neither the string nor any of its
parts. -/
theorem C11_counterexample_three_parts :
    parseLatLong exampleEnv "1,2,3".toList
      = .error "invalid location format, expected 'lat,long'".toList
    ∧ ¬ ("1,2,3".toList <:+: "invalid location format, expected 'lat,long'".toList)
    ∧ ¬ ("1".toList <:+: "invalid location format, expected 'lat,long'".toList)
    ∧ ¬ ("2".toList <:+: "invalid location format, expected 'lat,long'".toList)
    ∧ ¬ ("3".toList <:+: "invalid location format, expected 'lat,long'".toList) := by
  decide

/-- C11, amended: let `strconv.ParseFloat` name its input in its error, as it
does. When `parseLatLong` fails on `s`, either `s` has not two parts and the
message is the fixed text `invalid location format, expected 'lat,long'`, or
`s` is `a,b` and the message is `invalid latitude: ` before the error of
parsing the trimmed `a`, or, the latitude being fine, `invalid longitude: `
before the error of parsing the trimmed `b`; in these two cases the message
holds the trimmed half, a part of `s`, in the form `strconv.Quote` gives it. -/
theorem C11_parseLatLong_error_names_the_half (env : Env) (s msg : GoString)
    (hNum : ∀ t e, env.ParseFloat t = .error e → e.Num = t)
    (hfail : parseLatLong env s = .error msg) :
    ((strings.Split ',' s).length ≠ 2
      ∧ msg = "invalid location format, expected 'lat,long'".toList)
    ∨ ∃ a b, s = a ++ ',' :: b ∧
      ((∃ e, env.ParseFloat (strings.TrimSpace a) = .error e
          ∧ msg = "invalid latitude: ".toList ++ e.Error env.Quote
          ∧ env.Quote (strings.TrimSpace a) <:+: msg
          ∧ strings.TrimSpace a <:+: s)
      ∨ (∃ lat e, env.ParseFloat (strings.TrimSpace a) = .ok lat
          ∧ env.ParseFloat (strings.TrimSpace b) = .error e
          ∧ msg = "invalid longitude: ".toList ++ e.Error env.Quote
          ∧ env.Quote (strings.TrimSpace b) <:+: msg
          ∧ strings.TrimSpace b <:+: s)) := by
  unfold parseLatLong at hfail
  dsimp only at hfail
  split at hfail
  · rename_i a b hsplit
    have hs := strings.eq_of_Split_pair ',' s a b hsplit
    refine Or.inr ⟨a, b, hs, ?_⟩
    have ha : a <:+: s := ⟨[], ',' :: b, by rw [hs]; rfl⟩
    have hb : b <:+: s := ⟨a ++ [','], [], by rw [hs]; simp⟩
    split at hfail
    · rename_i e he
      injection hfail with hfail
      refine Or.inl ⟨e, he, hfail.symm, ?_, (strings.TrimSpace_infix a).trans ha⟩
      rw [← hfail, ← hNum _ e he]
      exact Quote_infix_Error env.Quote e _
    · rename_i lat hlat
      split at hfail
      · rename_i e he
        injection hfail with hfail
        refine Or.inr ⟨lat, e, hlat, he, hfail.symm, ?_, (strings.TrimSpace_infix b).trans hb⟩
        rw [← hfail, ← hNum _ e he]
        exact Quote_infix_Error env.Quote e _
      · cases hfail
  · rename_i hne
    injection hfail with hfail
    refine Or.inl ⟨?_, hfail.symm⟩
    intro hlen
    match hS : strings.Split ',' s, hlen with
    | [a, b], _ => exact hne a b hS

/-- C11, amended, at ` x ,2` in the example environment: the message holds
the quoted, trimmed latitude half. -/
theorem C11_parseLatLong_error_names_the_half_witness :
    parseLatLong exampleEnv " x ,2".toList
        = .error "invalid latitude: strconv.ParseFloat: parsing \x22x\x22: invalid syntax".toList
    ∧ (((strings.Split ',' " x ,2".toList).length ≠ 2
      ∧ "invalid latitude: strconv.ParseFloat: parsing \x22x\x22: invalid syntax".toList
          = "invalid location format, expected 'lat,long'".toList)
    ∨ ∃ a b, " x ,2".toList = a ++ ',' :: b ∧
      ((∃ e, exampleEnv.ParseFloat (strings.TrimSpace a) = .error e
          ∧ "invalid latitude: strconv.ParseFloat: parsing \x22x\x22: invalid syntax".toList
            = "invalid latitude: ".toList ++ e.Error exampleEnv.Quote
          ∧ exampleEnv.Quote (strings.TrimSpace a) <:+:
            "invalid latitude: strconv.ParseFloat: parsing \x22x\x22: invalid syntax".toList
          ∧ strings.TrimSpace a <:+: " x ,2".toList)
      ∨ (∃ lat e, exampleEnv.ParseFloat (strings.TrimSpace a) = .ok lat
          ∧ exampleEnv.ParseFloat (strings.TrimSpace b) = .error e
          ∧ "invalid latitude: strconv.ParseFloat: parsing \x22x\x22: invalid syntax".toList
            = "invalid longitude: ".toList ++ e.Error exampleEnv.Quote
          ∧ exampleEnv.Quote (strings.TrimSpace b) <:+:
            "invalid latitude: strconv.ParseFloat: parsing \x22x\x22: invalid syntax".toList
          ∧ strings.TrimSpace b <:+: " x ,2".toList))) :=
  ⟨by decide, C11_parseLatLong_error_names_the_half exampleEnv " x ,2".toList _
    exampleEnv_ParseFloat_Num (by decide)⟩

/-! ## Lemmas on the prompts -/

theorem argumentOr_of_lookup (arguments : List (GoString × GoString)) (name dflt v : GoString)
    (h : arguments.lookup name = some v) :
    GetPromptRequest.argumentOr ⟨some arguments⟩ name dflt = v := by
  simp [GetPromptRequest.argumentOr, h]

theorem argumentOr_of_absent (request : GetPromptRequest) (name dflt : GoString)
    (h : request.Arguments = none ∨
      ∃ arguments, request.Arguments = some arguments ∧ arguments.lookup name = none) :
    request.argumentOr name dflt = dflt := by
  unfold GetPromptRequest.argumentOr
  rcases h with h | ⟨arguments, h, hl⟩
  · rw [h]
  · rw [h]; simp only [hl]

/-- The three arguments are parts of the text of the heatmap by location
prompt. -/
theorem infix_heatmapByLocationText (L M Z : GoString) :
    L <:+: heatmapByLocationText L M Z ∧ M <:+: heatmapByLocationText L M Z
      ∧ Z <:+: heatmapByLocationText L M Z := by
  refine ⟨⟨"Please get the air quality heatmap tile for ".toList,
      " using map type '".toList ++ M ++ "' at zoom level ".toList ++ Z ++ ".".toList
        ++ " You should first determine the latitude and longitude for this location, convert them to the appropriate X and Y tile coordinates for the given zoom level, and then use the 'get_air_quality_heatmap_tile' tool.".toList,
      ?_⟩,
    ⟨"Please get the air quality heatmap tile for ".toList ++ L ++ " using map type '".toList,
      "' at zoom level ".toList ++ Z ++ ".".toList
        ++ " You should first determine the latitude and longitude for this location, convert them to the appropriate X and Y tile coordinates for the given zoom level, and then use the 'get_air_quality_heatmap_tile' tool.".toList,
      ?_⟩,
    ⟨"Please get the air quality heatmap tile for ".toList ++ L ++ " using map type '".toList
      ++ M ++ "' at zoom level ".toList,
      ".".toList
        ++ " You should first determine the latitude and longitude for this location, convert them to the appropriate X and Y tile coordinates for the given zoom level, and then use the 'get_air_quality_heatmap_tile' tool.".toList,
      ?_⟩⟩ <;>
  simp only [heatmapByLocationText, List.append_assoc]

/-- C19: called with the argument `location = L` alone, the heatmap by
location prompt returns one message of the user whose text is the template
with `L`, the map type `UAQI_RED_GREEN` and the zoom `10`, all three parts of
the text; a `mapType` or a `zoom` among the arguments takes the place of its
default in the template. For `Tokyo` the text is spelled out. -/
theorem C19_heatmap_by_location_prompt_defaults (L M Z : GoString)
    (arguments : List (GoString × GoString)) :
    AirQualityHeatmapByLocationHandler ⟨some [("location".toList, L)]⟩
      = { result := some
            { Description := "Prompt to get air quality heatmap tile for a location".toList,
              Messages := [{ Role := "user".toList,
                             Content := .TextContent
                               (heatmapByLocationText L "UAQI_RED_GREEN".toList "10".toList) }] },
          err := none }
    ∧ (L <:+: heatmapByLocationText L "UAQI_RED_GREEN".toList "10".toList
      ∧ "UAQI_RED_GREEN".toList <:+: heatmapByLocationText L "UAQI_RED_GREEN".toList "10".toList
      ∧ "10".toList <:+: heatmapByLocationText L "UAQI_RED_GREEN".toList "10".toList)
    ∧ (arguments.lookup "location".toList = some L →
        arguments.lookup "mapType".toList = some M →
        arguments.lookup "zoom".toList = none →
        AirQualityHeatmapByLocationHandler ⟨some arguments⟩
          = promptResult "Prompt to get air quality heatmap tile for a location".toList
              (heatmapByLocationText L M "10".toList))
    ∧ (arguments.lookup "location".toList = some L →
        arguments.lookup "mapType".toList = none →
        arguments.lookup "zoom".toList = some Z →
        AirQualityHeatmapByLocationHandler ⟨some arguments⟩
          = promptResult "Prompt to get air quality heatmap tile for a location".toList
              (heatmapByLocationText L "UAQI_RED_GREEN".toList Z))
    ∧ (arguments.lookup "location".toList = some L →
        arguments.lookup "mapType".toList = some M →
        arguments.lookup "zoom".toList = some Z →
        AirQualityHeatmapByLocationHandler ⟨some arguments⟩
          = promptResult "Prompt to get air quality heatmap tile for a location".toList
              (heatmapByLocationText L M Z))
    ∧ heatmapByLocationText "Tokyo".toList "UAQI_RED_GREEN".toList "10".toList
      = "Please get the air quality heatmap tile for Tokyo using map type 'UAQI_RED_GREEN' at zoom level 10. You should first determine the latitude and longitude for this location, convert them to the appropriate X and Y tile coordinates for the given zoom level, and then use the 'get_air_quality_heatmap_tile' tool.".toList := by
  refine ⟨?_, infix_heatmapByLocationText L _ _, ?_, ?_, ?_, by rfl⟩
  · simp [AirQualityHeatmapByLocationHandler, GetPromptRequest.argumentOr, promptResult,
      List.lookup]
  · intro hl hm hz
    unfold AirQualityHeatmapByLocationHandler
    rw [argumentOr_of_lookup _ _ _ _ hl, argumentOr_of_lookup _ _ _ _ hm,
      argumentOr_of_absent _ _ _ (Or.inr ⟨arguments, rfl, hz⟩)]
  · intro hl hm hz
    unfold AirQualityHeatmapByLocationHandler
    rw [argumentOr_of_lookup _ _ _ _ hl, argumentOr_of_lookup _ _ _ _ hz,
      argumentOr_of_absent _ _ _ (Or.inr ⟨arguments, rfl, hm⟩)]
  · intro hl hm hz
    unfold AirQualityHeatmapByLocationHandler
    rw [argumentOr_of_lookup _ _ _ _ hl, argumentOr_of_lookup _ _ _ _ hm,
      argumentOr_of_lookup _ _ _ _ hz]

/-- C19 for `Tokyo` with the zoom `12` supplied. -/
theorem C19_heatmap_by_location_prompt_defaults_witness :
    AirQualityHeatmapByLocationHandler
        ⟨some [("zoom".toList, "12".toList), ("location".toList, "Tokyo".toList)]⟩
      = promptResult "Prompt to get air quality heatmap tile for a location".toList
          (heatmapByLocationText "Tokyo".toList "UAQI_RED_GREEN".toList "12".toList) :=
  (C19_heatmap_by_location_prompt_defaults "Tokyo".toList [] "12".toList
    [("zoom".toList, "12".toList), ("location".toList, "Tokyo".toList)]).2.2.2.1
    (by decide) (by decide) (by decide)


/-- C20: for every request, the map of arguments nil, empty or not, each of
the five prompt handlers returns a result with exactly one message, of the
user, with a text, and no error; and when the request has no `location`, the
four prompts by location have `unknown location` in the place of the location
in their text. -/
theorem C20_prompts_never_fault (request : GetPromptRequest) :
    (CurrentAirQualityByLocationHandler request).oneUserText
    ∧ (AirQualityForecastByLocationHandler request).oneUserText
    ∧ (AirQualityHistoryByLocationHandler request).oneUserText
    ∧ (AirQualityHeatmapByLocationHandler request).oneUserText
    ∧ (AirQualityHeatmapHandler request).oneUserText
    ∧ (request.lacks "location".toList →
        CurrentAirQualityByLocationHandler request
          = promptResult "Prompt to get current air quality for a location".toList
              ("Please get the current air quality for ".toList ++ "unknown location".toList
                ++ ". You should first determine the latitude and longitude for this location, and then use the 'get_current_air_quality' tool.".toList)
        ∧ AirQualityForecastByLocationHandler request
          = promptResult "Prompt to get air quality forecast for a location".toList
              (forecastText "unknown location".toList (request.argumentOr "pageSize".toList []))
        ∧ AirQualityHistoryByLocationHandler request
          = promptResult "Prompt to get historical air quality data for a location".toList
              (historyText "unknown location".toList (request.argumentOr "hours".toList []))
        ∧ AirQualityHeatmapByLocationHandler request
          = promptResult "Prompt to get air quality heatmap tile for a location".toList
              (heatmapByLocationText "unknown location".toList
                (request.argumentOr "mapType".toList "UAQI_RED_GREEN".toList)
                (request.argumentOr "zoom".toList "10".toList)))
    ∧ (∀ p, "unknown location".toList <:+: forecastText "unknown location".toList p
        ∧ "unknown location".toList <:+: historyText "unknown location".toList p)
    ∧ (∀ m z, "unknown location".toList
        <:+: heatmapByLocationText "unknown location".toList m z) := by
  refine ⟨⟨_, _, rfl⟩, ⟨_, _, rfl⟩, ⟨_, _, rfl⟩, ⟨_, _, rfl⟩, ⟨_, _, rfl⟩, ?_, ?_, ?_⟩
  · intro hl
    have h := argumentOr_of_absent request "location".toList "unknown location".toList hl
    refine ⟨?_, ?_, ?_, ?_⟩
    · unfold CurrentAirQualityByLocationHandler; rw [h]; rfl
    · unfold AirQualityForecastByLocationHandler; rw [h]
    · unfold AirQualityHistoryByLocationHandler; rw [h]
    · unfold AirQualityHeatmapByLocationHandler; rw [h]
  · intro p
    constructor
    · refine ⟨"Please get the air quality forecast for ".toList,
        ".".toList ++ (if p ≠ [] then
          " Please retrieve ".toList ++ p ++ " hours of forecast data.".toList else [])
          ++ " You should first determine the latitude and longitude for this location, and then use the 'get_air_quality_forecast' tool.".toList, ?_⟩
      unfold forecastText
      split <;> simp only [List.append_assoc, List.nil_append]
    · refine ⟨"Please get the historical air quality data for ".toList,
        ".".toList ++ (if p ≠ [] then
          " Please retrieve data for the past ".toList ++ p ++ " hours.".toList else [])
          ++ " You should first determine the latitude and longitude for this location, and then use the 'get_air_quality_history' tool.".toList, ?_⟩
      unfold historyText
      split <;> simp only [List.append_assoc, List.nil_append]
  · intro m z
    exact (infix_heatmapByLocationText _ m z).1

/-- C20 at the nil map and at the empty map. -/
theorem C20_prompts_never_fault_witness :
    CurrentAirQualityByLocationHandler ⟨none⟩
      = promptResult "Prompt to get current air quality for a location".toList
          "Please get the current air quality for unknown location. You should first determine the latitude and longitude for this location, and then use the 'get_current_air_quality' tool.".toList
    ∧ AirQualityHeatmapByLocationHandler ⟨some []⟩
      = promptResult "Prompt to get air quality heatmap tile for a location".toList
          (heatmapByLocationText "unknown location".toList "UAQI_RED_GREEN".toList "10".toList) :=
  ⟨((C20_prompts_never_fault ⟨none⟩).2.2.2.2.2.1 (Or.inl rfl)).1,
    ((C20_prompts_never_fault ⟨some []⟩).2.2.2.2.2.1 (Or.inr ⟨[], rfl, rfl⟩)).2.2.2⟩

/-! ## Lemmas on base64: decoding reads back what encoding writes -/

namespace base64

set_option maxRecDepth 100000 in
theorem decodeChar_alphabet : ∀ k, k < 64 → decodeChar (encodeStd.getD k 'A') = some k := by
  decide

theorem decodeChar_encodeChar (v : Nat) : decodeChar (encodeChar v) = some (v % 64) :=
  decodeChar_alphabet (v % 64) (Nat.mod_lt _ (by decide))

set_option maxRecDepth 100000 in
theorem alphabet_plain : ∀ k, k < 64 →
    encodeStd.getD k 'A' ≠ '=' ∧ encodeStd.getD k 'A' ≠ '\r' ∧ encodeStd.getD k 'A' ≠ '\n' := by
  decide

theorem encodeChar_plain (v : Nat) :
    encodeChar v ≠ '=' ∧ encodeChar v ≠ '\r' ∧ encodeChar v ≠ '\n' :=
  alphabet_plain (v % 64) (Nat.mod_lt _ (by decide))

theorem byteOf_eq (n : Nat) (a : Fin 256) (h : n % 256 = a.val) : byteOf n = a :=
  Fin.ext h

/-- Decoding the groups reads back the bytes that were encoded. -/
theorem decodeQuanta_EncodeToString : ∀ d : Bytes, decodeQuanta (EncodeToString d) = some d
  | [] => rfl
  | [a] => by
    have ha := a.isLt
    simp only [EncodeToString, decodeQuanta, decodeChar_encodeChar, if_true, and_self]
    congr 2
    apply byteOf_eq
    omega
  | [a, b] => by
    have ha := a.isLt
    have hb := b.isLt
    have hp := (encodeChar_plain ((a.val * 65536 + b.val * 256) / 64)).1
    simp only [EncodeToString, decodeQuanta, decodeChar_encodeChar, if_true, if_neg hp]
    congr 2
    · apply byteOf_eq; omega
    · congr 1
      apply byteOf_eq; omega
  | a :: b :: c :: rest => by
    have ha := a.isLt
    have hb := b.isLt
    have hc := c.isLt
    have hp1 := (encodeChar_plain ((a.val * 65536 + b.val * 256 + c.val) / 64)).1
    have hp2 := (encodeChar_plain (a.val * 65536 + b.val * 256 + c.val)).1
    have ih := decodeQuanta_EncodeToString rest
    simp only [EncodeToString, decodeQuanta, decodeChar_encodeChar, if_neg hp1, if_neg hp2, ih]
    congr 2
    · apply byteOf_eq; omega
    · congr 1
      · apply byteOf_eq; omega
      · congr 1
        apply byteOf_eq; omega

/-- The encoder writes no line break. -/
theorem filter_EncodeToString : ∀ d : Bytes,
    (EncodeToString d).filter (fun c => c ≠ '\r' ∧ c ≠ '\n') = EncodeToString d
  | [] => rfl
  | [a] => by
    simp [EncodeToString, List.filter, (encodeChar_plain _).2.1, (encodeChar_plain _).2.2]
  | [a, b] => by
    simp [EncodeToString, List.filter, (encodeChar_plain _).2.1, (encodeChar_plain _).2.2]
  | a :: b :: c :: rest => by
    have ih := filter_EncodeToString rest
    simp only [List.filter_eq_self] at ih
    simp [EncodeToString, List.filter, (encodeChar_plain _).2.1, (encodeChar_plain _).2.2]
    simpa using ih

/-- Round trip of base64: `DecodeString (EncodeToString d) = d`. -/
theorem DecodeString_EncodeToString (d : Bytes) : DecodeString (EncodeToString d) = some d := by
  unfold DecodeString
  rw [filter_EncodeToString, decodeQuanta_EncodeToString]

end base64

/-! ## Lemmas on a tile that was fetched -/

/-- With a provider that answers 200, the tile fetch returns the body. -/
theorem GetHeatmapTile_200 (env : Env) (c : Client) (m : MapType) (z x y : Int) (d : Bytes)
    (hnr : ∀ m u, env.newRequestError m u = none)
    (hdo : ∀ q, env.httpDo q = .response 200 d) :
    (c.GetHeatmapTile env m z x y).1 = .ok d := by
  rw [GetHeatmapTile_response env c m z x y 200 d hnr hdo]
  rfl

/-- C18: let the provider answer the tile request with status 200 and the
bytes `d`. Then the heatmap tool, its input decoded with a zoom within 0..16,
returns as its text `data:image/png;base64,` followed by the standard base64
encoding of `d`; the heatmap resource, read at a tile URI with a map type of
the eight and integers, returns one content with the MIME type `image/png`
and the standard base64 encoding of `d` as text; and decoding either text, the
tool's without its prefix, gives `d` back. -/
theorem C18_tile_bytes_travel_as_base64 (env : Env) (d : Bytes)
    (hnr : ∀ m u, env.newRequestError m u = none)
    (hdo : ∀ q, env.httpDo q = .response 200 d)
    (apiKey : GoString) (request : CallToolRequest) (input : HeatmapInput)
    (hdec : parseInput HeatmapInput.Unmarshal {} request.Arguments = .ok input)
    (hzoom : 0 ≤ input.Zoom ∧ input.Zoom ≤ 16)
    (h : AirQualityResourceHandler) (m : GoString) (z x y : Int) (hm : m ∈ validTypes)
    (hz : isInt64 z) (hx : isInt64 x) (hy : isInt64 y) :
    (NewHeatmapHandler env apiKey request).result
        = some { IsError := false,
                 Content := [.TextContent ("data:image/png;base64,".toList
                   ++ base64.EncodeToString d)] }
    ∧ (NewHeatmapHandler env apiKey request).err = none
    ∧ (h.HeatmapHandler env ⟨heatmapURI m z x y⟩).result
        = some { Contents := [{ URI := heatmapURI m z x y, MIMEType := "image/png".toList,
                                Text := base64.EncodeToString d }] }
    ∧ (h.HeatmapHandler env ⟨heatmapURI m z x y⟩).err = none
    ∧ base64.DecodeString (base64.EncodeToString d) = some d
    ∧ base64.DecodeString (strings.TrimPrefix
        ("data:image/png;base64,".toList ++ base64.EncodeToString d)
        "data:image/png;base64,".toList) = some d := by
  have htool : NewHeatmapHandler env apiKey request
      = toolSuccess ("data:image/png;base64,".toList ++ base64.EncodeToString d)
          [ProviderCall.GetHeatmapTile input.MapType input.Zoom input.X input.Y]
          ((NewClient apiKey).GetHeatmapTile env input.MapType input.Zoom input.X input.Y).2 := by
    unfold NewHeatmapHandler
    rw [hdec]
    have hz' : ¬ (input.Zoom < 0 ∨ input.Zoom > 16) := by omega
    simp only [if_neg hz']
    have h1 := GetHeatmapTile_200 env (NewClient apiKey) input.MapType input.Zoom input.X
      input.Y d hnr hdo
    cases hres : (NewClient apiKey).GetHeatmapTile env input.MapType input.Zoom input.X
        input.Y with
    | mk r http =>
      rw [hres] at h1
      dsimp only at h1
      rw [h1]
  have hres : h.HeatmapHandler env ⟨heatmapURI m z x y⟩
      = ⟨some ⟨[{ URI := heatmapURI m z x y, MIMEType := "image/png".toList,
                  Text := base64.EncodeToString d }]⟩, none,
          [ProviderCall.GetHeatmapTile m z x y], (h.client.GetHeatmapTile env m z x y).2⟩ := by
    unfold AirQualityResourceHandler.HeatmapHandler
    simp only [HasPrefix_heatmapURI, Bool.not_true, Bool.false_eq_true, if_false,
      Split_heatmap_path m z x y (slash_not_mem_of_valid m hm),
      strconv.Atoi_Itoa z hz.1 hz.2, strconv.Atoi_Itoa x hx.1 hx.2,
      strconv.Atoi_Itoa y hy.1 hy.2, (any_validTypes m).mpr hm]
    have h1 := GetHeatmapTile_200 env h.client m z x y d hnr hdo
    cases hres : h.client.GetHeatmapTile env m z x y with
    | mk r http =>
      rw [hres] at h1
      dsimp only at h1
      rw [h1]
  rw [htool, hres, strings.TrimPrefix_append, base64.DecodeString_EncodeToString]
  exact ⟨rfl, rfl, rfl, rfl, rfl, rfl⟩

/-- C18 for the two bytes that the example provider with status 200
returns: the text of the tool is `data:image/png;base64,e30=` and the text of
the resource `e30=`. -/
theorem C18_tile_bytes_travel_as_base64_witness :
    (NewHeatmapHandler (statusEnv 200) "KEY".toList ⟨some (.ok tileArguments)⟩).result
        = some { IsError := false,
                 Content := [.TextContent "data:image/png;base64,e30=".toList] }
    ∧ (exampleHandler.HeatmapHandler (statusEnv 200)
        ⟨"airquality://heatmap/US_AQI/3/1/2".toList⟩).result
        = some { Contents := [{ URI := "airquality://heatmap/US_AQI/3/1/2".toList,
                                MIMEType := "image/png".toList, Text := "e30=".toList }] }
    ∧ base64.DecodeString "e30=".toList = some [123, 125] := by
  have t := C18_tile_bytes_travel_as_base64 (statusEnv 200) [123, 125] (fun _ _ => rfl)
    (fun _ => rfl) "KEY".toList ⟨some (.ok tileArguments)⟩
    { MapType := "US_AQI".toList, Zoom := 3, X := 1, Y := 2 } (by decide) (by decide)
    exampleHandler "US_AQI".toList 3 1 2 (by decide) (by decide) (by decide) (by decide)
  exact ⟨t.1, t.2.2.1, t.2.2.2.2.1⟩

/-! ## Lemmas on decoding the arguments -/

namespace json

/-- Decoding the members one after the other is a fold. -/
theorem decodeMembers_eq_foldl {α : Type} (fields : List GoString)
    (step : α → GoString → Json → α × Option GoString) (kvs : List (GoString × Json))
    (st : α × Option GoString) :
    decodeMembers fields step kvs st
      = kvs.foldl (fun s kv => decodeMembers fields step [kv] s) st := by
  induction kvs generalizing st with
  | nil => rfl
  | cons kv rest ih =>
    obtain ⟨k, v⟩ := kv
    obtain ⟨a, err⟩ := st
    simp only [List.foldl_cons]
    rw [← ih]
    simp only [decodeMembers]
    split <;> rfl

/-- A member with an unknown key is skipped, wherever it stands. -/
theorem decodeMembers_unknown {α : Type} (fields : List GoString)
    (step : α → GoString → Json → α × Option GoString) (l1 l2 : List (GoString × Json))
    (k : GoString) (v : Json) (st : α × Option GoString) (hk : findField fields k = none) :
    decodeMembers fields step (l1 ++ (k, v) :: l2) st
      = decodeMembers fields step (l1 ++ l2) st := by
  rw [decodeMembers_eq_foldl, decodeMembers_eq_foldl fields step (l1 ++ l2),
    List.foldl_append, List.foldl_append, List.foldl_cons]
  congr 1
  obtain ⟨a, err⟩ := List.foldl (fun s kv => decodeMembers fields step [kv] s) st l1
  simp only [decodeMembers, hk]

/-- A key that equals no field name, also when case is ignored, is unknown. -/
theorem findField_eq_none (fields : List GoString) (k : GoString)
    (hk : ∀ f ∈ fields, foldName f ≠ foldName k) : findField fields k = none := by
  unfold findField
  have h1 : fields.contains k = false := by
    rw [← Bool.not_eq_true, List.contains_iff_exists_mem_beq]
    rintro ⟨f, hf, he⟩
    have : k = f := by simpa using he
    exact hk f hf (by rw [this])
  rw [h1]
  simp only [Bool.false_eq_true, if_false, List.find?_eq_none, decide_eq_true_eq]
  exact hk

/-- Adding a member with an unknown key to an object does not change what
`Unmarshal` returns. -/
theorem Unmarshal_unknown {α : Type} (typ : GoString) (fields : List GoString)
    (step : α → GoString → Json → α × Option GoString) (l1 l2 : List (GoString × Json))
    (k : GoString) (v : Json) (input : α) (hk : ∀ f ∈ fields, foldName f ≠ foldName k) :
    Unmarshal typ fields step (.obj (l1 ++ (k, v) :: l2)) input
      = Unmarshal typ fields step (.obj (l1 ++ l2)) input := by
  simp only [Unmarshal, decodeMembers_unknown fields step l1 l2 k v _
    (findField_eq_none fields k hk)]

/-- The members of an object may come in any order, as long as storing any
two of them commutes. -/
theorem decodeMembers_perm {α : Type} (fields : List GoString)
    (step : α → GoString → Json → α × Option GoString) (l1 l2 : List (GoString × Json))
    (p : l1.Perm l2)
    (comm : ∀ x ∈ l1, ∀ y ∈ l1, ∀ s,
      decodeMembers fields step [y] (decodeMembers fields step [x] s)
        = decodeMembers fields step [x] (decodeMembers fields step [y] s))
    (st : α × Option GoString) :
    decodeMembers fields step l2 st = decodeMembers fields step l1 st := by
  rw [decodeMembers_eq_foldl, decodeMembers_eq_foldl]
  exact (List.Perm.foldl_eq' p comm st).symm

end json

namespace json

theorem firstError_none (e : Option GoString) : firstError e none = e := by
  cases e <;> rfl

/-- Decoding a list of members: the first, then the others. -/
theorem decodeMembers_cons {α : Type} (fields : List GoString)
    (step : α → GoString → Json → α × Option GoString) (kv : GoString × Json)
    (rest : List (GoString × Json)) (st : α × Option GoString) :
    decodeMembers fields step (kv :: rest) st
      = decodeMembers fields step rest (decodeMembers fields step [kv] st) := by
  obtain ⟨k, v⟩ := kv
  obtain ⟨a, err⟩ := st
  simp only [decodeMembers]
  split <;> rfl

/-- Decoding one member whose key is a field name and whose value the field
accepts. -/
theorem decodeMembers_single {α : Type} (fields : List GoString)
    (step : α → GoString → Json → α × Option GoString) (k : GoString) (v : Json)
    (st : α × Option GoString) (a' : α) (hk : findField fields k = some k)
    (hs : step st.1 k v = (a', none)) :
    decodeMembers fields step [(k, v)] st = (a', st.2) := by
  obtain ⟨a, err⟩ := st
  simp only [decodeMembers, hk]
  simp only at hs
  rw [hs]
  simp only [firstError_none]

end json

/-- The members of a heatmap call with its four fields. -/
theorem HeatmapInput_required (s zl xl yl : GoString) (z x y : Int)
    (hz : strconv.ParseInt zl = .ok z) (hx : strconv.ParseInt xl = .ok x)
    (hy : strconv.ParseInt yl = .ok y) (kvs : List (GoString × Json))
    (p : kvs.Perm [("mapType".toList, .str s), ("zoom".toList, .num zl),
      ("x".toList, .num xl), ("y".toList, .num yl)]) :
    HeatmapInput.Unmarshal (.obj kvs) {} = .ok { MapType := s, Zoom := z, X := x, Y := y } := by
  have d1 : ∀ st : HeatmapInput × Option GoString,
      json.decodeMembers HeatmapInput.fields HeatmapInput.store
        [("mapType".toList, .str s)] st = ({ st.1 with MapType := s }, st.2) := fun st =>
    json.decodeMembers_single _ _ _ _ st _ (by decide) (by
      unfold HeatmapInput.store; rw [if_pos rfl]; rfl)
  have d2 : ∀ st : HeatmapInput × Option GoString,
      json.decodeMembers HeatmapInput.fields HeatmapInput.store
        [("zoom".toList, .num zl)] st = ({ st.1 with Zoom := z }, st.2) := fun st =>
    json.decodeMembers_single _ _ _ _ st _ (by decide) (by
      unfold HeatmapInput.store
      rw [if_neg (by decide), if_pos rfl]
      simp only [json.decodeInt, hz])
  have d3 : ∀ st : HeatmapInput × Option GoString,
      json.decodeMembers HeatmapInput.fields HeatmapInput.store
        [("x".toList, .num xl)] st = ({ st.1 with X := x }, st.2) := fun st =>
    json.decodeMembers_single _ _ _ _ st _ (by decide) (by
      unfold HeatmapInput.store
      rw [if_neg (by decide), if_neg (by decide), if_pos rfl]
      simp only [json.decodeInt, hx])
  have d4 : ∀ st : HeatmapInput × Option GoString,
      json.decodeMembers HeatmapInput.fields HeatmapInput.store
        [("y".toList, .num yl)] st = ({ st.1 with Y := y }, st.2) := fun st =>
    json.decodeMembers_single _ _ _ _ st _ (by decide) (by
      unfold HeatmapInput.store
      rw [if_neg (by decide), if_neg (by decide), if_neg (by decide), if_pos rfl]
      simp only [json.decodeInt, hy])
  unfold HeatmapInput.Unmarshal json.Unmarshal
  simp only
  rw [json.decodeMembers_perm HeatmapInput.fields HeatmapInput.store _ kvs p.symm]
  · rw [json.decodeMembers_cons, json.decodeMembers_cons, json.decodeMembers_cons, d1, d2, d3, d4]
  · intro a ha b hb st
    simp only [List.mem_cons, List.mem_singleton, List.not_mem_nil, or_false] at ha hb
    rcases ha with rfl | rfl | rfl | rfl <;> rcases hb with rfl | rfl | rfl | rfl <;>
      simp only [d1, d2, d3, d4]

/-- The members of a current conditions call with its two required fields. -/
theorem CurrentConditionsInput_required (env : Env) (a b : GoString) (f g : Float64)
    (ha : env.ParseFloat a = .ok f) (hb : env.ParseFloat b = .ok g)
    (kvs : List (GoString × Json))
    (p : kvs.Perm [("latitude".toList, .num a), ("longitude".toList, .num b)]) :
    CurrentConditionsInput.Unmarshal env (.obj kvs) {} = .ok { Latitude := f, Longitude := g } := by
  have d1 : ∀ st : CurrentConditionsInput × Option GoString,
      json.decodeMembers CurrentConditionsInput.fields (CurrentConditionsInput.store env)
        [("latitude".toList, .num a)] st = ({ st.1 with Latitude := f }, st.2) := fun st =>
    json.decodeMembers_single _ _ _ _ st _ (by decide) (by
      unfold CurrentConditionsInput.store
      rw [if_pos rfl]
      simp only [json.decodeFloat64, ha])
  have d2 : ∀ st : CurrentConditionsInput × Option GoString,
      json.decodeMembers CurrentConditionsInput.fields (CurrentConditionsInput.store env)
        [("longitude".toList, .num b)] st = ({ st.1 with Longitude := g }, st.2) := fun st =>
    json.decodeMembers_single _ _ _ _ st _ (by decide) (by
      unfold CurrentConditionsInput.store
      rw [if_neg (by decide), if_pos rfl]
      simp only [json.decodeFloat64, hb])
  unfold CurrentConditionsInput.Unmarshal json.Unmarshal
  simp only
  rw [json.decodeMembers_perm CurrentConditionsInput.fields (CurrentConditionsInput.store env) _ kvs p.symm]
  · rw [json.decodeMembers_cons, d1, d2]
  · intro x hx y hy st
    simp only [List.mem_cons, List.mem_singleton, List.not_mem_nil, or_false] at hx hy
    rcases hx with rfl | rfl <;> rcases hy with rfl | rfl <;> simp only [d1, d2]

/-- The members of a forecast call with its two required fields. -/
theorem ForecastInput_required (env : Env) (a b : GoString) (f g : Float64)
    (ha : env.ParseFloat a = .ok f) (hb : env.ParseFloat b = .ok g)
    (kvs : List (GoString × Json))
    (p : kvs.Perm [("latitude".toList, .num a), ("longitude".toList, .num b)]) :
    ForecastInput.Unmarshal env (.obj kvs) {} = .ok { Latitude := f, Longitude := g } := by
  have d1 : ∀ st : ForecastInput × Option GoString,
      json.decodeMembers ForecastInput.fields (ForecastInput.store env)
        [("latitude".toList, .num a)] st = ({ st.1 with Latitude := f }, st.2) := fun st =>
    json.decodeMembers_single _ _ _ _ st _ (by decide) (by
      unfold ForecastInput.store
      rw [if_pos rfl]
      simp only [json.decodeFloat64, ha])
  have d2 : ∀ st : ForecastInput × Option GoString,
      json.decodeMembers ForecastInput.fields (ForecastInput.store env)
        [("longitude".toList, .num b)] st = ({ st.1 with Longitude := g }, st.2) := fun st =>
    json.decodeMembers_single _ _ _ _ st _ (by decide) (by
      unfold ForecastInput.store
      rw [if_neg (by decide), if_pos rfl]
      simp only [json.decodeFloat64, hb])
  unfold ForecastInput.Unmarshal json.Unmarshal
  simp only
  rw [json.decodeMembers_perm ForecastInput.fields (ForecastInput.store env) _ kvs p.symm]
  · rw [json.decodeMembers_cons, d1, d2]
  · intro x hx y hy st
    simp only [List.mem_cons, List.mem_singleton, List.not_mem_nil, or_false] at hx hy
    rcases hx with rfl | rfl <;> rcases hy with rfl | rfl <;> simp only [d1, d2]

/-- The members of a history call with its two required fields. -/
theorem HistoryInput_required (env : Env) (a b : GoString) (f g : Float64)
    (ha : env.ParseFloat a = .ok f) (hb : env.ParseFloat b = .ok g)
    (kvs : List (GoString × Json))
    (p : kvs.Perm [("latitude".toList, .num a), ("longitude".toList, .num b)]) :
    HistoryInput.Unmarshal env (.obj kvs) {} = .ok { Latitude := f, Longitude := g } := by
  have d1 : ∀ st : HistoryInput × Option GoString,
      json.decodeMembers HistoryInput.fields (HistoryInput.store env)
        [("latitude".toList, .num a)] st = ({ st.1 with Latitude := f }, st.2) := fun st =>
    json.decodeMembers_single _ _ _ _ st _ (by decide) (by
      unfold HistoryInput.store
      rw [if_pos rfl]
      simp only [json.decodeFloat64, ha])
  have d2 : ∀ st : HistoryInput × Option GoString,
      json.decodeMembers HistoryInput.fields (HistoryInput.store env)
        [("longitude".toList, .num b)] st = ({ st.1 with Longitude := g }, st.2) := fun st =>
    json.decodeMembers_single _ _ _ _ st _ (by decide) (by
      unfold HistoryInput.store
      rw [if_neg (by decide), if_pos rfl]
      simp only [json.decodeFloat64, hb])
  unfold HistoryInput.Unmarshal json.Unmarshal
  simp only
  rw [json.decodeMembers_perm HistoryInput.fields (HistoryInput.store env) _ kvs p.symm]
  · rw [json.decodeMembers_cons, d1, d2]
  · intro x hx y hy st
    simp only [List.mem_cons, List.mem_singleton, List.not_mem_nil, or_false] at hx hy
    rcases hx with rfl | rfl <;> rcases hy with rfl | rfl <;> simp only [d1, d2]


/-- C17 as stated fails: keys are matched to fields without regard to case.
`LATITUDE` is not the name of a field of the current conditions input, yet
added with a text as value to arguments that decode it makes decoding fail,
and the handler return an error result without a provider call. `maptype` is
not the name of a field of the heatmap input, yet added to arguments that
decode it changes the decoded map type, and the tile the handler asks for. -/
theorem C17_counterexample_key_matched_up_to_case :
    "LATITUDE".toList ∉ CurrentConditionsInput.fields
    ∧ CurrentConditionsInput.Unmarshal exampleEnv requiredArguments {}
      = .ok { Latitude := ⟨1⟩, Longitude := ⟨2⟩ }
    ∧ CurrentConditionsInput.Unmarshal exampleEnv upperCaseTextArguments {}
      = .error "json: cannot unmarshal string into Go struct field CurrentConditionsInput.latitude of type float64".toList
    ∧ NewCurrentConditionsHandler exampleEnv "KEY".toList ⟨some (.ok upperCaseTextArguments)⟩
      = toolError "Invalid input: json: cannot unmarshal string into Go struct field CurrentConditionsInput.latitude of type float64".toList [] []
    ∧ "maptype".toList ∉ HeatmapInput.fields
    ∧ HeatmapInput.Unmarshal tileArguments {}
      = .ok { MapType := "US_AQI".toList, Zoom := 3, X := 1, Y := 2 }
    ∧ HeatmapInput.Unmarshal lowerCaseMapTypeArguments {}
      = .ok { MapType := "FOO".toList, Zoom := 3, X := 1, Y := 2 }
    ∧ (NewHeatmapHandler exampleEnv "KEY".toList ⟨some (.ok lowerCaseMapTypeArguments)⟩).calls
      = [.GetHeatmapTile "FOO".toList 3 1 2] := by
  refine ⟨by decide, by decide, by decide, ?_, by decide, by decide, by decide, by decide⟩
  have h : parseInput (CurrentConditionsInput.Unmarshal exampleEnv) {}
      (some (.ok upperCaseTextArguments))
      = .error "Invalid input: json: cannot unmarshal string into Go struct field CurrentConditionsInput.latitude of type float64".toList := by
    decide
  unfold NewCurrentConditionsHandler
  rw [h]

/-- C17, amended: for each tool, an object that holds the required fields
only, in any order, with values the fields accept (for a latitude and a
longitude a number that `strconv.ParseFloat` accepts, for zoom, x and y a
number that `strconv.ParseInt` accepts, for the map type a text), decodes
into the input with these values and every optional field at its zero value;
and adding to any object a member whose key equals no field name of the
tool, also when the case of letters is ignored, changes neither the success
nor the result of decoding. -/
theorem C17_decoding_required_fields_and_unknown_keys (env : Env) :
    (∀ (a b : GoString) (f g : Float64) (kvs : List (GoString × Json)),
      env.ParseFloat a = .ok f → env.ParseFloat b = .ok g →
      kvs.Perm [("latitude".toList, .num a), ("longitude".toList, .num b)] →
      CurrentConditionsInput.Unmarshal env (.obj kvs) {}
          = .ok { Latitude := f, Longitude := g, ExtraComputations := [],
                  UaqiColorPalette := [], UniversalAqi := none, LanguageCode := [] }
        ∧ ForecastInput.Unmarshal env (.obj kvs) {}
          = .ok { Latitude := f, Longitude := g, PageSize := 0, PageToken := [],
                  ExtraComputations := [], UaqiColorPalette := [], UniversalAqi := none,
                  LanguageCode := [], DateTime := [], PeriodStartTime := [],
                  PeriodEndTime := [] }
        ∧ HistoryInput.Unmarshal env (.obj kvs) {}
          = .ok { Latitude := f, Longitude := g, PageSize := 0, PageToken := [],
                  ExtraComputations := [], UaqiColorPalette := [], UniversalAqi := none,
                  LanguageCode := [], DateTime := [], Hours := 0, PeriodStartTime := [],
                  PeriodEndTime := [] })
    ∧ (∀ (s zl xl yl : GoString) (z x y : Int) (kvs : List (GoString × Json)),
      strconv.ParseInt zl = .ok z → strconv.ParseInt xl = .ok x → strconv.ParseInt yl = .ok y →
      kvs.Perm [("mapType".toList, .str s), ("zoom".toList, .num zl),
        ("x".toList, .num xl), ("y".toList, .num yl)] →
      HeatmapInput.Unmarshal (.obj kvs) {} = .ok { MapType := s, Zoom := z, X := x, Y := y })
    ∧ (∀ (l1 l2 : List (GoString × Json)) (k : GoString) (v : Json),
      ((∀ f ∈ CurrentConditionsInput.fields, json.foldName f ≠ json.foldName k) →
        ∀ input, CurrentConditionsInput.Unmarshal env (.obj (l1 ++ (k, v) :: l2)) input
          = CurrentConditionsInput.Unmarshal env (.obj (l1 ++ l2)) input)
      ∧ ((∀ f ∈ ForecastInput.fields, json.foldName f ≠ json.foldName k) →
        ∀ input, ForecastInput.Unmarshal env (.obj (l1 ++ (k, v) :: l2)) input
          = ForecastInput.Unmarshal env (.obj (l1 ++ l2)) input)
      ∧ ((∀ f ∈ HistoryInput.fields, json.foldName f ≠ json.foldName k) →
        ∀ input, HistoryInput.Unmarshal env (.obj (l1 ++ (k, v) :: l2)) input
          = HistoryInput.Unmarshal env (.obj (l1 ++ l2)) input)
      ∧ ((∀ f ∈ HeatmapInput.fields, json.foldName f ≠ json.foldName k) →
        ∀ input, HeatmapInput.Unmarshal (.obj (l1 ++ (k, v) :: l2)) input
          = HeatmapInput.Unmarshal (.obj (l1 ++ l2)) input)) := by
  refine ⟨?_, ?_, ?_⟩
  · intro a b f g kvs ha hb p
    exact ⟨CurrentConditionsInput_required env a b f g ha hb kvs p,
      ForecastInput_required env a b f g ha hb kvs p,
      HistoryInput_required env a b f g ha hb kvs p⟩
  · intro s zl xl yl z x y kvs hz hx hy p
    exact HeatmapInput_required s zl xl yl z x y hz hx hy kvs p
  · intro l1 l2 k v
    exact ⟨fun hk input => json.Unmarshal_unknown _ _ _ l1 l2 k v input hk,
      fun hk input => json.Unmarshal_unknown _ _ _ l1 l2 k v input hk,
      fun hk input => json.Unmarshal_unknown _ _ _ l1 l2 k v input hk,
      fun hk input => json.Unmarshal_unknown _ _ _ l1 l2 k v input hk⟩

/-- C17, amended, in the example environment: the longitude before the
latitude, and the unknown key `note` between them. -/
theorem C17_decoding_required_fields_and_unknown_keys_witness :
    HistoryInput.Unmarshal exampleEnv
        (.obj [("longitude".toList, .num "2".toList), ("latitude".toList, .num "1".toList)]) {}
      = .ok { Latitude := ⟨1⟩, Longitude := ⟨2⟩ }
    ∧ HistoryInput.Unmarshal exampleEnv
        (.obj ([("longitude".toList, .num "2".toList)] ++ ("note".toList, .str "x".toList)
          :: [("latitude".toList, .num "1".toList)])) {}
      = HistoryInput.Unmarshal exampleEnv
        (.obj ([("longitude".toList, .num "2".toList)]
          ++ [("latitude".toList, .num "1".toList)])) {} :=
  ⟨((C17_decoding_required_fields_and_unknown_keys exampleEnv).1 "1".toList "2".toList ⟨1⟩ ⟨2⟩ _
      (by decide) (by decide) (List.Perm.swap _ _ [])).2.2,
    ((C17_decoding_required_fields_and_unknown_keys exampleEnv).2.2
      [("longitude".toList, .num "2".toList)] [("latitude".toList, .num "1".toList)]
      "note".toList (.str "x".toList)).2.2.1 (by decide) {}⟩


/-! ## Lemmas on writing a response and reading it back -/

namespace strconv

/-- `ParseInt` reads a 64-bit integer back from its decimal text. -/
theorem ParseInt_Itoa (i : Int) (hlo : -(2 : Int) ^ 63 ≤ i) (hhi : i < (2 : Int) ^ 63) :
    ParseInt (Itoa i) = .ok i := by
  have hslow := parseUintLoop_formatBits (formatBits (i.natAbs + 1) i.natAbs [])
    (i.natAbs + 1) i.natAbs (by omega) (by simp only [maxUint64]; omega)
  unfold Itoa
  split
  · rename_i hneg
    have hne : formatBits (i.natAbs + 1) i.natAbs [] ≠ [] := formatBits_ne_nil _ _
    have h : ParseInt ('-' :: formatBits (i.natAbs + 1) i.natAbs []) = .ok (-(i.natAbs : Int)) := by
      simp [ParseInt, ParseUint, hne, hslow]
      omega
    rw [h]
    congr 1
    omega
  · rename_i hpos
    obtain ⟨c, rest, hD, hm, hp⟩ := formatBits_cons i.natAbs i.natAbs
    have h : ParseInt (formatBits (i.natAbs + 1) i.natAbs []) = .ok (i.natAbs : Int) := by
      rw [hD] at hslow ⊢
      simp [ParseInt, ParseUint, hm, hp, hslow]
      omega
    rw [h]
    congr 1
    omega

end strconv

namespace json

theorem decodeMembers_append {α : Type} (fields : List GoString)
    (step : α → GoString → Json → α × Option GoString) (l1 l2 : List (GoString × Json))
    (st : α × Option GoString) :
    decodeMembers fields step (l1 ++ l2) st
      = decodeMembers fields step l2 (decodeMembers fields step l1 st) := by
  rw [decodeMembers_eq_foldl, List.foldl_append, ← decodeMembers_eq_foldl,
    ← decodeMembers_eq_foldl]

/-- Reading back a string field tagged `omitempty`. -/
theorem decodeMembers_omitEmptyString {α : Type} (fields : List GoString)
    (step : α → GoString → Json → α × Option GoString) (key s : GoString) (a a' : α)
    (rest : List (GoString × Json))
    (hk : findField fields key = some key) (hs : step a key (.str s) = (a', none))
    (hz : s = [] → a' = a) :
    decodeMembers fields step (omitEmptyString key s ++ rest) (a, none)
      = decodeMembers fields step rest (a', none) := by
  rw [decodeMembers_append]
  congr 1
  unfold omitEmptyString
  split
  · rename_i h
    rw [hz h]
    rfl
  · exact decodeMembers_single fields step key _ (a, none) a' hk hs

/-- Reading back an `int` field tagged `omitempty`. -/
theorem decodeMembers_omitEmptyInt {α : Type} (fields : List GoString)
    (step : α → GoString → Json → α × Option GoString) (key : GoString) (n : Int) (a a' : α)
    (rest : List (GoString × Json))
    (hk : findField fields key = some key)
    (hs : step a key (.num (strconv.Itoa n)) = (a', none))
    (hz : n = 0 → a' = a) :
    decodeMembers fields step (omitEmptyInt key n ++ rest) (a, none)
      = decodeMembers fields step rest (a', none) := by
  rw [decodeMembers_append]
  congr 1
  unfold omitEmptyInt
  split
  · rename_i h
    rw [hz h]
    rfl
  · exact decodeMembers_single fields step key _ (a, none) a' hk hs

/-- Writing and reading back a `float32` field tagged `omitempty`. -/
theorem omitEmptyFloat32_readsBack (fr : FloatRoutines) (key : GoString) (f : Float32)
    (h : fr.readsBack32 f = true) :
    ∃ m, omitEmptyFloat32 fr key f = .ok m
      ∧ ∀ {α : Type} (fields : List GoString)
          (step : α → GoString → Json → α × Option GoString) (a a' : α)
          (rest : List (GoString × Json)),
          findField fields key = some key →
          (∀ lit, fr.Parse32 lit = .ok f → step a key (.num lit) = (a', none)) →
          (f = ⟨0⟩ → a' = a) →
          decodeMembers fields step (m ++ rest) (a, none)
            = decodeMembers fields step rest (a', none) := by
  unfold FloatRoutines.readsBack32 at h
  unfold omitEmptyFloat32
  split at h
  · rename_i hz
    rw [if_pos hz]
    refine ⟨[], rfl, ?_⟩
    intro α fields step a a' rest _ _ h0
    rw [h0 (of_decide_eq_true h)]
    rfl
  · rename_i hz
    rw [if_neg hz]
    split at h
    · exact absurd h (by simp)
    · rename_i lit hlit
      split at h
      · exact absurd h (by simp)
      · rename_i g hg
        have hgf : g = f := of_decide_eq_true h
        rw [hgf] at hg
        refine ⟨[(key, .num lit)], rfl, ?_⟩
        intro α fields step a a' rest hk hs _
        rw [decodeMembers_append]
        congr 1
        exact decodeMembers_single fields step key _ (a, none) a' hk (hs lit hg)

/-- Writing and reading back a `float64` field tagged `omitempty`. -/
theorem omitEmptyFloat64_readsBack (fr : FloatRoutines) (key : GoString) (f : Float64)
    (h : fr.readsBack64 f = true) :
    ∃ m, omitEmptyFloat64 fr key f = .ok m
      ∧ ∀ {α : Type} (fields : List GoString)
          (step : α → GoString → Json → α × Option GoString) (a a' : α)
          (rest : List (GoString × Json)),
          findField fields key = some key →
          (∀ lit, fr.Parse64 lit = .ok f → step a key (.num lit) = (a', none)) →
          (f = ⟨0⟩ → a' = a) →
          decodeMembers fields step (m ++ rest) (a, none)
            = decodeMembers fields step rest (a', none) := by
  unfold FloatRoutines.readsBack64 at h
  unfold omitEmptyFloat64
  split at h
  · rename_i hz
    rw [if_pos hz]
    refine ⟨[], rfl, ?_⟩
    intro α fields step a a' rest _ _ h0
    rw [h0 (of_decide_eq_true h)]
    rfl
  · rename_i hz
    rw [if_neg hz]
    split at h
    · exact absurd h (by simp)
    · rename_i lit hlit
      split at h
      · exact absurd h (by simp)
      · rename_i g hg
        have hgf : g = f := of_decide_eq_true h
        rw [hgf] at hg
        refine ⟨[(key, .num lit)], rfl, ?_⟩
        intro α fields step a a' rest hk hs _
        rw [decodeMembers_append]
        congr 1
        exact decodeMembers_single fields step key _ (a, none) a' hk (hs lit hg)

/-- Writing the elements of a slice and reading them back one by one. -/
theorem marshalAll_readsBack {α : Type} (marshal : α → Except GoString Json) (zero : α)
    (fields : List GoString) (step : α → GoString → Json → α × Option GoString)
    (struct field typ : GoString) (xs : List α)
    (h : ∀ x ∈ xs, ∃ kvs, marshal x = .ok (.obj kvs)
      ∧ decodeMembers fields step kvs (zero, none) = (x, none)) :
    ∃ js, marshalAll marshal xs = .ok js
      ∧ js.map (decodeStruct fields step struct field typ zero) = xs.map (fun x => (x, none)) := by
  induction xs with
  | nil => exact ⟨[], rfl, rfl⟩
  | cons x xs ih =>
    obtain ⟨kvs, hm, hd⟩ := h x (List.mem_cons_self _ _)
    obtain ⟨js, hjs, hmap⟩ := ih (fun y hy => h y (List.mem_cons_of_mem _ hy))
    refine ⟨.obj kvs :: js, ?_, ?_⟩
    · simp only [marshalAll, hm, hjs]
    · simp only [List.map_cons, hmap, decodeStruct, hd]

/-- No error among items that have none. -/
theorem foldl_firstError_none {α : Type} (xs : List α) :
    (xs.map (fun x => ((x, none) : α × Option GoString))).foldl
      (fun e it => firstError e it.2) none = none := by
  induction xs with
  | nil => rfl
  | cons x xs ih => simpa [firstError] using ih

/-- Writing and reading back a slice that is not empty. -/
theorem decodeStructSlice_readsBack {α : Type} (marshal : α → Except GoString Json)
    (zero : α) (fields : List GoString) (step : α → GoString → Json → α × Option GoString)
    (struct field typ key : GoString) (old : Option (List α)) (xs : Option (List α))
    (hne : xs ≠ some [])
    (h : ∀ l, xs = some l → ∀ x ∈ l, ∃ kvs, marshal x = .ok (.obj kvs)
      ∧ decodeMembers fields step kvs (zero, none) = (x, none)) :
    (omitEmptySlice marshal key xs = .ok [] ∧ xs = none)
      ∨ ∃ js, omitEmptySlice marshal key xs = .ok [(key, .arr js)]
        ∧ decodeStructSlice zero fields step struct field typ old (.arr js) = (xs, none) := by
  cases xs with
  | none => exact Or.inl ⟨rfl, rfl⟩
  | some l =>
    cases l with
    | nil => exact absurd rfl hne
    | cons x rest =>
      obtain ⟨js, hjs, hmap⟩ := marshalAll_readsBack marshal zero fields step struct field typ
        (x :: rest) (h _ rfl)
      refine Or.inr ⟨js, ?_, ?_⟩
      · simp only [omitEmptySlice, hjs]
      · simp only [decodeStructSlice, hmap, foldl_firstError_none, List.map_map]
        have hid : (Prod.fst ∘ fun x : α => ((x, none) : α × Option GoString)) = id := rfl
        rw [hid, List.map_id]

end json

theorem HealthRecommendations_readsBack (path : GoString) (h : HealthRecommendations) :
    ∃ kvs, json.marshalHealthRecommendations h = .ok (.obj kvs)
      ∧ json.decodeMembers HealthRecommendations.fields (HealthRecommendations.store path) kvs
          (HealthRecommendations.zero, none) = (h, none) := by
  refine ⟨_, rfl, ?_⟩
  refine (json.decodeMembers_omitEmptyString _ _ _ _ _
    ⟨h.GeneralPopulation, [], [], [], [], [], []⟩ _
    (by decide) rfl (fun e => by rw [e]; rfl)).trans ?_
  refine (json.decodeMembers_omitEmptyString _ _ _ _ _
    ⟨h.GeneralPopulation, h.Elderly, [], [], [], [], []⟩ _
    (by decide) rfl (fun e => by rw [e])).trans ?_
  refine (json.decodeMembers_omitEmptyString _ _ _ _ _
    ⟨h.GeneralPopulation, h.Elderly, h.LungDiseasePopulation, [], [], [], []⟩ _
    (by decide) rfl (fun e => by rw [e])).trans ?_
  refine (json.decodeMembers_omitEmptyString _ _ _ _ _
    ⟨h.GeneralPopulation, h.Elderly, h.LungDiseasePopulation, h.HeartDiseasePopulation,
      [], [], []⟩ _
    (by decide) rfl (fun e => by rw [e])).trans ?_
  refine (json.decodeMembers_omitEmptyString _ _ _ _ _
    ⟨h.GeneralPopulation, h.Elderly, h.LungDiseasePopulation, h.HeartDiseasePopulation,
      h.Athletes, [], []⟩ _
    (by decide) rfl (fun e => by rw [e])).trans ?_
  refine (json.decodeMembers_omitEmptyString _ _ _ _ _
    ⟨h.GeneralPopulation, h.Elderly, h.LungDiseasePopulation, h.HeartDiseasePopulation,
      h.Athletes, h.PregnantWomen, []⟩ _
    (by decide) rfl (fun e => by rw [e])).trans ?_
  refine (json.decodeMembers_omitEmptyString _ _ _ _ _
    ⟨h.GeneralPopulation, h.Elderly, h.LungDiseasePopulation, h.HeartDiseasePopulation,
      h.Athletes, h.PregnantWomen, h.Children⟩ _
    (by decide) rfl (fun e => by rw [e])).trans ?_
  rfl

theorem Color_readsBack (fr : json.FloatRoutines) (path : GoString) (c : Color)
    (h : c.readsBack fr = true) :
    ∃ kvs, json.marshalColor fr c = .ok (.obj kvs)
      ∧ json.decodeMembers Color.fields (Color.store fr path) kvs (Color.zero, none)
          = (c, none) := by
  simp only [Color.readsBack, Bool.and_eq_true] at h
  obtain ⟨⟨⟨h1, h2⟩, h3⟩, h4⟩ := h
  obtain ⟨m1, e1, d1⟩ := json.omitEmptyFloat32_readsBack fr "red".toList c.Red h1
  obtain ⟨m2, e2, d2⟩ := json.omitEmptyFloat32_readsBack fr "green".toList c.Green h2
  obtain ⟨m3, e3, d3⟩ := json.omitEmptyFloat32_readsBack fr "blue".toList c.Blue h3
  obtain ⟨m4, e4, d4⟩ := json.omitEmptyFloat32_readsBack fr "alpha".toList c.Alpha h4
  refine ⟨m1 ++ (m2 ++ (m3 ++ (m4 ++ []))), ?_, ?_⟩
  · simp only [json.marshalColor, json.object, json.members, e1, e2, e3, e4]
  · refine (d1 _ _ _ ⟨c.Red, ⟨0⟩, ⟨0⟩, ⟨0⟩⟩ _ (by decide) ?_ (fun e => by rw [e]; rfl)).trans ?_
    · intro lit hl
      unfold Color.store
      rw [if_pos rfl]
      simp only [json.decodeFloat32, hl]
      rfl
    refine (d2 _ _ _ ⟨c.Red, c.Green, ⟨0⟩, ⟨0⟩⟩ _ (by decide) ?_ (fun e => by rw [e])).trans ?_
    · intro lit hl
      unfold Color.store
      rw [if_neg (by decide), if_pos rfl]
      simp only [json.decodeFloat32, hl]
    refine (d3 _ _ _ ⟨c.Red, c.Green, c.Blue, ⟨0⟩⟩ _ (by decide) ?_ (fun e => by rw [e])).trans ?_
    · intro lit hl
      unfold Color.store
      rw [if_neg (by decide), if_neg (by decide), if_pos rfl]
      simp only [json.decodeFloat32, hl]
    refine (d4 _ _ _ ⟨c.Red, c.Green, c.Blue, c.Alpha⟩ _ (by decide) ?_ (fun e => by rw [e])).trans ?_
    · intro lit hl
      unfold Color.store
      rw [if_neg (by decide), if_neg (by decide), if_neg (by decide), if_pos rfl]
      simp only [json.decodeFloat32, hl]
    rfl

namespace json

/-- Writing and reading back a pointer field tagged `omitempty`. -/
theorem omitEmptyPtr_readsBack {β : Type} (marshal : β → Except GoString Json) (zero : β)
    (bfields : List GoString) (bstep : β → GoString → Json → β × Option GoString)
    (struct field typ key : GoString) (p : Option β)
    (h : ∀ v, p = some v → ∃ kvs, marshal v = .ok (.obj kvs)
      ∧ decodeMembers bfields bstep kvs (zero, none) = (v, none)) :
    ∃ m, omitEmptyPtr marshal key p = .ok m
      ∧ ∀ {α : Type} (fields : List GoString)
          (step : α → GoString → Json → α × Option GoString) (a a' : α)
          (rest : List (GoString × Json)),
          findField fields key = some key →
          (∀ j, decodeStructPtr zero bfields bstep struct field typ none j = (p, none) →
            step a key j = (a', none)) →
          (p = none → a' = a) →
          decodeMembers fields step (m ++ rest) (a, none)
            = decodeMembers fields step rest (a', none) := by
  cases p with
  | none =>
    refine ⟨[], rfl, ?_⟩
    intro α fields step a a' rest _ _ h0
    rw [h0 rfl]
    rfl
  | some v =>
    obtain ⟨kvs, hm, hd⟩ := h v rfl
    refine ⟨[(key, .obj kvs)], by simp only [omitEmptyPtr, hm], ?_⟩
    intro α fields step a a' rest hk hs _
    rw [decodeMembers_append]
    congr 1
    refine decodeMembers_single fields step key _ (a, none) a' hk (hs _ ?_)
    simp only [decodeStructPtr, decodeStruct, Option.getD_none, hd]

/-- Writing and reading back a slice field tagged `omitempty`, for a slice
that is nil or not empty. -/
theorem omitEmptySlice_readsBack {β : Type} (marshal : β → Except GoString Json) (zero : β)
    (bfields : List GoString) (bstep : β → GoString → Json → β × Option GoString)
    (struct field typ key : GoString) (xs : Option (List β)) (hne : xs ≠ some [])
    (h : ∀ l, xs = some l → ∀ x ∈ l, ∃ kvs, marshal x = .ok (.obj kvs)
      ∧ decodeMembers bfields bstep kvs (zero, none) = (x, none)) :
    ∃ m, omitEmptySlice marshal key xs = .ok m
      ∧ ∀ {α : Type} (fields : List GoString)
          (step : α → GoString → Json → α × Option GoString) (a a' : α)
          (rest : List (GoString × Json)),
          findField fields key = some key →
          (∀ j, decodeStructSlice zero bfields bstep struct field typ none j = (xs, none) →
            step a key j = (a', none)) →
          (xs = none → a' = a) →
          decodeMembers fields step (m ++ rest) (a, none)
            = decodeMembers fields step rest (a', none) := by
  rcases decodeStructSlice_readsBack marshal zero bfields bstep struct field typ key none xs
    hne h with ⟨hm, hnone⟩ | ⟨js, hm, hd⟩
  · refine ⟨[], hm, ?_⟩
    intro α fields step a a' rest _ _ h0
    rw [h0 hnone]
    rfl
  · refine ⟨[(key, .arr js)], hm, ?_⟩
    intro α fields step a a' rest hk hs _
    rw [decodeMembers_append]
    congr 1
    exact decodeMembers_single fields step key _ (a, none) a' hk (hs _ hd)

end json

/-- What `sliceReadsBack` asks of a slice. -/
theorem sliceReadsBack_iff {α : Type} (p : α → Bool) (xs : Option (List α)) :
    sliceReadsBack p xs = true ↔ xs ≠ some [] ∧ ∀ l, xs = some l → ∀ x ∈ l, p x = true := by
  cases xs with
  | none => simp [sliceReadsBack]
  | some l =>
    cases l with
    | nil => simp [sliceReadsBack]
    | cons x rest =>
      simp only [sliceReadsBack, List.all_eq_true, ne_eq, Option.some.injEq, reduceCtorEq,
        not_false_eq_true, true_and]
      constructor
      · intro h l hl
        rw [← hl]
        exact h
      · intro h
        exact h _ rfl

theorem Concentration_readsBack (fr : json.FloatRoutines) (path : GoString) (c : Concentration)
    (h : fr.readsBack64 c.Value = true) :
    ∃ kvs, json.marshalConcentration fr c = .ok (.obj kvs)
      ∧ json.decodeMembers Concentration.fields (Concentration.store fr path) kvs
          (Concentration.zero, none) = (c, none) := by
  obtain ⟨m1, e1, d1⟩ := json.omitEmptyFloat64_readsBack fr "value".toList c.Value h
  refine ⟨m1 ++ (json.omitEmptyString "units".toList c.Units ++ []), ?_, ?_⟩
  · simp only [json.marshalConcentration, json.object, json.members, e1]
  · refine (d1 _ _ _ ⟨c.Value, []⟩ _ (by decide) ?_ (fun e => by rw [e]; rfl)).trans ?_
    · intro lit hl
      unfold Concentration.store
      rw [if_pos rfl]
      simp only [json.decodeFloat64, hl]
      rfl
    refine (json.decodeMembers_omitEmptyString _ _ _ _ _ ⟨c.Value, c.Units⟩ _
      (by decide) rfl (fun e => by rw [e])).trans ?_
    rfl

theorem AQI_readsBack (fr : json.FloatRoutines) (path : GoString) (a : AQI)
    (h : a.readsBack fr = true) :
    ∃ kvs, json.marshalAQI fr a = .ok (.obj kvs)
      ∧ json.decodeMembers AQI.fields (AQI.store fr path) kvs (AQI.zero, none)
          = (a, none) := by
  simp only [AQI.readsBack, Bool.and_eq_true, decide_eq_true_eq] at h
  obtain ⟨hint, hcol⟩ := h
  obtain ⟨m5, e5, d5⟩ := json.omitEmptyPtr_readsBack (json.marshalColor fr) Color.zero
    Color.fields (Color.store fr (path ++ "color".toList ++ ".".toList)) "AQI".toList
    (path ++ "color".toList) "tools.Color".toList "color".toList a.Color (by
      intro c hc
      rw [hc] at hcol
      exact Color_readsBack fr _ c hcol)
  refine ⟨json.omitEmptyString "code".toList a.Code
    ++ (json.omitEmptyString "displayName".toList a.DisplayName
    ++ (json.omitEmptyInt "aqi".toList a.Aqi
    ++ (json.omitEmptyString "aqiDisplay".toList a.AqiDisplay
    ++ (m5 ++ (json.omitEmptyString "category".toList a.Category ++ []))))), ?_, ?_⟩
  · simp only [json.marshalAQI, json.object, json.members, e5]
  · refine (json.decodeMembers_omitEmptyString _ _ _ _ _ ⟨a.Code, [], 0, [], none, []⟩ _
      (by decide) rfl (fun e => by rw [e]; rfl)).trans ?_
    refine (json.decodeMembers_omitEmptyString _ _ _ _ _ ⟨a.Code, a.DisplayName, 0, [], none, []⟩ _
      (by decide) rfl (fun e => by rw [e])).trans ?_
    refine (json.decodeMembers_omitEmptyInt _ _ _ _ _
      ⟨a.Code, a.DisplayName, a.Aqi, [], none, []⟩ _
      (by decide) ?_ (fun e => by rw [e])).trans ?_
    · unfold AQI.store
      rw [if_neg (by decide), if_neg (by decide), if_pos rfl]
      simp only [json.decodeInt, strconv.ParseInt_Itoa a.Aqi hint.1 hint.2]
    refine (json.decodeMembers_omitEmptyString _ _ _ _ _
      ⟨a.Code, a.DisplayName, a.Aqi, a.AqiDisplay, none, []⟩ _
      (by decide) rfl (fun e => by rw [e])).trans ?_
    refine (d5 _ _ _ ⟨a.Code, a.DisplayName, a.Aqi, a.AqiDisplay, a.Color, []⟩ _
      (by decide) ?_ (fun e => by rw [e])).trans ?_
    · intro j hj
      unfold AQI.store
      rw [if_neg (by decide), if_neg (by decide), if_neg (by decide), if_neg (by decide),
        if_pos rfl]
      simp only [hj]
    refine (json.decodeMembers_omitEmptyString _ _ _ _ _
      ⟨a.Code, a.DisplayName, a.Aqi, a.AqiDisplay, a.Color, a.Category⟩ _
      (by decide) rfl (fun e => by rw [e])).trans ?_
    rfl

theorem Pollutant_readsBack (fr : json.FloatRoutines) (path : GoString) (p : Pollutant)
    (h : p.readsBack fr = true) :
    ∃ kvs, json.marshalPollutant fr p = .ok (.obj kvs)
      ∧ json.decodeMembers Pollutant.fields (Pollutant.store fr path) kvs (Pollutant.zero, none)
          = (p, none) := by
  obtain ⟨m4, e4, d4⟩ := json.omitEmptyPtr_readsBack (json.marshalConcentration fr)
    Concentration.zero Concentration.fields
    (Concentration.store fr (path ++ "concentration".toList ++ ".".toList)) "Pollutant".toList
    (path ++ "concentration".toList) "tools.Concentration".toList "concentration".toList
    p.Concentration (by
      intro c hc
      simp only [Pollutant.readsBack, hc] at h
      exact Concentration_readsBack fr _ c h)
  refine ⟨json.omitEmptyString "code".toList p.Code
    ++ (json.omitEmptyString "displayName".toList p.DisplayName
    ++ (json.omitEmptyString "fullName".toList p.FullName
    ++ (m4 ++ (json.omitEmptyString "additionalInfo".toList p.AdditionalInfo ++ [])))), ?_, ?_⟩
  · simp only [json.marshalPollutant, json.object, json.members, e4]
  · refine (json.decodeMembers_omitEmptyString _ _ _ _ _ ⟨p.Code, [], [], none, []⟩ _
      (by decide) rfl (fun e => by rw [e]; rfl)).trans ?_
    refine (json.decodeMembers_omitEmptyString _ _ _ _ _ ⟨p.Code, p.DisplayName, [], none, []⟩ _
      (by decide) rfl (fun e => by rw [e])).trans ?_
    refine (json.decodeMembers_omitEmptyString _ _ _ _ _
      ⟨p.Code, p.DisplayName, p.FullName, none, []⟩ _
      (by decide) rfl (fun e => by rw [e])).trans ?_
    refine (d4 _ _ _ ⟨p.Code, p.DisplayName, p.FullName, p.Concentration, []⟩ _
      (by decide) ?_ (fun e => by rw [e])).trans ?_
    · intro j hj
      unfold Pollutant.store
      rw [if_neg (by decide), if_neg (by decide), if_neg (by decide), if_pos rfl]
      simp only [hj]
    refine (json.decodeMembers_omitEmptyString _ _ _ _ _
      ⟨p.Code, p.DisplayName, p.FullName, p.Concentration, p.AdditionalInfo⟩ _
      (by decide) rfl (fun e => by rw [e])).trans ?_
    rfl

/-- A response without an empty slice that is not nil, whose numbers read
back, is read back from the JSON value written for it. -/
theorem CurrentConditionsResponse_readsBack (fr : json.FloatRoutines)
    (r : CurrentConditionsResponse) (h : r.readsBack fr = true) :
    ∃ j, json.marshalCurrentConditionsResponse fr r = .ok j
      ∧ CurrentConditionsResponse.Unmarshal fr j emptyCurrentConditionsResponse = .ok r := by
  simp only [CurrentConditionsResponse.readsBack, Bool.and_eq_true, sliceReadsBack_iff] at h
  obtain ⟨⟨hi0, hi⟩, ⟨hp0, hp⟩⟩ := h
  obtain ⟨m3, e3, d3⟩ := json.omitEmptySlice_readsBack (json.marshalAQI fr) AQI.zero
    AQI.fields (AQI.store fr ("indexes".toList ++ ".".toList)) "CurrentConditionsResponse".toList
    "indexes".toList "tools.AQI".toList "indexes".toList r.Indexes hi0
    (fun l hl x hx => AQI_readsBack fr _ x (hi l hl x hx))
  obtain ⟨m4, e4, d4⟩ := json.omitEmptySlice_readsBack (json.marshalPollutant fr) Pollutant.zero
    Pollutant.fields (Pollutant.store fr ("pollutants".toList ++ ".".toList))
    "CurrentConditionsResponse".toList "pollutants".toList "tools.Pollutant".toList
    "pollutants".toList r.Pollutants hp0
    (fun l hl x hx => Pollutant_readsBack fr _ x (hp l hl x hx))
  obtain ⟨m5, e5, d5⟩ := json.omitEmptyPtr_readsBack json.marshalHealthRecommendations
    HealthRecommendations.zero HealthRecommendations.fields
    (HealthRecommendations.store ("healthRecommendations".toList ++ ".".toList))
    "CurrentConditionsResponse".toList "healthRecommendations".toList
    "tools.HealthRecommendations".toList "healthRecommendations".toList
    r.HealthRecommendations (fun v _ => HealthRecommendations_readsBack _ v)
  refine ⟨.obj (json.omitEmptyString "dateTime".toList r.DateTime
    ++ (json.omitEmptyString "regionCode".toList r.RegionCode
    ++ (m3 ++ (m4 ++ (m5 ++ []))))), ?_, ?_⟩
  · simp only [json.marshalCurrentConditionsResponse, json.object, json.members, e3, e4, e5]
  · have hd : json.decodeMembers CurrentConditionsResponse.fields
        (CurrentConditionsResponse.store fr)
        (json.omitEmptyString "dateTime".toList r.DateTime
          ++ (json.omitEmptyString "regionCode".toList r.RegionCode
          ++ (m3 ++ (m4 ++ (m5 ++ [])))))
        (emptyCurrentConditionsResponse, none) = (r, none) := by
      refine (json.decodeMembers_omitEmptyString _ _ _ _ _ ⟨r.DateTime, [], none, none, none⟩ _
        (by decide) rfl (fun e => by rw [e]; rfl)).trans ?_
      refine (json.decodeMembers_omitEmptyString _ _ _ _ _
        ⟨r.DateTime, r.RegionCode, none, none, none⟩ _
        (by decide) rfl (fun e => by rw [e])).trans ?_
      refine (d3 _ _ _ ⟨r.DateTime, r.RegionCode, r.Indexes, none, none⟩ _
        (by decide) ?_ (fun e => by rw [e])).trans ?_
      · intro j hj
        unfold CurrentConditionsResponse.store
        rw [if_neg (by decide), if_neg (by decide), if_pos rfl]
        simp only [hj]
      refine (d4 _ _ _ ⟨r.DateTime, r.RegionCode, r.Indexes, r.Pollutants, none⟩ _
        (by decide) ?_ (fun e => by rw [e])).trans ?_
      · intro j hj
        unfold CurrentConditionsResponse.store
        rw [if_neg (by decide), if_neg (by decide), if_neg (by decide), if_pos rfl]
        simp only [hj]
      refine (d5 _ _ _
        ⟨r.DateTime, r.RegionCode, r.Indexes, r.Pollutants, r.HealthRecommendations⟩ _
        (by decide) ?_ (fun e => by rw [e])).trans ?_
      · intro j hj
        unfold CurrentConditionsResponse.store
        rw [if_neg (by decide), if_neg (by decide), if_neg (by decide), if_neg (by decide),
          if_pos rfl]
        simp only [hj]
      rfl
    unfold CurrentConditionsResponse.Unmarshal json.Unmarshal
    simp only [hd]

/-! ## The text of the current conditions tool, read back -/

/-- C16 as stated fails: the provider answers `{"indexes":[]}`, the client
returns the response with an empty list of indexes that is not nil, the JSON
value written for it is the empty object and the text of the tool result is
`{}`, and the empty object decodes into the response whose list of indexes
is nil, which is another one. -/
theorem C16_counterexample_empty_list_comes_back_nil :
    ((NewClient "KEY".toList).GetCurrentConditions emptyIndexesEnv
        ({ Latitude := ⟨1⟩, Longitude := ⟨2⟩ } : CurrentConditionsInput).request).1
      = .ok emptyIndexesResponse
    ∧ (NewCurrentConditionsHandler emptyIndexesEnv "KEY".toList
        ⟨some (.ok requiredArguments)⟩).calls
      = [.GetCurrentConditions
          ({ Latitude := ⟨1⟩, Longitude := ⟨2⟩ } : CurrentConditionsInput).request]
    ∧ (NewCurrentConditionsHandler emptyIndexesEnv "KEY".toList
        ⟨some (.ok requiredArguments)⟩).result
      = some { Content := [.TextContent "\x7b\x7d".toList] }
    ∧ json.marshalCurrentConditionsResponse exampleFloats emptyIndexesResponse = .ok (.obj [])
    ∧ CurrentConditionsResponse.Unmarshal exampleFloats (.obj []) emptyCurrentConditionsResponse
      = .ok emptyCurrentConditionsResponse
    ∧ emptyCurrentConditionsResponse.Indexes = none
    ∧ emptyIndexesResponse.Indexes = some []
    ∧ emptyCurrentConditionsResponse ≠ emptyIndexesResponse := by
  refine ⟨by decide, by decide, by decide, rfl, by decide, rfl, rfl, by decide⟩

/-- C16, amended: when the client returns to the current conditions tool a
response `r` that holds no empty list that is not nil and whose numbers are
written and read back as themselves (`r.readsBack`), and the text that
`json.MarshalIndent` writes for `r` is read by `readJson` as the JSON value
that the `json` tags of the response types give, then the handler returns a
result that is no error, with one text; this text is read as a JSON value
that decodes, into a response at its zero value, to `r` itself. -/
theorem C16_text_reads_back_to_the_response (env : Env) (fr : json.FloatRoutines)
    (readJson : GoString → Except GoString Json) (apiKey : GoString)
    (request : CallToolRequest) (input : CurrentConditionsInput)
    (r : CurrentConditionsResponse)
    (hin : parseInput (CurrentConditionsInput.Unmarshal env) {} request.Arguments = .ok input)
    (hr : ((NewClient apiKey).GetCurrentConditions env input.request).1 = .ok r)
    (hM : ∀ j, json.marshalCurrentConditionsResponse fr r = .ok j →
      ∃ text, env.marshalIndentCurrentConditions r = .ok text ∧ readJson text = .ok j)
    (hrb : r.readsBack fr = true) :
    ∃ text j,
      (NewCurrentConditionsHandler env apiKey request).result
        = some { IsError := false, Content := [.TextContent text] }
      ∧ (NewCurrentConditionsHandler env apiKey request).calls
        = [.GetCurrentConditions input.request]
      ∧ readJson text = .ok j
      ∧ CurrentConditionsResponse.Unmarshal fr j emptyCurrentConditionsResponse = .ok r := by
  obtain ⟨j, hj, hback⟩ := CurrentConditionsResponse_readsBack fr r hrb
  obtain ⟨text, htext, hread⟩ := hM j hj
  refine ⟨text, j, ?_, ?_, hread, hback⟩
  · unfold NewCurrentConditionsHandler
    rw [hin]
    simp only [hr, htext, toolSuccess]
  · unfold NewCurrentConditionsHandler
    rw [hin]
    simp only [hr, htext, toolSuccess]

set_option maxRecDepth 100000 in
/-- The sample environment decodes the bytes of the sample text into the
sample response, and writes the sample text for it. -/
theorem sampleEnv_codec :
    sampleEnv.unmarshalCurrentConditions (asciiBytes sampleText) = .ok sampleResponse
    ∧ sampleEnv.marshalIndentCurrentConditions sampleResponse = .ok sampleText
    ∧ readSample sampleText = .ok sampleJson
    ∧ json.marshalCurrentConditionsResponse exampleFloats sampleResponse = .ok sampleJson := by
  refine ⟨?_, ?_, ?_, rfl⟩
  · show (if asciiBytes sampleText = asciiBytes sampleText then Except.ok sampleResponse
      else Except.error "unexpected end of JSON input".toList) = Except.ok sampleResponse
    rw [if_pos rfl]
  · show (if sampleResponse = sampleResponse then Except.ok sampleText
      else Except.ok "\x7b\x7d".toList) = (Except.ok sampleText : Except GoString GoString)
    rw [if_pos rfl]
  · show (if sampleText = sampleText then Except.ok sampleJson
      else Except.error "unexpected end of JSON input".toList) = Except.ok sampleJson
    rw [if_pos rfl]

/-- The sample environment answers the request of the required arguments
with the sample response. -/
theorem sampleEnv_GetCurrentConditions :
    ((NewClient "KEY".toList).GetCurrentConditions sampleEnv
      ({ Latitude := ⟨1⟩, Longitude := ⟨2⟩ } : CurrentConditionsInput).request).1
      = .ok sampleResponse := by
  have hm : ∃ j, json.marshalCurrentConditionsRequest sampleEnv.jsonFloat
      ({ Latitude := ⟨1⟩, Longitude := ⟨2⟩ } : CurrentConditionsInput).request = .ok j :=
    ⟨_, rfl⟩
  obtain ⟨j, hj⟩ := hm
  have hdo : ∀ q, sampleEnv.httpDo q = .response 200 (asciiBytes sampleText) := fun _ => rfl
  have hnew : ∀ m u, sampleEnv.newRequestError m u = none := fun _ _ => rfl
  simp only [Client.GetCurrentConditions, Client.doPostRequest, hj, hdo, hnew,
    sampleEnv_codec.1]
  simp

/-- C16, amended, on a response with one index, one pollutant and a
recommendation. -/
theorem C16_text_reads_back_to_the_response_witness :
    ∃ text j,
      (NewCurrentConditionsHandler sampleEnv "KEY".toList ⟨some (.ok requiredArguments)⟩).result
        = some { IsError := false, Content := [.TextContent text] }
      ∧ (NewCurrentConditionsHandler sampleEnv "KEY".toList ⟨some (.ok requiredArguments)⟩).calls
        = [.GetCurrentConditions
            ({ Latitude := ⟨1⟩, Longitude := ⟨2⟩ } : CurrentConditionsInput).request]
      ∧ readSample text = .ok j
      ∧ CurrentConditionsResponse.Unmarshal exampleFloats j emptyCurrentConditionsResponse
        = .ok sampleResponse :=
  C16_text_reads_back_to_the_response sampleEnv exampleFloats readSample "KEY".toList
    ⟨some (.ok requiredArguments)⟩ { Latitude := ⟨1⟩, Longitude := ⟨2⟩ } sampleResponse
    (by decide) sampleEnv_GetCurrentConditions
    (fun j hj => by
      rw [sampleEnv_codec.2.2.2] at hj
      cases hj
      exact ⟨sampleText, sampleEnv_codec.2.1, sampleEnv_codec.2.2.1⟩)
    (by decide)


/-! ## The optional argument of the forecast and history prompts -/

theorem argumentOr_of_has (request : GetPromptRequest) (name dflt v : GoString)
    (h : request.has name v) : request.argumentOr name dflt = v := by
  obtain ⟨arguments, ha, hl⟩ := h
  unfold GetPromptRequest.argumentOr
  rw [ha]
  simp only [hl]

/-- The text of the forecast prompt without and with the sentence on the
hours, which are two texts. -/
theorem forecastText_cases (location n : GoString) :
    forecastText location []
      = "Please get the air quality forecast for ".toList ++ location ++ ".".toList
        ++ " You should first determine the latitude and longitude for this location, and then use the 'get_air_quality_forecast' tool.".toList
    ∧ (n ≠ [] →
      forecastText location n
        = "Please get the air quality forecast for ".toList ++ location ++ ".".toList
          ++ (" Please retrieve ".toList ++ n ++ " hours of forecast data.".toList)
          ++ " You should first determine the latitude and longitude for this location, and then use the 'get_air_quality_forecast' tool.".toList
      ∧ forecastText location n ≠ forecastText location []) := by
  refine ⟨by simp [forecastText], fun hn => ⟨by simp [forecastText, hn], ?_⟩⟩
  intro h
  have hl := congrArg List.length h
  simp only [forecastText, ne_eq, hn, not_false_eq_true, if_true, not_true_eq_false, if_false,
    List.length_append] at hl
  have : 0 < (" Please retrieve ".toList).length := by decide
  omega

/-- The text of the history prompt without and with the sentence on the
hours, which are two texts. -/
theorem historyText_cases (location n : GoString) :
    historyText location []
      = "Please get the historical air quality data for ".toList ++ location ++ ".".toList
        ++ " You should first determine the latitude and longitude for this location, and then use the 'get_air_quality_history' tool.".toList
    ∧ (n ≠ [] →
      historyText location n
        = "Please get the historical air quality data for ".toList ++ location ++ ".".toList
          ++ (" Please retrieve data for the past ".toList ++ n ++ " hours.".toList)
          ++ " You should first determine the latitude and longitude for this location, and then use the 'get_air_quality_history' tool.".toList
      ∧ historyText location n ≠ historyText location []) := by
  refine ⟨by simp [historyText], fun hn => ⟨by simp [historyText, hn], ?_⟩⟩
  intro h
  have hl := congrArg List.length h
  simp only [historyText, ne_eq, hn, not_false_eq_true, if_true, not_true_eq_false, if_false,
    List.length_append] at hl
  have : 0 < (" Please retrieve data for the past ".toList).length := by decide
  omega

/-- The texts for two locations of different length are two texts. -/
theorem forecastText_location_ne (a b p : GoString) (h : a.length ≠ b.length) :
    forecastText a p ≠ forecastText b p := by
  intro e
  have hl := congrArg List.length e
  unfold forecastText at hl
  by_cases hp : p = []
  · simp only [hp, ne_eq, not_true_eq_false, if_false, List.length_append] at hl
    omega
  · simp only [ne_eq, hp, not_false_eq_true, if_true, List.length_append] at hl
    omega

theorem historyText_location_ne (a b p : GoString) (h : a.length ≠ b.length) :
    historyText a p ≠ historyText b p := by
  intro e
  have hl := congrArg List.length e
  unfold historyText at hl
  by_cases hp : p = []
  · simp only [hp, ne_eq, not_true_eq_false, if_false, List.length_append] at hl
    omega
  · simp only [ne_eq, hp, not_false_eq_true, if_true, List.length_append] at hl
    omega

/-- C28: in the forecast prompt a `pageSize`, and in the history prompt an
`hours`, that is given as the empty string yields the text that an omitted
one yields, the text without the extra sentence; one given as `n`, not empty,
yields another text, the one with ` Please retrieve n hours of forecast
data.`, respectively ` Please retrieve data for the past n hours.`, after the
first sentence. A `location` given as the empty string is put into both
texts as it is, and these are not the texts for `unknown location`. -/
theorem C28_empty_optional_argument_is_as_omitted (request : GetPromptRequest) (n : GoString) :
    (request.lacks "pageSize".toList ∨ request.has "pageSize".toList [] →
      AirQualityForecastByLocationHandler request
        = promptResult "Prompt to get air quality forecast for a location".toList
            ("Please get the air quality forecast for ".toList
              ++ request.argumentOr "location".toList "unknown location".toList ++ ".".toList
              ++ " You should first determine the latitude and longitude for this location, and then use the 'get_air_quality_forecast' tool.".toList))
    ∧ (request.has "pageSize".toList n → n ≠ [] →
      AirQualityForecastByLocationHandler request
        = promptResult "Prompt to get air quality forecast for a location".toList
            ("Please get the air quality forecast for ".toList
              ++ request.argumentOr "location".toList "unknown location".toList ++ ".".toList
              ++ (" Please retrieve ".toList ++ n ++ " hours of forecast data.".toList)
              ++ " You should first determine the latitude and longitude for this location, and then use the 'get_air_quality_forecast' tool.".toList)
      ∧ AirQualityForecastByLocationHandler request
        ≠ promptResult "Prompt to get air quality forecast for a location".toList
            (forecastText (request.argumentOr "location".toList "unknown location".toList) []))
    ∧ (request.lacks "hours".toList ∨ request.has "hours".toList [] →
      AirQualityHistoryByLocationHandler request
        = promptResult "Prompt to get historical air quality data for a location".toList
            ("Please get the historical air quality data for ".toList
              ++ request.argumentOr "location".toList "unknown location".toList ++ ".".toList
              ++ " You should first determine the latitude and longitude for this location, and then use the 'get_air_quality_history' tool.".toList))
    ∧ (request.has "hours".toList n → n ≠ [] →
      AirQualityHistoryByLocationHandler request
        = promptResult "Prompt to get historical air quality data for a location".toList
            ("Please get the historical air quality data for ".toList
              ++ request.argumentOr "location".toList "unknown location".toList ++ ".".toList
              ++ (" Please retrieve data for the past ".toList ++ n ++ " hours.".toList)
              ++ " You should first determine the latitude and longitude for this location, and then use the 'get_air_quality_history' tool.".toList)
      ∧ AirQualityHistoryByLocationHandler request
        ≠ promptResult "Prompt to get historical air quality data for a location".toList
            (historyText (request.argumentOr "location".toList "unknown location".toList) []))
    ∧ (request.has "location".toList [] →
      AirQualityForecastByLocationHandler request
        = promptResult "Prompt to get air quality forecast for a location".toList
            (forecastText [] (request.argumentOr "pageSize".toList []))
      ∧ AirQualityForecastByLocationHandler request
        ≠ promptResult "Prompt to get air quality forecast for a location".toList
            (forecastText "unknown location".toList (request.argumentOr "pageSize".toList []))
      ∧ AirQualityHistoryByLocationHandler request
        = promptResult "Prompt to get historical air quality data for a location".toList
            (historyText [] (request.argumentOr "hours".toList []))
      ∧ AirQualityHistoryByLocationHandler request
        ≠ promptResult "Prompt to get historical air quality data for a location".toList
            (historyText "unknown location".toList (request.argumentOr "hours".toList []))) := by
  have hinj : ∀ d a b, promptResult d a = promptResult d b → a = b := by
    intro d a b h
    simp only [promptResult, PromptReturn.mk.injEq, Option.some.injEq, GetPromptResult.mk.injEq,
      List.cons.injEq, PromptMessage.mk.injEq, and_true, true_and] at h
    injection h
  have hps : request.lacks "pageSize".toList ∨ request.has "pageSize".toList [] →
      request.argumentOr "pageSize".toList [] = [] := by
    rintro (h | h)
    · exact argumentOr_of_absent request _ _ h
    · exact argumentOr_of_has request _ _ _ h
  have hhs : request.lacks "hours".toList ∨ request.has "hours".toList [] →
      request.argumentOr "hours".toList [] = [] := by
    rintro (h | h)
    · exact argumentOr_of_absent request _ _ h
    · exact argumentOr_of_has request _ _ _ h
  refine ⟨?_, ?_, ?_, ?_, ?_⟩
  · intro h
    unfold AirQualityForecastByLocationHandler
    simp only [hps h, (forecastText_cases _ n).1]
  · intro h hn
    unfold AirQualityForecastByLocationHandler
    simp only [argumentOr_of_has request _ _ _ h]
    refine ⟨by rw [((forecastText_cases _ n).2 hn).1], fun e => ?_⟩
    exact ((forecastText_cases _ n).2 hn).2 (hinj _ _ _ e)
  · intro h
    unfold AirQualityHistoryByLocationHandler
    simp only [hhs h, (historyText_cases _ n).1]
  · intro h hn
    unfold AirQualityHistoryByLocationHandler
    simp only [argumentOr_of_has request _ _ _ h]
    refine ⟨by rw [((historyText_cases _ n).2 hn).1], fun e => ?_⟩
    exact ((historyText_cases _ n).2 hn).2 (hinj _ _ _ e)
  · intro h
    unfold AirQualityForecastByLocationHandler AirQualityHistoryByLocationHandler
    simp only [argumentOr_of_has request _ _ _ h]
    refine ⟨trivial, fun e => ?_, trivial, fun e => ?_⟩
    · exact forecastText_location_ne _ _ _ (by decide) (hinj _ _ _ e)
    · exact historyText_location_ne _ _ _ (by decide) (hinj _ _ _ e)

/-- C28 on the arguments `location = ""`, `pageSize = ""`, `hours = "5"`. -/
theorem C28_empty_optional_argument_is_as_omitted_witness :
    AirQualityForecastByLocationHandler
        ⟨some [("location".toList, []), ("pageSize".toList, []), ("hours".toList, "5".toList)]⟩
      = promptResult "Prompt to get air quality forecast for a location".toList
          "Please get the air quality forecast for . You should first determine the latitude and longitude for this location, and then use the 'get_air_quality_forecast' tool.".toList
    ∧ AirQualityHistoryByLocationHandler
        ⟨some [("location".toList, []), ("pageSize".toList, []), ("hours".toList, "5".toList)]⟩
      = promptResult "Prompt to get historical air quality data for a location".toList
          "Please get the historical air quality data for . Please retrieve data for the past 5 hours. You should first determine the latitude and longitude for this location, and then use the 'get_air_quality_history' tool.".toList :=
  ⟨(C28_empty_optional_argument_is_as_omitted
      ⟨some [("location".toList, []), ("pageSize".toList, []), ("hours".toList, "5".toList)]⟩
      "5".toList).1 (Or.inr ⟨_, rfl, rfl⟩),
    ((C28_empty_optional_argument_is_as_omitted
      ⟨some [("location".toList, []), ("pageSize".toList, []), ("hours".toList, "5".toList)]⟩
      "5".toList).2.2.2.1 ⟨_, rfl, rfl⟩ (by decide)).1⟩


/-! ## The order of the checks of the heatmap resource -/

/-- A text that differs from `invalid map type` within its first sixteen
characters does not start with it. -/
theorem not_invalid_map_type_prefix (msg : GoString)
    (h : msg.take 16 ≠ "invalid map type".toList) : ¬ ("invalid map type".toList <+: msg) := by
  intro hp
  obtain ⟨t, ht⟩ := hp
  apply h
  rw [← ht]
  rfl

/-- C27: on a heatmap URI of four segments whose map type is not recognized,
the first of zoom, x and y that is no integer gives the error: `invalid zoom
level: ...` for the zoom, `invalid x coordinate: ...` for `x` after an
integer zoom, `invalid y coordinate: ...` for `y` after an integer zoom and
`x`. None of these starts with `invalid map type`, there is no result and no
provider call; only after three integers is the error the one for the map
type. -/
theorem C27_heatmap_reports_the_first_failure (env : Env) (h : AirQualityResourceHandler)
    (path m zs xs ys : GoString) (hsplit : strings.Split '/' path = [m, zs, xs, ys])
    (hm : m ∉ validTypes) :
    (∀ e, strconv.Atoi zs = .error e →
      h.HeatmapHandler env ⟨"airquality://heatmap/".toList ++ path⟩
          = .fail ("invalid zoom level: ".toList ++ e.Error env.Quote)
        ∧ ¬ ("invalid map type".toList <+: "invalid zoom level: ".toList ++ e.Error env.Quote))
    ∧ (∀ z e, strconv.Atoi zs = .ok z → strconv.Atoi xs = .error e →
      h.HeatmapHandler env ⟨"airquality://heatmap/".toList ++ path⟩
          = .fail ("invalid x coordinate: ".toList ++ e.Error env.Quote)
        ∧ ¬ ("invalid map type".toList <+: "invalid x coordinate: ".toList ++ e.Error env.Quote))
    ∧ (∀ z x e, strconv.Atoi zs = .ok z → strconv.Atoi xs = .ok x →
        strconv.Atoi ys = .error e →
      h.HeatmapHandler env ⟨"airquality://heatmap/".toList ++ path⟩
          = .fail ("invalid y coordinate: ".toList ++ e.Error env.Quote)
        ∧ ¬ ("invalid map type".toList <+: "invalid y coordinate: ".toList ++ e.Error env.Quote))
    ∧ (∀ z x y, strconv.Atoi zs = .ok z → strconv.Atoi xs = .ok x → strconv.Atoi ys = .ok y →
      h.HeatmapHandler env ⟨"airquality://heatmap/".toList ++ path⟩
          = .fail ("invalid map type: ".toList ++ m)) := by
  have hfour := HeatmapHandler_four_segments env h path m zs xs ys hsplit
  refine ⟨?_, ?_, ?_, ?_⟩
  · intro e he
    rw [hfour, he]
    exact ⟨rfl, not_invalid_map_type_prefix _ (by simp)⟩
  · intro z e hz he
    rw [hfour, hz, he]
    exact ⟨rfl, not_invalid_map_type_prefix _ (by simp)⟩
  · intro z x e hz hx he
    rw [hfour, hz, hx, he]
    exact ⟨rfl, not_invalid_map_type_prefix _ (by simp)⟩
  · intro z x y hz hx hy
    rw [hfour, hz, hx, hy]
    simp only [hm, if_false]

/-- C27 on `airquality://heatmap/FOO/a/b/0`, where the map type is not
recognized and neither the zoom nor `x` is an integer: the error is the one
for the zoom. -/
theorem C27_heatmap_reports_the_first_failure_witness :
    exampleHandler.HeatmapHandler exampleEnv ⟨"airquality://heatmap/".toList ++ "FOO/a/b/0".toList⟩
      = .fail ("invalid zoom level: ".toList
          ++ strconv.NumError.Error exampleEnv.Quote ⟨"Atoi".toList, "a".toList, .ErrSyntax⟩)
    ∧ ¬ ("invalid map type".toList <+: "invalid zoom level: ".toList
          ++ strconv.NumError.Error exampleEnv.Quote ⟨"Atoi".toList, "a".toList, .ErrSyntax⟩) :=
  (C27_heatmap_reports_the_first_failure exampleEnv exampleHandler "FOO/a/b/0".toList
    "FOO".toList "a".toList "b".toList "0".toList (by decide) (by decide)).1 _ (by decide)


/-! ## The URLs of the provider client -/

/-- The requests of a POST: none, or the one to `url` with the JSON body. -/
theorem doPostRequest_http {α : Type} (env : Env) (c : Client) (url : GoString)
    (reqBody : Except GoString Json) (unmarshal : Bytes → Except GoString α) :
    (c.doPostRequest env url reqBody unmarshal).2 = []
    ∨ ∃ jsonData, reqBody = .ok jsonData ∧ env.newRequestError "POST".toList url = none
      ∧ (c.doPostRequest env url reqBody unmarshal).2
        = [{ Method := "POST".toList, URL := url,
             ContentType := some "application/json".toList, Body := some jsonData }] := by
  unfold Client.doPostRequest
  cases reqBody with
  | error e => exact Or.inl rfl
  | ok jsonData =>
    dsimp only
    cases hnr : env.newRequestError "POST".toList url with
    | some e => exact Or.inl rfl
    | none =>
      refine Or.inr ⟨jsonData, rfl, rfl, ?_⟩
      dsimp only
      split
      · rfl
      · rfl
      · split <;> [rfl; (split <;> rfl)]

/-- The requests of a tile fetch: none, or the GET of the tile URL. -/
theorem GetHeatmapTile_http (env : Env) (c : Client) (m : MapType) (zoom x y : Int) :
    (c.GetHeatmapTile env m zoom x y).2 = []
    ∨ (env.newRequestError "GET".toList
          (baseURL ++ "/mapTypes/".toList ++ m ++ "/heatmapTiles/".toList
            ++ strconv.Itoa zoom ++ "/".toList ++ strconv.Itoa x ++ "/".toList ++ strconv.Itoa y
            ++ "?key=".toList ++ c.apiKey) = none
      ∧ (c.GetHeatmapTile env m zoom x y).2
        = [{ Method := "GET".toList,
             URL := baseURL ++ "/mapTypes/".toList ++ m ++ "/heatmapTiles/".toList
               ++ strconv.Itoa zoom ++ "/".toList ++ strconv.Itoa x ++ "/".toList
               ++ strconv.Itoa y ++ "?key=".toList ++ c.apiKey,
             ContentType := none, Body := none }]) := by
  unfold Client.GetHeatmapTile
  dsimp only
  cases hnr : env.newRequestError "GET".toList
      (baseURL ++ "/mapTypes/".toList ++ m ++ "/heatmapTiles/".toList
        ++ strconv.Itoa zoom ++ "/".toList ++ strconv.Itoa x ++ "/".toList ++ strconv.Itoa y
        ++ "?key=".toList ++ c.apiKey) with
  | some e => exact Or.inl rfl
  | none =>
    refine Or.inr ⟨rfl, ?_⟩
    dsimp only
    split
    · rfl
    · split <;> rfl
    · split <;> rfl

/-- C23: with the API key `K`, every request that a JSON operation sends is a
POST to `https://airquality.googleapis.com/v1/currentConditions:lookup?key=K`,
to `.../v1/forecast:lookup?key=K` or to `.../v1/history:lookup?key=K`, and
every request that the tile operation sends is a GET of
`https://airquality.googleapis.com/v1/mapTypes/m/heatmapTiles/zoom/x/y?key=K`
with zoom, x and y in decimal; and when the request marshals and the HTTP
library accepts the URL, each operation sends exactly one such request. -/
theorem C23_provider_urls (env : Env) (K : GoString) (cur : CurrentConditionsRequest)
    (fc : ForecastRequest) (hi : HistoryRequest) (m : MapType) (zoom x y : Int) :
    (∀ q ∈ ((NewClient K).GetCurrentConditions env cur).2, q.Method = "POST".toList
      ∧ q.URL = "https://airquality.googleapis.com/v1/currentConditions:lookup?key=".toList ++ K)
    ∧ (∀ q ∈ ((NewClient K).GetForecast env fc).2, q.Method = "POST".toList
      ∧ q.URL = "https://airquality.googleapis.com/v1/forecast:lookup?key=".toList ++ K)
    ∧ (∀ q ∈ ((NewClient K).GetHistory env hi).2, q.Method = "POST".toList
      ∧ q.URL = "https://airquality.googleapis.com/v1/history:lookup?key=".toList ++ K)
    ∧ (∀ q ∈ ((NewClient K).GetHeatmapTile env m zoom x y).2, q.Method = "GET".toList
      ∧ q.URL = "https://airquality.googleapis.com/v1/mapTypes/".toList ++ m
          ++ "/heatmapTiles/".toList ++ strconv.Itoa zoom ++ "/".toList ++ strconv.Itoa x
          ++ "/".toList ++ strconv.Itoa y ++ "?key=".toList ++ K)
    ∧ ((∀ method url, env.newRequestError method url = none) →
      (∀ j, json.marshalCurrentConditionsRequest env.jsonFloat cur = .ok j →
        (((NewClient K).GetCurrentConditions env cur).2).length = 1)
      ∧ (∀ j, json.marshalForecastRequest env.jsonFloat fc = .ok j →
        (((NewClient K).GetForecast env fc).2).length = 1)
      ∧ (∀ j, json.marshalHistoryRequest env.jsonFloat hi = .ok j →
        (((NewClient K).GetHistory env hi).2).length = 1)
      ∧ (((NewClient K).GetHeatmapTile env m zoom x y).2).length = 1) := by
  have post : ∀ {α : Type} (path : GoString) (reqBody : Except GoString Json)
      (unmarshal : Bytes → Except GoString α),
      (∀ q ∈ ((NewClient K).doPostRequest env (baseURL ++ path ++ K) reqBody unmarshal).2,
        q.Method = "POST".toList ∧ q.URL = baseURL ++ path ++ K)
      ∧ ((∀ method url, env.newRequestError method url = none) → ∀ j, reqBody = .ok j →
        (((NewClient K).doPostRequest env (baseURL ++ path ++ K) reqBody unmarshal).2).length
          = 1) := by
    intro α path reqBody unmarshal
    rcases doPostRequest_http env (NewClient K) (baseURL ++ path ++ K) reqBody unmarshal
      with h | ⟨j, _, _, h⟩
    · refine ⟨fun q hq => ?_, fun hnr j hj => ?_⟩
      · rw [h] at hq
        cases hq
      · exfalso
        subst hj
        have := congrArg List.length h
        simp only [Client.doPostRequest, hnr, List.length_nil] at this
        revert this
        split
        · simp
        · simp
        · split <;> [simp; (split <;> simp)]
    · refine ⟨fun q hq => ?_, fun _ _ _ => by rw [h]; rfl⟩
      rw [h, List.mem_singleton] at hq
      rw [hq]
      exact ⟨rfl, rfl⟩
  refine ⟨?_, ?_, ?_, ?_, ?_⟩
  · exact (post "/currentConditions:lookup?key=".toList _ _).1
  · exact (post "/forecast:lookup?key=".toList _ _).1
  · exact (post "/history:lookup?key=".toList _ _).1
  · intro q hq
    rcases GetHeatmapTile_http env (NewClient K) m zoom x y with h | ⟨_, h⟩
    · rw [h] at hq
      cases hq
    · rw [h, List.mem_singleton] at hq
      rw [hq]
      exact ⟨rfl, by simp only [NewClient, baseURL, List.append_assoc]; rfl⟩
  · intro hnr
    refine ⟨fun j hj => (post "/currentConditions:lookup?key=".toList _ _).2 hnr j hj,
      fun j hj => (post "/forecast:lookup?key=".toList _ _).2 hnr j hj,
      fun j hj => (post "/history:lookup?key=".toList _ _).2 hnr j hj, ?_⟩
    rcases GetHeatmapTile_http env (NewClient K) m zoom x y with h | ⟨_, h⟩
    · exfalso
      have := congrArg List.length h
      simp only [Client.GetHeatmapTile, hnr, List.length_nil] at this
      revert this
      split
      · simp
      · split <;> simp
      · split <;> simp
    · rw [h]
      rfl

/-- C23 with the key `KEY`: the URL of the one request for the history of a
place, and the one for the tile `3/1/2` of `US_AQI`. -/
theorem C23_provider_urls_witness :
    (((NewClient "KEY".toList).GetHistory exampleEnv
        { Location := ⟨⟨1⟩, ⟨2⟩⟩ }).2).map (fun q => (q.Method, q.URL))
      = [("POST".toList,
          "https://airquality.googleapis.com/v1/history:lookup?key=KEY".toList)]
    ∧ (((NewClient "KEY".toList).GetHeatmapTile exampleEnv "US_AQI".toList 3 1 2).2).map
        (fun q => (q.Method, q.URL))
      = [("GET".toList,
          "https://airquality.googleapis.com/v1/mapTypes/US_AQI/heatmapTiles/3/1/2?key=KEY".toList)]
    ∧ ((∀ method url, exampleEnv.newRequestError method url = none) →
      (((NewClient "KEY".toList).GetHeatmapTile exampleEnv "US_AQI".toList 3 1 2).2).length = 1) :=
  ⟨by decide, by decide,
    fun h => ((C23_provider_urls exampleEnv "KEY".toList { Location := ⟨⟨1⟩, ⟨2⟩⟩ }
      { Location := ⟨⟨1⟩, ⟨2⟩⟩ } { Location := ⟨⟨1⟩, ⟨2⟩⟩ } "US_AQI".toList 3 1 2).2.2.2.2 h).2.2.2⟩


/-! ## The result or the error of a resource read -/

/-- A failure with a message that opens with one of the openings. -/
theorem fail_resultOrError (p rest uri : GoString) (hp : p ∈ resourceErrorOpenings) :
    (ResourceReturn.fail (p ++ rest)).resultOrError uri :=
  Or.inl ⟨rfl, _, rfl, p, hp, ⟨rest, rfl⟩⟩

/-- A failure after the provider call, likewise. -/
theorem error_resultOrError (p rest uri : GoString) (calls : List ProviderCall)
    (http : List HttpRequest) (hp : p ∈ resourceErrorOpenings) :
    ResourceReturn.resultOrError ⟨none, some (p ++ rest), calls, http⟩ uri :=
  Or.inl ⟨rfl, _, rfl, p, hp, ⟨rest, rfl⟩⟩

/-- The errors of `parseLatLong` open with one of the openings. -/
theorem parseLatLong_error_opening (env : Env) (s e uri : GoString)
    (h : parseLatLong env s = .error e) : (ResourceReturn.fail e).resultOrError uri := by
  unfold parseLatLong at h
  dsimp only at h
  split at h
  · split at h
    · cases h
      exact fail_resultOrError _ _ _ (by simp [resourceErrorOpenings])
    · split at h
      · cases h
        exact fail_resultOrError _ _ _ (by simp [resourceErrorOpenings])
      · cases h
  · cases h
    have := fail_resultOrError "invalid location format, expected 'lat,long'".toList [] uri
      (by simp [resourceErrorOpenings])
    rwa [List.append_nil] at this

/-- The current conditions handler on a URI with its prefix: the parse of the
location, the call, the text. -/
theorem CurrentConditionsHandler_on_location (env : Env) (h : AirQualityResourceHandler)
    (loc : GoString) :
    h.CurrentConditionsHandler env ⟨"airquality://current/".toList ++ loc⟩ =
      match parseLatLong env loc with
      | .error e => .fail e
      | .ok (lat, lon) =>
        match (h.client.GetCurrentConditions env
          { Location := { Latitude := lat, Longitude := lon }, UniversalAqi := some true }).1 with
        | .error e =>
          ⟨none, some ("failed to get current conditions: ".toList ++ e),
            [.GetCurrentConditions
              { Location := { Latitude := lat, Longitude := lon }, UniversalAqi := some true }],
            (h.client.GetCurrentConditions env
              { Location := { Latitude := lat, Longitude := lon },
                UniversalAqi := some true }).2⟩
        | .ok resp =>
          match env.marshalIndentCurrentConditions resp with
          | .error e =>
            ⟨none, some ("failed to marshal response: ".toList ++ e),
              [.GetCurrentConditions
                { Location := { Latitude := lat, Longitude := lon }, UniversalAqi := some true }],
              (h.client.GetCurrentConditions env
                { Location := { Latitude := lat, Longitude := lon },
                  UniversalAqi := some true }).2⟩
          | .ok text =>
            ⟨some (jsonContents ("airquality://current/".toList ++ loc) text), none,
              [.GetCurrentConditions
                { Location := { Latitude := lat, Longitude := lon }, UniversalAqi := some true }],
              (h.client.GetCurrentConditions env
                { Location := { Latitude := lat, Longitude := lon },
                  UniversalAqi := some true }).2⟩ := by
  unfold AirQualityResourceHandler.CurrentConditionsHandler
  simp only [HasPrefix_append_not, Bool.false_eq_true, if_false, strings.TrimPrefix_append]

/-- The forecast handler on a URI with its prefix. -/
theorem ForecastHandler_on_location (env : Env) (h : AirQualityResourceHandler)
    (loc : GoString) :
    h.ForecastHandler env ⟨"airquality://forecast/".toList ++ loc⟩ =
      match parseLatLong env loc with
      | .error e => .fail e
      | .ok (lat, lon) =>
        match (h.client.GetForecast env
          { Location := { Latitude := lat, Longitude := lon }, UniversalAqi := some true }).1 with
        | .error e =>
          ⟨none, some ("failed to get forecast: ".toList ++ e),
            [.GetForecast
              { Location := { Latitude := lat, Longitude := lon }, UniversalAqi := some true }],
            (h.client.GetForecast env
              { Location := { Latitude := lat, Longitude := lon },
                UniversalAqi := some true }).2⟩
        | .ok resp =>
          match env.marshalIndentForecast resp with
          | .error e =>
            ⟨none, some ("failed to marshal response: ".toList ++ e),
              [.GetForecast
                { Location := { Latitude := lat, Longitude := lon }, UniversalAqi := some true }],
              (h.client.GetForecast env
                { Location := { Latitude := lat, Longitude := lon },
                  UniversalAqi := some true }).2⟩
          | .ok text =>
            ⟨some (jsonContents ("airquality://forecast/".toList ++ loc) text), none,
              [.GetForecast
                { Location := { Latitude := lat, Longitude := lon }, UniversalAqi := some true }],
              (h.client.GetForecast env
                { Location := { Latitude := lat, Longitude := lon },
                  UniversalAqi := some true }).2⟩ := by
  unfold AirQualityResourceHandler.ForecastHandler
  simp only [HasPrefix_append_not, Bool.false_eq_true, if_false, strings.TrimPrefix_append]

/-- The history handler on a URI with its prefix. -/
theorem HistoryHandler_on_location (env : Env) (h : AirQualityResourceHandler)
    (loc : GoString) :
    h.HistoryHandler env ⟨"airquality://history/".toList ++ loc⟩ =
      match parseLatLong env loc with
      | .error e => .fail e
      | .ok (lat, lon) =>
        match (h.client.GetHistory env
          { Location := { Latitude := lat, Longitude := lon }, Hours := 24,
            UniversalAqi := some true }).1 with
        | .error e =>
          ⟨none, some ("failed to get history: ".toList ++ e),
            [.GetHistory
              { Location := { Latitude := lat, Longitude := lon }, Hours := 24,
                UniversalAqi := some true }],
            (h.client.GetHistory env
              { Location := { Latitude := lat, Longitude := lon }, Hours := 24,
                UniversalAqi := some true }).2⟩
        | .ok resp =>
          match env.marshalIndentHistory resp with
          | .error e =>
            ⟨none, some ("failed to marshal response: ".toList ++ e),
              [.GetHistory
                { Location := { Latitude := lat, Longitude := lon }, Hours := 24,
                  UniversalAqi := some true }],
              (h.client.GetHistory env
                { Location := { Latitude := lat, Longitude := lon }, Hours := 24,
                  UniversalAqi := some true }).2⟩
          | .ok text =>
            ⟨some (jsonContents ("airquality://history/".toList ++ loc) text), none,
              [.GetHistory
                { Location := { Latitude := lat, Longitude := lon }, Hours := 24,
                  UniversalAqi := some true }],
              (h.client.GetHistory env
                { Location := { Latitude := lat, Longitude := lon }, Hours := 24,
                  UniversalAqi := some true }).2⟩ := by
  unfold AirQualityResourceHandler.HistoryHandler
  simp only [HasPrefix_append_not, Bool.false_eq_true, if_false, strings.TrimPrefix_append]

/-- C25: for every environment and every request, each of the four resource
handlers returns exactly one of a result and an error, and every failure
gives the error. A URI without the prefix of the handler fails with `invalid
URI format`; coordinates that `parseLatLong` rejects fail with its error; a
tile path fails with the error of the first check it does not pass; an error
of the provider client fails with `failed to get ...: ` before that error,
and an error of writing the response with `failed to marshal response: `
before it; each time there is no result. Only when the provider client
succeeds is there no error, and then the result has exactly one content,
with the URI of the request: the written response as `application/json`, or
the base64 of the tile as `image/png`. -/
theorem C25_resource_read_result_or_error (env : Env) (h : AirQualityResourceHandler)
    (request : ReadResourceRequest) :
    -- exactly one of a result and an error
    ((h.CurrentConditionsHandler env request).resultOrError request.URI
      ∧ (h.ForecastHandler env request).resultOrError request.URI
      ∧ (h.HistoryHandler env request).resultOrError request.URI
      ∧ (h.HeatmapHandler env request).resultOrError request.URI)
    -- a bad prefix
    ∧ ((¬ "airquality://current/".toList <+: request.URI →
        (h.CurrentConditionsHandler env request).faults "invalid URI format".toList)
      ∧ (¬ "airquality://forecast/".toList <+: request.URI →
        (h.ForecastHandler env request).faults "invalid URI format".toList)
      ∧ (¬ "airquality://history/".toList <+: request.URI →
        (h.HistoryHandler env request).faults "invalid URI format".toList)
      ∧ (¬ "airquality://heatmap/".toList <+: request.URI →
        (h.HeatmapHandler env request).faults "invalid URI format".toList))
    -- bad coordinates
    ∧ (∀ loc e, parseLatLong env loc = .error e →
      (h.CurrentConditionsHandler env ⟨"airquality://current/".toList ++ loc⟩).faults e
      ∧ (h.ForecastHandler env ⟨"airquality://forecast/".toList ++ loc⟩).faults e
      ∧ (h.HistoryHandler env ⟨"airquality://history/".toList ++ loc⟩).faults e)
    -- the provider error, the error of writing the response, and success
    ∧ (∀ loc lat lon, parseLatLong env loc = .ok (lat, lon) →
      (∀ e, (h.client.GetCurrentConditions env
            { Location := { Latitude := lat, Longitude := lon }, UniversalAqi := some true }).1
          = .error e →
        (h.CurrentConditionsHandler env ⟨"airquality://current/".toList ++ loc⟩).faults
          ("failed to get current conditions: ".toList ++ e))
      ∧ (∀ e, (h.client.GetForecast env
            { Location := { Latitude := lat, Longitude := lon }, UniversalAqi := some true }).1
          = .error e →
        (h.ForecastHandler env ⟨"airquality://forecast/".toList ++ loc⟩).faults
          ("failed to get forecast: ".toList ++ e))
      ∧ (∀ e, (h.client.GetHistory env
            { Location := { Latitude := lat, Longitude := lon }, Hours := 24,
              UniversalAqi := some true }).1 = .error e →
        (h.HistoryHandler env ⟨"airquality://history/".toList ++ loc⟩).faults
          ("failed to get history: ".toList ++ e))
      ∧ (∀ resp, (h.client.GetCurrentConditions env
            { Location := { Latitude := lat, Longitude := lon }, UniversalAqi := some true }).1
          = .ok resp →
        (∀ e, env.marshalIndentCurrentConditions resp = .error e →
          (h.CurrentConditionsHandler env ⟨"airquality://current/".toList ++ loc⟩).faults
            ("failed to marshal response: ".toList ++ e))
        ∧ (∀ text, env.marshalIndentCurrentConditions resp = .ok text →
          (h.CurrentConditionsHandler env ⟨"airquality://current/".toList ++ loc⟩).succeeds
            { URI := "airquality://current/".toList ++ loc,
              MIMEType := "application/json".toList, Text := text }))
      ∧ (∀ resp, (h.client.GetForecast env
            { Location := { Latitude := lat, Longitude := lon }, UniversalAqi := some true }).1
          = .ok resp →
        (∀ e, env.marshalIndentForecast resp = .error e →
          (h.ForecastHandler env ⟨"airquality://forecast/".toList ++ loc⟩).faults
            ("failed to marshal response: ".toList ++ e))
        ∧ (∀ text, env.marshalIndentForecast resp = .ok text →
          (h.ForecastHandler env ⟨"airquality://forecast/".toList ++ loc⟩).succeeds
            { URI := "airquality://forecast/".toList ++ loc,
              MIMEType := "application/json".toList, Text := text }))
      ∧ (∀ resp, (h.client.GetHistory env
            { Location := { Latitude := lat, Longitude := lon }, Hours := 24,
              UniversalAqi := some true }).1 = .ok resp →
        (∀ e, env.marshalIndentHistory resp = .error e →
          (h.HistoryHandler env ⟨"airquality://history/".toList ++ loc⟩).faults
            ("failed to marshal response: ".toList ++ e))
        ∧ (∀ text, env.marshalIndentHistory resp = .ok text →
          (h.HistoryHandler env ⟨"airquality://history/".toList ++ loc⟩).succeeds
            { URI := "airquality://history/".toList ++ loc,
              MIMEType := "application/json".toList, Text := text })))
    -- a bad tile path
    ∧ (∀ path, (strings.Split '/' path).length ≠ 4 →
      (h.HeatmapHandler env ⟨"airquality://heatmap/".toList ++ path⟩).faults
        invalidHeatmapURIFormat)
    ∧ (∀ path m zs xs ys, strings.Split '/' path = [m, zs, xs, ys] →
      (∀ e, strconv.Atoi zs = .error e →
        (h.HeatmapHandler env ⟨"airquality://heatmap/".toList ++ path⟩).faults
          ("invalid zoom level: ".toList ++ e.Error env.Quote))
      ∧ (∀ z e, strconv.Atoi zs = .ok z → strconv.Atoi xs = .error e →
        (h.HeatmapHandler env ⟨"airquality://heatmap/".toList ++ path⟩).faults
          ("invalid x coordinate: ".toList ++ e.Error env.Quote))
      ∧ (∀ z x e, strconv.Atoi zs = .ok z → strconv.Atoi xs = .ok x →
          strconv.Atoi ys = .error e →
        (h.HeatmapHandler env ⟨"airquality://heatmap/".toList ++ path⟩).faults
          ("invalid y coordinate: ".toList ++ e.Error env.Quote))
      ∧ (∀ z x y, strconv.Atoi zs = .ok z → strconv.Atoi xs = .ok x →
          strconv.Atoi ys = .ok y →
        (m ∉ validTypes →
          (h.HeatmapHandler env ⟨"airquality://heatmap/".toList ++ path⟩).faults
            ("invalid map type: ".toList ++ m))
        -- the provider error and success of the tile
        ∧ (m ∈ validTypes →
          (∀ e, (h.client.GetHeatmapTile env m z x y).1 = .error e →
            (h.HeatmapHandler env ⟨"airquality://heatmap/".toList ++ path⟩).faults
              ("failed to get heatmap tile: ".toList ++ e))
          ∧ (∀ data, (h.client.GetHeatmapTile env m z x y).1 = .ok data →
            (h.HeatmapHandler env ⟨"airquality://heatmap/".toList ++ path⟩).succeeds
              { URI := "airquality://heatmap/".toList ++ path,
                MIMEType := "image/png".toList, Text := base64.EncodeToString data })))) := by
  have hfmt : (ResourceReturn.fail "invalid URI format".toList).resultOrError request.URI := by
    have := fail_resultOrError "invalid URI format".toList [] request.URI
      (by simp [resourceErrorOpenings])
    rwa [List.append_nil] at this
  refine ⟨⟨?_, ?_, ?_, ?_⟩, ⟨fun hp => ?_, fun hp => ?_, fun hp => ?_, fun hp => ?_⟩, ?_, ?_,
    ?_, ?_⟩
  · unfold AirQualityResourceHandler.CurrentConditionsHandler
    dsimp only
    split
    · exact hfmt
    · split
      · rename_i e he
        exact parseLatLong_error_opening env _ e _ he
      · split
        · exact error_resultOrError _ _ _ _ _ (by simp [resourceErrorOpenings])
        · split
          · exact error_resultOrError _ _ _ _ _ (by simp [resourceErrorOpenings])
          · exact Or.inr ⟨rfl, _, rfl, rfl⟩
  · unfold AirQualityResourceHandler.ForecastHandler
    dsimp only
    split
    · exact hfmt
    · split
      · rename_i e he
        exact parseLatLong_error_opening env _ e _ he
      · split
        · exact error_resultOrError _ _ _ _ _ (by simp [resourceErrorOpenings])
        · split
          · exact error_resultOrError _ _ _ _ _ (by simp [resourceErrorOpenings])
          · exact Or.inr ⟨rfl, _, rfl, rfl⟩
  · unfold AirQualityResourceHandler.HistoryHandler
    dsimp only
    split
    · exact hfmt
    · split
      · rename_i e he
        exact parseLatLong_error_opening env _ e _ he
      · split
        · exact error_resultOrError _ _ _ _ _ (by simp [resourceErrorOpenings])
        · split
          · exact error_resultOrError _ _ _ _ _ (by simp [resourceErrorOpenings])
          · exact Or.inr ⟨rfl, _, rfl, rfl⟩
  · unfold AirQualityResourceHandler.HeatmapHandler
    dsimp only
    split
    · exact hfmt
    · split
      · split
        · exact fail_resultOrError _ _ _ (by simp [resourceErrorOpenings])
        · split
          · exact fail_resultOrError _ _ _ (by simp [resourceErrorOpenings])
          · split
            · exact fail_resultOrError _ _ _ (by simp [resourceErrorOpenings])
            · split
              · exact fail_resultOrError _ _ _ (by simp [resourceErrorOpenings])
              · split
                · exact error_resultOrError _ _ _ _ _ (by simp [resourceErrorOpenings])
                · exact Or.inr ⟨rfl, _, rfl, rfl⟩
      · have := fail_resultOrError invalidHeatmapURIFormat [] request.URI
          (by simp [resourceErrorOpenings])
        rwa [List.append_nil] at this
  · unfold AirQualityResourceHandler.CurrentConditionsHandler
    simp only [not_HasPrefix _ _ hp, if_true]
    exact ⟨rfl, rfl⟩
  · unfold AirQualityResourceHandler.ForecastHandler
    simp only [not_HasPrefix _ _ hp, if_true]
    exact ⟨rfl, rfl⟩
  · unfold AirQualityResourceHandler.HistoryHandler
    simp only [not_HasPrefix _ _ hp, if_true]
    exact ⟨rfl, rfl⟩
  · unfold AirQualityResourceHandler.HeatmapHandler
    simp only [not_HasPrefix _ _ hp, if_true]
    exact ⟨rfl, rfl⟩
  · intro loc e he
    rw [CurrentConditionsHandler_on_location, ForecastHandler_on_location,
      HistoryHandler_on_location, he]
    exact ⟨⟨rfl, rfl⟩, ⟨rfl, rfl⟩, ⟨rfl, rfl⟩⟩
  · intro loc lat lon hp
    rw [CurrentConditionsHandler_on_location, ForecastHandler_on_location,
      HistoryHandler_on_location, hp]
    dsimp only
    refine ⟨fun e he => ?_, fun e he => ?_, fun e he => ?_, fun resp hr => ⟨fun e hm => ?_,
      fun text hm => ?_⟩, fun resp hr => ⟨fun e hm => ?_, fun text hm => ?_⟩,
      fun resp hr => ⟨fun e hm => ?_, fun text hm => ?_⟩⟩
    · rw [he]; exact ⟨rfl, rfl⟩
    · rw [he]; exact ⟨rfl, rfl⟩
    · rw [he]; exact ⟨rfl, rfl⟩
    · rw [hr]; dsimp only; rw [hm]; exact ⟨rfl, rfl⟩
    · rw [hr]; dsimp only; rw [hm]; exact ⟨rfl, rfl⟩
    · rw [hr]; dsimp only; rw [hm]; exact ⟨rfl, rfl⟩
    · rw [hr]; dsimp only; rw [hm]; exact ⟨rfl, rfl⟩
    · rw [hr]; dsimp only; rw [hm]; exact ⟨rfl, rfl⟩
    · rw [hr]; dsimp only; rw [hm]; exact ⟨rfl, rfl⟩
  · intro path hlen
    rw [HeatmapHandler_other_segments env h path hlen]
    exact ⟨rfl, rfl⟩
  · intro path m zs xs ys hsplit
    have hfour := HeatmapHandler_four_segments env h path m zs xs ys hsplit
    refine ⟨fun e he => ?_, fun z e hz he => ?_, fun z x e hz hx he => ?_,
      fun z x y hz hx hy => ⟨fun hm => ?_, fun hm => ⟨fun e he => ?_, fun data hd => ?_⟩⟩⟩
    · rw [hfour, he]; exact ⟨rfl, rfl⟩
    · rw [hfour, hz, he]; exact ⟨rfl, rfl⟩
    · rw [hfour, hz, hx, he]; exact ⟨rfl, rfl⟩
    · rw [hfour, hz, hx, hy]
      simp only [hm, if_false]
      exact ⟨rfl, rfl⟩
    · rw [hfour, hz, hx, hy]
      simp only [hm, if_true, he]
      exact ⟨rfl, rfl⟩
    · rw [hfour, hz, hx, hy]
      simp only [hm, if_true, hd]
      exact ⟨rfl, rfl⟩

/-- C25 in two environments: a provider that answers 500 `quota exceeded`,
where the read of the current conditions fails with that answer in the
error, and one that answers 200, where the read of a tile succeeds with one
content. -/
theorem C25_resource_read_result_or_error_witness :
    (exampleHandler.CurrentConditionsHandler exampleEnv
        ⟨"airquality://current/".toList ++ "37,122".toList⟩).faults
      ("failed to get current conditions: ".toList
        ++ "API request failed with status 500: quota exceeded".toList)
    ∧ (exampleHandler.HeatmapHandler (statusEnv 200)
        ⟨"airquality://heatmap/".toList ++ "US_AQI/3/1/2".toList⟩).succeeds
      { URI := "airquality://heatmap/".toList ++ "US_AQI/3/1/2".toList,
        MIMEType := "image/png".toList, Text := "e30=".toList } :=
  ⟨((C25_resource_read_result_or_error exampleEnv exampleHandler ⟨[]⟩).2.2.2.1
      "37,122".toList ⟨37⟩ ⟨122⟩ (by decide)).1
      "API request failed with status 500: quota exceeded".toList (by decide),
    ((((C25_resource_read_result_or_error (statusEnv 200) exampleHandler ⟨[]⟩).2.2.2.2.2
      "US_AQI/3/1/2".toList "US_AQI".toList "3".toList "1".toList "2".toList
      (by decide)).2.2.2 3 1 2 (by decide) (by decide) (by decide)).2 (by decide)).2
      [123, 125] (by decide)⟩


/-! ## Lemmas on the value a field takes from the arguments -/

namespace json

/-- The field a key denotes equals the key when case is ignored. -/
theorem findField_fold (fields : List GoString) (k f : GoString)
    (h : findField fields k = some f) : foldName f = foldName k := by
  unfold findField at h
  split at h
  · injection h with h
    rw [h]
  · have := List.find?_some h
    simpa using this

/-- Members none of whose keys denotes the field `F` leave it as it is. -/
theorem decodeMembers_keeps {α β : Type} (fields : List GoString)
    (step : α → GoString → Json → α × Option GoString) (get : α → β) (F : GoString)
    (hstep : ∀ a f v, f ≠ F → get (step a f v).1 = get a)
    (kvs : List (GoString × Json)) (hk : ∀ kv ∈ kvs, foldName kv.1 ≠ foldName F)
    (st : α × Option GoString) :
    get (decodeMembers fields step kvs st).1 = get st.1 := by
  induction kvs generalizing st with
  | nil => rfl
  | cons kv rest ih =>
    obtain ⟨k, v⟩ := kv
    obtain ⟨a, err⟩ := st
    have hrest : ∀ kv ∈ rest, foldName kv.1 ≠ foldName F :=
      fun kv h => hk kv (List.mem_cons_of_mem _ h)
    simp only [decodeMembers]
    cases hf : findField fields k with
    | none => exact ih hrest _
    | some f =>
      have hne : f ≠ F := by
        intro e
        have := findField_fold fields k f hf
        rw [e] at this
        exact hk (k, v) (List.mem_cons_self _ _) this.symm
      simp only
      rw [ih hrest]
      exact hstep a f v hne

/-- The last member whose key denotes the field `F` decides its value. -/
theorem decodeMembers_last {α β : Type} (fields : List GoString)
    (step : α → GoString → Json → α × Option GoString) (get : α → β) (F : GoString)
    (hstep : ∀ a f v, f ≠ F → get (step a f v).1 = get a)
    (l1 l2 : List (GoString × Json)) (v : Json) (b : β)
    (hF : findField fields F = some F) (hset : ∀ a, get (step a F v).1 = b)
    (hk : ∀ kv ∈ l2, foldName kv.1 ≠ foldName F) (st : α × Option GoString) :
    get (decodeMembers fields step (l1 ++ (F, v) :: l2) st).1 = b := by
  rw [decodeMembers_append, decodeMembers_cons,
    decodeMembers_keeps fields step get F hstep l2 hk]
  obtain ⟨a, err⟩ := decodeMembers fields step l1 st
  simp only [decodeMembers, hF]
  exact hset a

/-- What `Unmarshal` of an object returns is what decoding its members gives. -/
theorem Unmarshal_obj {α : Type} (typ : GoString) (fields : List GoString)
    (step : α → GoString → Json → α × Option GoString) (kvs : List (GoString × Json))
    (input a : α) (h : Unmarshal typ fields step (.obj kvs) input = .ok a) :
    a = (decodeMembers fields step kvs (input, none)).1 := by
  unfold Unmarshal at h
  simp only at h
  split at h
  · rename_i a' he
    injection h with h
    rw [he, h]
  · cases h

end json

/-- A field that the members before and after leave alone, decoded from the
arguments of a call: its value when the arguments omit it, and when they
give it. -/
theorem parseInput_field {α β : Type} (typ : GoString) (fields : List GoString)
    (step : α → GoString → Json → α × Option GoString) (get : α → β) (F : GoString)
    (hstep : ∀ a f v, f ≠ F → get (step a f v).1 = get a)
    (hF : json.findField fields F = some F) (zero input : α) (request : CallToolRequest)
    (hdec : parseInput (json.Unmarshal typ fields step) zero request.Arguments = .ok input) :
    (request.omits F → get input = get zero)
    ∧ ∀ v b, (∀ a, get (step a F v).1 = b) → request.gives F v → get input = b := by
  constructor
  · rintro (h | h | ⟨kvs, h, hk⟩)
    · rw [h] at hdec
      simp only [parseInput] at hdec
      injection hdec with hdec
      rw [hdec]
    · rw [h] at hdec
      simp only [parseInput, json.Unmarshal] at hdec
      injection hdec with hdec
      rw [hdec]
    · rw [h] at hdec
      simp only [parseInput] at hdec
      split at hdec
      · cases hdec
      · rename_i a ha
        injection hdec with hdec
        rw [← hdec, json.Unmarshal_obj typ fields step kvs zero a ha]
        exact json.decodeMembers_keeps fields step get F hstep kvs hk _
  · rintro v b hset ⟨l1, l2, h, hk⟩
    rw [h] at hdec
    simp only [parseInput] at hdec
    split at hdec
    · cases hdec
    · rename_i a ha
      injection hdec with hdec
      rw [← hdec, json.Unmarshal_obj typ fields step _ zero a ha]
      exact json.decodeMembers_last fields step get F hstep l1 l2 v b hF hset hk _

/-! ## The fields `universalAqi`, `periodStartTime` and `periodEndTime` -/

/-- Storing into another field of `CurrentConditionsInput` leaves `UniversalAqi` as it is. -/
theorem CurrentConditionsInput_store_UniversalAqi (env : Env) (a : CurrentConditionsInput)
    (f : GoString) (v : Json) (hf : f ≠ "universalAqi".toList) :
    (CurrentConditionsInput.store env a f v).1.UniversalAqi = a.UniversalAqi := by
  unfold CurrentConditionsInput.store
  dsimp only
  by_cases h : f = "latitude".toList
  · rw [if_pos h]
  rw [if_neg h]
  clear h
  by_cases h : f = "longitude".toList
  · rw [if_pos h]
  rw [if_neg h]
  clear h
  by_cases h : f = "extraComputations".toList
  · rw [if_pos h]
  rw [if_neg h]
  clear h
  by_cases h : f = "uaqiColorPalette".toList
  · rw [if_pos h]
  rw [if_neg h]
  clear h
  rw [if_neg hf]
  by_cases h : f = "languageCode".toList
  · rw [if_pos h]
  rw [if_neg h]

/-- Storing into another field of `ForecastInput` leaves `UniversalAqi` as it is. -/
theorem ForecastInput_store_UniversalAqi (env : Env) (a : ForecastInput)
    (f : GoString) (v : Json) (hf : f ≠ "universalAqi".toList) :
    (ForecastInput.store env a f v).1.UniversalAqi = a.UniversalAqi := by
  unfold ForecastInput.store
  dsimp only
  by_cases h : f = "latitude".toList
  · rw [if_pos h]
  rw [if_neg h]
  clear h
  by_cases h : f = "longitude".toList
  · rw [if_pos h]
  rw [if_neg h]
  clear h
  by_cases h : f = "pageSize".toList
  · rw [if_pos h]
  rw [if_neg h]
  clear h
  by_cases h : f = "pageToken".toList
  · rw [if_pos h]
  rw [if_neg h]
  clear h
  by_cases h : f = "extraComputations".toList
  · rw [if_pos h]
  rw [if_neg h]
  clear h
  by_cases h : f = "uaqiColorPalette".toList
  · rw [if_pos h]
  rw [if_neg h]
  clear h
  rw [if_neg hf]
  by_cases h : f = "languageCode".toList
  · rw [if_pos h]
  rw [if_neg h]
  clear h
  by_cases h : f = "dateTime".toList
  · rw [if_pos h]
  rw [if_neg h]
  clear h
  by_cases h : f = "periodStartTime".toList
  · rw [if_pos h]
  rw [if_neg h]
  clear h
  by_cases h : f = "periodEndTime".toList
  · rw [if_pos h]
  rw [if_neg h]

/-- Storing into another field of `HistoryInput` leaves `UniversalAqi` as it is. -/
theorem HistoryInput_store_UniversalAqi (env : Env) (a : HistoryInput)
    (f : GoString) (v : Json) (hf : f ≠ "universalAqi".toList) :
    (HistoryInput.store env a f v).1.UniversalAqi = a.UniversalAqi := by
  unfold HistoryInput.store
  dsimp only
  by_cases h : f = "latitude".toList
  · rw [if_pos h]
  rw [if_neg h]
  clear h
  by_cases h : f = "longitude".toList
  · rw [if_pos h]
  rw [if_neg h]
  clear h
  by_cases h : f = "pageSize".toList
  · rw [if_pos h]
  rw [if_neg h]
  clear h
  by_cases h : f = "pageToken".toList
  · rw [if_pos h]
  rw [if_neg h]
  clear h
  by_cases h : f = "extraComputations".toList
  · rw [if_pos h]
  rw [if_neg h]
  clear h
  by_cases h : f = "uaqiColorPalette".toList
  · rw [if_pos h]
  rw [if_neg h]
  clear h
  rw [if_neg hf]
  by_cases h : f = "languageCode".toList
  · rw [if_pos h]
  rw [if_neg h]
  clear h
  by_cases h : f = "dateTime".toList
  · rw [if_pos h]
  rw [if_neg h]
  clear h
  by_cases h : f = "hours".toList
  · rw [if_pos h]
  rw [if_neg h]
  clear h
  by_cases h : f = "periodStartTime".toList
  · rw [if_pos h]
  rw [if_neg h]
  clear h
  by_cases h : f = "periodEndTime".toList
  · rw [if_pos h]
  rw [if_neg h]

/-- Storing into another field of `ForecastInput` leaves `PeriodStartTime` as it is. -/
theorem ForecastInput_store_PeriodStartTime (env : Env) (a : ForecastInput)
    (f : GoString) (v : Json) (hf : f ≠ "periodStartTime".toList) :
    (ForecastInput.store env a f v).1.PeriodStartTime = a.PeriodStartTime := by
  unfold ForecastInput.store
  dsimp only
  by_cases h : f = "latitude".toList
  · rw [if_pos h]
  rw [if_neg h]
  clear h
  by_cases h : f = "longitude".toList
  · rw [if_pos h]
  rw [if_neg h]
  clear h
  by_cases h : f = "pageSize".toList
  · rw [if_pos h]
  rw [if_neg h]
  clear h
  by_cases h : f = "pageToken".toList
  · rw [if_pos h]
  rw [if_neg h]
  clear h
  by_cases h : f = "extraComputations".toList
  · rw [if_pos h]
  rw [if_neg h]
  clear h
  by_cases h : f = "uaqiColorPalette".toList
  · rw [if_pos h]
  rw [if_neg h]
  clear h
  by_cases h : f = "universalAqi".toList
  · rw [if_pos h]
  rw [if_neg h]
  clear h
  by_cases h : f = "languageCode".toList
  · rw [if_pos h]
  rw [if_neg h]
  clear h
  by_cases h : f = "dateTime".toList
  · rw [if_pos h]
  rw [if_neg h]
  clear h
  rw [if_neg hf]
  by_cases h : f = "periodEndTime".toList
  · rw [if_pos h]
  rw [if_neg h]

/-- Storing into another field of `ForecastInput` leaves `PeriodEndTime` as it is. -/
theorem ForecastInput_store_PeriodEndTime (env : Env) (a : ForecastInput)
    (f : GoString) (v : Json) (hf : f ≠ "periodEndTime".toList) :
    (ForecastInput.store env a f v).1.PeriodEndTime = a.PeriodEndTime := by
  unfold ForecastInput.store
  dsimp only
  by_cases h : f = "latitude".toList
  · rw [if_pos h]
  rw [if_neg h]
  clear h
  by_cases h : f = "longitude".toList
  · rw [if_pos h]
  rw [if_neg h]
  clear h
  by_cases h : f = "pageSize".toList
  · rw [if_pos h]
  rw [if_neg h]
  clear h
  by_cases h : f = "pageToken".toList
  · rw [if_pos h]
  rw [if_neg h]
  clear h
  by_cases h : f = "extraComputations".toList
  · rw [if_pos h]
  rw [if_neg h]
  clear h
  by_cases h : f = "uaqiColorPalette".toList
  · rw [if_pos h]
  rw [if_neg h]
  clear h
  by_cases h : f = "universalAqi".toList
  · rw [if_pos h]
  rw [if_neg h]
  clear h
  by_cases h : f = "languageCode".toList
  · rw [if_pos h]
  rw [if_neg h]
  clear h
  by_cases h : f = "dateTime".toList
  · rw [if_pos h]
  rw [if_neg h]
  clear h
  by_cases h : f = "periodStartTime".toList
  · rw [if_pos h]
  rw [if_neg h]
  clear h
  rw [if_neg hf]

/-- Storing into another field of `HistoryInput` leaves `PeriodStartTime` as it is. -/
theorem HistoryInput_store_PeriodStartTime (env : Env) (a : HistoryInput)
    (f : GoString) (v : Json) (hf : f ≠ "periodStartTime".toList) :
    (HistoryInput.store env a f v).1.PeriodStartTime = a.PeriodStartTime := by
  unfold HistoryInput.store
  dsimp only
  by_cases h : f = "latitude".toList
  · rw [if_pos h]
  rw [if_neg h]
  clear h
  by_cases h : f = "longitude".toList
  · rw [if_pos h]
  rw [if_neg h]
  clear h
  by_cases h : f = "pageSize".toList
  · rw [if_pos h]
  rw [if_neg h]
  clear h
  by_cases h : f = "pageToken".toList
  · rw [if_pos h]
  rw [if_neg h]
  clear h
  by_cases h : f = "extraComputations".toList
  · rw [if_pos h]
  rw [if_neg h]
  clear h
  by_cases h : f = "uaqiColorPalette".toList
  · rw [if_pos h]
  rw [if_neg h]
  clear h
  by_cases h : f = "universalAqi".toList
  · rw [if_pos h]
  rw [if_neg h]
  clear h
  by_cases h : f = "languageCode".toList
  · rw [if_pos h]
  rw [if_neg h]
  clear h
  by_cases h : f = "dateTime".toList
  · rw [if_pos h]
  rw [if_neg h]
  clear h
  by_cases h : f = "hours".toList
  · rw [if_pos h]
  rw [if_neg h]
  clear h
  rw [if_neg hf]
  by_cases h : f = "periodEndTime".toList
  · rw [if_pos h]
  rw [if_neg h]

/-- Storing into another field of `HistoryInput` leaves `PeriodEndTime` as it is. -/
theorem HistoryInput_store_PeriodEndTime (env : Env) (a : HistoryInput)
    (f : GoString) (v : Json) (hf : f ≠ "periodEndTime".toList) :
    (HistoryInput.store env a f v).1.PeriodEndTime = a.PeriodEndTime := by
  unfold HistoryInput.store
  dsimp only
  by_cases h : f = "latitude".toList
  · rw [if_pos h]
  rw [if_neg h]
  clear h
  by_cases h : f = "longitude".toList
  · rw [if_pos h]
  rw [if_neg h]
  clear h
  by_cases h : f = "pageSize".toList
  · rw [if_pos h]
  rw [if_neg h]
  clear h
  by_cases h : f = "pageToken".toList
  · rw [if_pos h]
  rw [if_neg h]
  clear h
  by_cases h : f = "extraComputations".toList
  · rw [if_pos h]
  rw [if_neg h]
  clear h
  by_cases h : f = "uaqiColorPalette".toList
  · rw [if_pos h]
  rw [if_neg h]
  clear h
  by_cases h : f = "universalAqi".toList
  · rw [if_pos h]
  rw [if_neg h]
  clear h
  by_cases h : f = "languageCode".toList
  · rw [if_pos h]
  rw [if_neg h]
  clear h
  by_cases h : f = "dateTime".toList
  · rw [if_pos h]
  rw [if_neg h]
  clear h
  by_cases h : f = "hours".toList
  · rw [if_pos h]
  rw [if_neg h]
  clear h
  by_cases h : f = "periodStartTime".toList
  · rw [if_pos h]
  rw [if_neg h]
  clear h
  rw [if_neg hf]

/-! ## The `universalAqi` of the body of a request -/

namespace json

/-- Members whose keys are all other than `k` are skipped by the lookup of `k`. -/
theorem lookup_append_skip (k : GoString) (l1 l2 : List (GoString × Json))
    (h : ∀ kv ∈ l1, kv.1 ≠ k) : (l1 ++ l2).lookup k = l2.lookup k := by
  induction l1 with
  | nil => rfl
  | cons kv rest ih =>
    obtain ⟨k1, v1⟩ := kv
    have hne : k1 ≠ k := h (k1, v1) (List.mem_cons_self _ _)
    have hb : (k == k1) = false := by
      rw [beq_eq_false_iff_ne]
      exact fun e => hne e.symm
    simp only [List.cons_append, List.lookup, hb]
    exact ih (fun kv hkv => h kv (List.mem_cons_of_mem _ hkv))

theorem mem_omitEmptyString (key s : GoString) :
    ∀ kv ∈ omitEmptyString key s, kv.1 = key := by
  intro kv h
  unfold omitEmptyString at h
  split at h
  · cases h
  · rw [List.mem_singleton] at h
    rw [h]

theorem mem_omitEmptyInt (key : GoString) (n : Int) :
    ∀ kv ∈ omitEmptyInt key n, kv.1 = key := by
  intro kv h
  unfold omitEmptyInt at h
  split at h
  · cases h
  · rw [List.mem_singleton] at h
    rw [h]

theorem mem_omitEmptyList (key : GoString) (xs : List Json) :
    ∀ kv ∈ omitEmptyList key xs, kv.1 = key := by
  intro kv h
  unfold omitEmptyList at h
  split at h
  · cases h
  · rw [List.mem_singleton] at h
    rw [h]

theorem mem_omitEmptyInterval (key : GoString) (p : Option Interval) :
    ∀ kv ∈ omitEmptyInterval key p, kv.1 = key := by
  intro kv h
  unfold omitEmptyInterval at h
  split at h
  · cases h
  · rw [List.mem_singleton] at h
    rw [h]

/-- The lookup of `universalAqi` in its members followed by those of the
language code. -/
theorem lookup_universalAqi (u : Option Bool) (lang : GoString) :
    (omitEmptyBoolPtr "universalAqi".toList u
      ++ omitEmptyString "languageCode".toList lang).lookup "universalAqi".toList
      = u.map Json.bool := by
  cases u with
  | none =>
    have h := lookup_append_skip "universalAqi".toList
      (omitEmptyString "languageCode".toList lang) []
      (fun kv hkv => by rw [mem_omitEmptyString _ _ kv hkv]; decide)
    rw [List.append_nil] at h
    simp only [omitEmptyBoolPtr, List.nil_append, h]
    rfl
  | some b =>
    simp only [omitEmptyBoolPtr, List.singleton_append, List.lookup, beq_self_eq_true]
    rfl

/-- The body of a current conditions request holds `universalAqi` as the
request does. -/
theorem marshalCurrentConditionsRequest_universalAqi
    (jsonFloat : Float64 → Except GoString GoString) (r : CurrentConditionsRequest) (j : Json)
    (h : marshalCurrentConditionsRequest jsonFloat r = .ok j) :
    ∃ members, j = .obj members
      ∧ members.lookup "universalAqi".toList = r.UniversalAqi.map Json.bool := by
  unfold marshalCurrentConditionsRequest at h
  split at h
  · cases h
  · injection h with h
    refine ⟨_, h.symm, ?_⟩
    simp only [List.append_assoc]
    rw [lookup_append_skip _ [_] _ (by simp),
      lookup_append_skip _ _ _ (fun kv hkv => by rw [mem_omitEmptyList _ _ kv hkv]; decide),
      lookup_append_skip _ _ _ (fun kv hkv => by rw [mem_omitEmptyString _ _ kv hkv]; decide),
      lookup_append_skip _ _ _ (fun kv hkv => by rw [mem_omitEmptyList _ _ kv hkv]; decide)]
    exact lookup_universalAqi _ _

theorem marshalForecastRequest_universalAqi
    (jsonFloat : Float64 → Except GoString GoString) (r : ForecastRequest) (j : Json)
    (h : marshalForecastRequest jsonFloat r = .ok j) :
    ∃ members, j = .obj members
      ∧ members.lookup "universalAqi".toList = r.UniversalAqi.map Json.bool := by
  unfold marshalForecastRequest at h
  split at h
  · cases h
  · injection h with h
    refine ⟨_, h.symm, ?_⟩
    simp only [List.append_assoc]
    rw [lookup_append_skip _ [_] _ (by simp),
      lookup_append_skip _ _ _ (fun kv hkv => by rw [mem_omitEmptyList _ _ kv hkv]; decide),
      lookup_append_skip _ _ _ (fun kv hkv => by rw [mem_omitEmptyString _ _ kv hkv]; decide),
      lookup_append_skip _ _ _ (fun kv hkv => by rw [mem_omitEmptyList _ _ kv hkv]; decide),
      lookup_append_skip _ _ _ (fun kv hkv => by rw [mem_omitEmptyInt _ _ kv hkv]; decide),
      lookup_append_skip _ _ _ (fun kv hkv => by rw [mem_omitEmptyString _ _ kv hkv]; decide),
      lookup_append_skip _ _ _ (fun kv hkv => by rw [mem_omitEmptyString _ _ kv hkv]; decide),
      lookup_append_skip _ _ _ (fun kv hkv => by rw [mem_omitEmptyInterval _ _ kv hkv]; decide)]
    exact lookup_universalAqi _ _

theorem marshalHistoryRequest_universalAqi
    (jsonFloat : Float64 → Except GoString GoString) (r : HistoryRequest) (j : Json)
    (h : marshalHistoryRequest jsonFloat r = .ok j) :
    ∃ members, j = .obj members
      ∧ members.lookup "universalAqi".toList = r.UniversalAqi.map Json.bool := by
  unfold marshalHistoryRequest at h
  split at h
  · cases h
  · injection h with h
    refine ⟨_, h.symm, ?_⟩
    simp only [List.append_assoc]
    rw [lookup_append_skip _ _ _ (fun kv hkv => by rw [mem_omitEmptyInt _ _ kv hkv]; decide),
      lookup_append_skip _ _ _ (fun kv hkv => by rw [mem_omitEmptyString _ _ kv hkv]; decide),
      lookup_append_skip _ [_] _ (by simp),
      lookup_append_skip _ _ _ (fun kv hkv => by rw [mem_omitEmptyList _ _ kv hkv]; decide),
      lookup_append_skip _ _ _ (fun kv hkv => by rw [mem_omitEmptyString _ _ kv hkv]; decide),
      lookup_append_skip _ _ _ (fun kv hkv => by rw [mem_omitEmptyList _ _ kv hkv]; decide),
      lookup_append_skip _ _ _ (fun kv hkv => by rw [mem_omitEmptyString _ _ kv hkv]; decide),
      lookup_append_skip _ _ _ (fun kv hkv => by rw [mem_omitEmptyInt _ _ kv hkv]; decide),
      lookup_append_skip _ _ _ (fun kv hkv => by rw [mem_omitEmptyInterval _ _ kv hkv]; decide)]
    exact lookup_universalAqi _ _

end json

/-- The requests that a POST of a body sends hold that body. -/
theorem doPostRequest_body {α : Type} (env : Env) (c : Client) (url : GoString)
    (reqBody : Except GoString Json) (unmarshal : Bytes → Except GoString α) :
    ∀ q ∈ (c.doPostRequest env url reqBody unmarshal).2,
      ∃ j, reqBody = .ok j ∧ q.Body = some j := by
  intro q hq
  rcases doPostRequest_http env c url reqBody unmarshal with h | ⟨j, hj, _, h⟩
  · rw [h] at hq
    cases hq
  · rw [h, List.mem_singleton] at hq
    exact ⟨j, hj, by rw [hq]⟩

/-! ## The tri-state of `universalAqi` -/

/-- What the current conditions tool calls and sends: nothing when the
arguments do not decode, else the request built from the input. -/
theorem NewCurrentConditionsHandler_sends (env : Env) (apiKey : GoString)
    (request : CallToolRequest) :
    ((NewCurrentConditionsHandler env apiKey request).calls = []
      ∧ (NewCurrentConditionsHandler env apiKey request).http = [])
    ∨ ∃ input, parseInput (CurrentConditionsInput.Unmarshal env) {} request.Arguments = .ok input
      ∧ (NewCurrentConditionsHandler env apiKey request).calls
        = [.GetCurrentConditions input.request]
      ∧ (NewCurrentConditionsHandler env apiKey request).http
        = ((NewClient apiKey).GetCurrentConditions env input.request).2 := by
  unfold NewCurrentConditionsHandler
  split
  · exact Or.inl ⟨rfl, rfl⟩
  · rename_i input hin
    refine Or.inr ⟨input, hin, ?_, ?_⟩
    · dsimp only
      split
      · rfl
      · split <;> rfl
    · dsimp only
      split
      · rfl
      · split <;> rfl

theorem NewForecastHandler_sends (env : Env) (apiKey : GoString) (request : CallToolRequest) :
    ((NewForecastHandler env apiKey request).calls = []
      ∧ (NewForecastHandler env apiKey request).http = [])
    ∨ ∃ input, parseInput (ForecastInput.Unmarshal env) {} request.Arguments = .ok input
      ∧ (NewForecastHandler env apiKey request).calls = [.GetForecast input.request]
      ∧ (NewForecastHandler env apiKey request).http
        = ((NewClient apiKey).GetForecast env input.request).2 := by
  unfold NewForecastHandler
  split
  · exact Or.inl ⟨rfl, rfl⟩
  · rename_i input hin
    refine Or.inr ⟨input, hin, ?_, ?_⟩
    · dsimp only
      split
      · rfl
      · split <;> rfl
    · dsimp only
      split
      · rfl
      · split <;> rfl

theorem NewHistoryHandler_sends (env : Env) (apiKey : GoString) (request : CallToolRequest) :
    ((NewHistoryHandler env apiKey request).calls = []
      ∧ (NewHistoryHandler env apiKey request).http = [])
    ∨ ∃ input, parseInput (HistoryInput.Unmarshal env) {} request.Arguments = .ok input
      ∧ (NewHistoryHandler env apiKey request).calls = [.GetHistory input.request]
      ∧ (NewHistoryHandler env apiKey request).http
        = ((NewClient apiKey).GetHistory env input.request).2 := by
  unfold NewHistoryHandler
  split
  · exact Or.inl ⟨rfl, rfl⟩
  · rename_i input hin
    refine Or.inr ⟨input, hin, ?_, ?_⟩
    · dsimp only
      split
      · rfl
      · split <;> rfl
    · dsimp only
      split
      · rfl
      · split <;> rfl

/-- The `universalAqi` of the decoded input is what the caller passed. -/
theorem CurrentConditionsInput_UniversalAqi (env : Env) (request : CallToolRequest)
    (input : CurrentConditionsInput) (u : Option Bool)
    (hdec : parseInput (CurrentConditionsInput.Unmarshal env) {} request.Arguments = .ok input)
    (hu : request.boolArgument "universalAqi".toList u) : input.UniversalAqi = u := by
  have h := parseInput_field "tools.CurrentConditionsInput".toList CurrentConditionsInput.fields
    (CurrentConditionsInput.store env) (fun i => i.UniversalAqi) "universalAqi".toList
    (CurrentConditionsInput_store_UniversalAqi env) (by decide) {} input request hdec
  cases u with
  | none => exact h.1 hu
  | some b =>
    refine h.2 (.bool b) (some b) (fun a => ?_) hu
    unfold CurrentConditionsInput.store
    rw [if_neg (by decide), if_neg (by decide), if_neg (by decide), if_neg (by decide),
      if_pos rfl]
    rfl

theorem ForecastInput_UniversalAqi (env : Env) (request : CallToolRequest)
    (input : ForecastInput) (u : Option Bool)
    (hdec : parseInput (ForecastInput.Unmarshal env) {} request.Arguments = .ok input)
    (hu : request.boolArgument "universalAqi".toList u) : input.UniversalAqi = u := by
  have h := parseInput_field "tools.ForecastInput".toList ForecastInput.fields
    (ForecastInput.store env) (fun i => i.UniversalAqi) "universalAqi".toList
    (ForecastInput_store_UniversalAqi env) (by decide) {} input request hdec
  cases u with
  | none => exact h.1 hu
  | some b =>
    refine h.2 (.bool b) (some b) (fun a => ?_) hu
    unfold ForecastInput.store
    rw [if_neg (by decide), if_neg (by decide), if_neg (by decide), if_neg (by decide),
      if_neg (by decide), if_neg (by decide), if_pos rfl]
    rfl

theorem HistoryInput_UniversalAqi (env : Env) (request : CallToolRequest)
    (input : HistoryInput) (u : Option Bool)
    (hdec : parseInput (HistoryInput.Unmarshal env) {} request.Arguments = .ok input)
    (hu : request.boolArgument "universalAqi".toList u) : input.UniversalAqi = u := by
  have h := parseInput_field "tools.HistoryInput".toList HistoryInput.fields
    (HistoryInput.store env) (fun i => i.UniversalAqi) "universalAqi".toList
    (HistoryInput_store_UniversalAqi env) (by decide) {} input request hdec
  cases u with
  | none => exact h.1 hu
  | some b =>
    refine h.2 (.bool b) (some b) (fun a => ?_) hu
    unfold HistoryInput.store
    rw [if_neg (by decide), if_neg (by decide), if_neg (by decide), if_neg (by decide),
      if_neg (by decide), if_neg (by decide), if_pos rfl]
    rfl

/-- C24: let the caller of a location tool pass for `universalAqi` nothing,
`false` or `true`. Then every provider call of the handler carries a request
whose `UniversalAqi` is unset, set to false or set to true accordingly, and
every body sent has no `universalAqi` member, the member `false` or the
member `true` accordingly. When the arguments decode, there is one provider
call. Unset and false differ throughout. -/
theorem C24_universalAqi_keeps_its_three_states (env : Env) (apiKey : GoString)
    (request : CallToolRequest) (u : Option Bool)
    (hu : request.boolArgument "universalAqi".toList u) :
    (NewCurrentConditionsHandler env apiKey request).sendsUniversalAqi u
    ∧ (NewForecastHandler env apiKey request).sendsUniversalAqi u
    ∧ (NewHistoryHandler env apiKey request).sendsUniversalAqi u
    ∧ (∀ input, parseInput (CurrentConditionsInput.Unmarshal env) {} request.Arguments
          = .ok input →
        (NewCurrentConditionsHandler env apiKey request).calls
          = [.GetCurrentConditions input.request] ∧ input.request.UniversalAqi = u)
    ∧ (∀ input, parseInput (ForecastInput.Unmarshal env) {} request.Arguments = .ok input →
        (NewForecastHandler env apiKey request).calls = [.GetForecast input.request]
          ∧ input.request.UniversalAqi = u)
    ∧ (∀ input, parseInput (HistoryInput.Unmarshal env) {} request.Arguments = .ok input →
        (NewHistoryHandler env apiKey request).calls = [.GetHistory input.request]
          ∧ input.request.UniversalAqi = u) := by
  refine ⟨?_, ?_, ?_, ?_, ?_, ?_⟩
  · rcases NewCurrentConditionsHandler_sends env apiKey request with ⟨hc, hh⟩ | ⟨input, hdec, hc, hh⟩
    · exact ⟨fun c h => (by rw [hc] at h; cases h), fun q h => (by rw [hh] at h; cases h)⟩
    · have hin := CurrentConditionsInput_UniversalAqi env request input u hdec hu
      refine ⟨fun c h => ?_, fun q h => ?_⟩
      · rw [hc, List.mem_singleton] at h
        rw [h, ← hin]
        rfl
      · rw [hh] at h
        unfold Client.GetCurrentConditions at h
        obtain ⟨j, hj, hb⟩ := doPostRequest_body env _ _ _ _ q h
        obtain ⟨members, hm, hl⟩ :=
          json.marshalCurrentConditionsRequest_universalAqi _ _ j hj
        exact ⟨members, by rw [hb, hm], by rw [hl, ← hin]; rfl⟩
  · rcases NewForecastHandler_sends env apiKey request with ⟨hc, hh⟩ | ⟨input, hdec, hc, hh⟩
    · exact ⟨fun c h => (by rw [hc] at h; cases h), fun q h => (by rw [hh] at h; cases h)⟩
    · have hin := ForecastInput_UniversalAqi env request input u hdec hu
      refine ⟨fun c h => ?_, fun q h => ?_⟩
      · rw [hc, List.mem_singleton] at h
        rw [h, ← hin]
        rfl
      · rw [hh] at h
        unfold Client.GetForecast at h
        obtain ⟨j, hj, hb⟩ := doPostRequest_body env _ _ _ _ q h
        obtain ⟨members, hm, hl⟩ := json.marshalForecastRequest_universalAqi _ _ j hj
        exact ⟨members, by rw [hb, hm], by rw [hl, ← hin]; rfl⟩
  · rcases NewHistoryHandler_sends env apiKey request with ⟨hc, hh⟩ | ⟨input, hdec, hc, hh⟩
    · exact ⟨fun c h => (by rw [hc] at h; cases h), fun q h => (by rw [hh] at h; cases h)⟩
    · have hin := HistoryInput_UniversalAqi env request input u hdec hu
      refine ⟨fun c h => ?_, fun q h => ?_⟩
      · rw [hc, List.mem_singleton] at h
        rw [h, ← hin]
        rfl
      · rw [hh] at h
        unfold Client.GetHistory at h
        obtain ⟨j, hj, hb⟩ := doPostRequest_body env _ _ _ _ q h
        obtain ⟨members, hm, hl⟩ := json.marshalHistoryRequest_universalAqi _ _ j hj
        exact ⟨members, by rw [hb, hm], by rw [hl, ← hin]; rfl⟩
  · intro input hdec
    exact ⟨NewCurrentConditionsHandler_calls env apiKey request input hdec,
      CurrentConditionsInput_UniversalAqi env request input u hdec hu⟩
  · intro input hdec
    exact ⟨NewForecastHandler_calls env apiKey request input hdec,
      ForecastInput_UniversalAqi env request input u hdec hu⟩
  · intro input hdec
    exact ⟨NewHistoryHandler_calls env apiKey request input hdec,
      HistoryInput_UniversalAqi env request input u hdec hu⟩

/-- C24 on the arguments `{"latitude": 1, "longitude": 2, "universalAqi":
false}`: the one call of the current conditions tool has `UniversalAqi` set
to false, and the body sent holds `"universalAqi": false`. -/
theorem C24_universalAqi_keeps_its_three_states_witness :
    (NewCurrentConditionsHandler exampleEnv "KEY".toList
        ⟨some (.ok universalAqiFalseArguments)⟩).calls
      = [.GetCurrentConditions
          { Location := ⟨⟨1⟩, ⟨2⟩⟩, UniversalAqi := some false }]
    ∧ (NewCurrentConditionsHandler exampleEnv "KEY".toList
        ⟨some (.ok universalAqiFalseArguments)⟩).http.map (fun q => q.Body)
      = [some (.obj [("location".toList,
            .obj [("latitude".toList, .num "1".toList), ("longitude".toList, .num "2".toList)]),
          ("universalAqi".toList, .bool false)])]
    ∧ (NewCurrentConditionsHandler exampleEnv "KEY".toList
        ⟨some (.ok universalAqiFalseArguments)⟩).sendsUniversalAqi (some false) :=
  ⟨by decide, rfl,
    (C24_universalAqi_keeps_its_three_states exampleEnv "KEY".toList
      ⟨some (.ok universalAqiFalseArguments)⟩ (some false)
      ⟨[("latitude".toList, .num "1".toList), ("longitude".toList, .num "2".toList)], [],
        rfl, fun _ h => by cases h⟩).1⟩

/-! ## The period of the forecast and history requests -/

/-- The period bounds of the decoded forecast input are what the caller
passed. -/
theorem ForecastInput_period (env : Env) (request : CallToolRequest) (input : ForecastInput)
    (s t : GoString)
    (hdec : parseInput (ForecastInput.Unmarshal env) {} request.Arguments = .ok input)
    (hs : request.stringArgument "periodStartTime".toList s)
    (ht : request.stringArgument "periodEndTime".toList t) :
    input.PeriodStartTime = s ∧ input.PeriodEndTime = t := by
  have h1 := parseInput_field "tools.ForecastInput".toList ForecastInput.fields
    (ForecastInput.store env) (fun i => i.PeriodStartTime) "periodStartTime".toList
    (ForecastInput_store_PeriodStartTime env) (by decide) {} input request hdec
  have h2 := parseInput_field "tools.ForecastInput".toList ForecastInput.fields
    (ForecastInput.store env) (fun i => i.PeriodEndTime) "periodEndTime".toList
    (ForecastInput_store_PeriodEndTime env) (by decide) {} input request hdec
  constructor
  · rcases hs with hs | ⟨hs, ho⟩
    · refine h1.2 (.str s) s (fun a => ?_) hs
      unfold ForecastInput.store
      rw [if_neg (by decide), if_neg (by decide), if_neg (by decide), if_neg (by decide),
        if_neg (by decide), if_neg (by decide), if_neg (by decide), if_neg (by decide),
        if_neg (by decide), if_pos rfl]
      rfl
    · rw [hs]
      exact h1.1 ho
  · rcases ht with ht | ⟨ht, ho⟩
    · refine h2.2 (.str t) t (fun a => ?_) ht
      unfold ForecastInput.store
      rw [if_neg (by decide), if_neg (by decide), if_neg (by decide), if_neg (by decide),
        if_neg (by decide), if_neg (by decide), if_neg (by decide), if_neg (by decide),
        if_neg (by decide), if_neg (by decide), if_pos rfl]
      rfl
    · rw [ht]
      exact h2.1 ho

/-- The period bounds of the decoded history input are what the caller
passed. -/
theorem HistoryInput_period (env : Env) (request : CallToolRequest) (input : HistoryInput)
    (s t : GoString)
    (hdec : parseInput (HistoryInput.Unmarshal env) {} request.Arguments = .ok input)
    (hs : request.stringArgument "periodStartTime".toList s)
    (ht : request.stringArgument "periodEndTime".toList t) :
    input.PeriodStartTime = s ∧ input.PeriodEndTime = t := by
  have h1 := parseInput_field "tools.HistoryInput".toList HistoryInput.fields
    (HistoryInput.store env) (fun i => i.PeriodStartTime) "periodStartTime".toList
    (HistoryInput_store_PeriodStartTime env) (by decide) {} input request hdec
  have h2 := parseInput_field "tools.HistoryInput".toList HistoryInput.fields
    (HistoryInput.store env) (fun i => i.PeriodEndTime) "periodEndTime".toList
    (HistoryInput_store_PeriodEndTime env) (by decide) {} input request hdec
  constructor
  · rcases hs with hs | ⟨hs, ho⟩
    · refine h1.2 (.str s) s (fun a => ?_) hs
      unfold HistoryInput.store
      rw [if_neg (by decide), if_neg (by decide), if_neg (by decide), if_neg (by decide),
        if_neg (by decide), if_neg (by decide), if_neg (by decide), if_neg (by decide),
        if_neg (by decide), if_neg (by decide), if_pos rfl]
      rfl
    · rw [hs]
      exact h1.1 ho
  · rcases ht with ht | ⟨ht, ho⟩
    · refine h2.2 (.str t) t (fun a => ?_) ht
      unfold HistoryInput.store
      rw [if_neg (by decide), if_neg (by decide), if_neg (by decide), if_neg (by decide),
        if_neg (by decide), if_neg (by decide), if_neg (by decide), if_neg (by decide),
        if_neg (by decide), if_neg (by decide), if_neg (by decide), if_pos rfl]
      rfl
    · rw [ht]
      exact h2.1 ho

/-- The period built from two bounds. -/
theorem period_of_bounds (s t : GoString) :
    (if s ≠ [] ∨ t ≠ [] then some ({ StartTime := s, EndTime := t } : Interval) else none)
      = if s = [] ∧ t = [] then none else some { StartTime := s, EndTime := t } := by
  by_cases hs : s = [] <;> by_cases ht : t = [] <;> simp [hs, ht]

/-- C26: let the caller of the forecast or of the history tool pass the texts
`s` and `t` for `periodStartTime` and `periodEndTime`, where an omitted
argument counts as the empty text. Then in every provider call of the handler
the request has no `Period` when both `s` and `t` are empty, and else the
`Period` with `StartTime = s` and `EndTime = t`; and when the arguments
decode there is one provider call, with the request built from the input. -/
theorem C26_period_present_unless_both_bounds_empty (env : Env) (apiKey : GoString)
    (request : CallToolRequest) (s t : GoString)
    (hs : request.stringArgument "periodStartTime".toList s)
    (ht : request.stringArgument "periodEndTime".toList t) :
    (∀ c ∈ (NewForecastHandler env apiKey request).calls,
      c.Period = some (if s = [] ∧ t = [] then none else some { StartTime := s, EndTime := t }))
    ∧ (∀ c ∈ (NewHistoryHandler env apiKey request).calls,
      c.Period = some (if s = [] ∧ t = [] then none else some { StartTime := s, EndTime := t }))
    ∧ (∀ input, parseInput (ForecastInput.Unmarshal env) {} request.Arguments = .ok input →
      (NewForecastHandler env apiKey request).calls = [.GetForecast input.request]
      ∧ (input.request.Period = none ↔ s = [] ∧ t = [])
      ∧ (s ≠ [] ∨ t ≠ [] → input.request.Period = some { StartTime := s, EndTime := t }))
    ∧ (∀ input, parseInput (HistoryInput.Unmarshal env) {} request.Arguments = .ok input →
      (NewHistoryHandler env apiKey request).calls = [.GetHistory input.request]
      ∧ (input.request.Period = none ↔ s = [] ∧ t = [])
      ∧ (s ≠ [] ∨ t ≠ [] → input.request.Period = some { StartTime := s, EndTime := t })) := by
  have hf : ∀ input, parseInput (ForecastInput.Unmarshal env) {} request.Arguments = .ok input →
      input.request.Period
        = if s = [] ∧ t = [] then none else some { StartTime := s, EndTime := t } := by
    intro input hdec
    obtain ⟨h1, h2⟩ := ForecastInput_period env request input s t hdec hs ht
    simp only [ForecastInput.request, h1, h2]
    exact period_of_bounds s t
  have hh : ∀ input, parseInput (HistoryInput.Unmarshal env) {} request.Arguments = .ok input →
      input.request.Period
        = if s = [] ∧ t = [] then none else some { StartTime := s, EndTime := t } := by
    intro input hdec
    obtain ⟨h1, h2⟩ := HistoryInput_period env request input s t hdec hs ht
    simp only [HistoryInput.request, h1, h2]
    exact period_of_bounds s t
  refine ⟨?_, ?_, ?_, ?_⟩
  · rcases NewForecastHandler_sends env apiKey request with ⟨hc, _⟩ | ⟨input, hdec, hc, _⟩
    · intro c h
      rw [hc] at h
      cases h
    · intro c h
      rw [hc, List.mem_singleton] at h
      rw [h, ← hf input hdec]
      rfl
  · rcases NewHistoryHandler_sends env apiKey request with ⟨hc, _⟩ | ⟨input, hdec, hc, _⟩
    · intro c h
      rw [hc] at h
      cases h
    · intro c h
      rw [hc, List.mem_singleton] at h
      rw [h, ← hh input hdec]
      rfl
  · intro input hdec
    refine ⟨NewForecastHandler_calls env apiKey request input hdec, ?_, ?_⟩
    · rw [hf input hdec]
      by_cases hb : s = [] ∧ t = [] <;> simp [hb]
    · intro hne
      rw [hf input hdec, if_neg]
      rintro ⟨h1, h2⟩
      rcases hne with h | h
      · exact h h1
      · exact h h2
  · intro input hdec
    refine ⟨NewHistoryHandler_calls env apiKey request input hdec, ?_, ?_⟩
    · rw [hh input hdec]
      by_cases hb : s = [] ∧ t = [] <;> simp [hb]
    · intro hne
      rw [hh input hdec, if_neg]
      rintro ⟨h1, h2⟩
      rcases hne with h | h
      · exact h h1
      · exact h h2

/-- C26 on the arguments `{"latitude": 1, "longitude": 2, "periodStartTime":
"2024-05-01T00:00:00Z"}`, which omit the end: the one call of the forecast
tool carries the period with that start and an empty end. -/
theorem C26_period_present_unless_both_bounds_empty_witness :
    (NewForecastHandler exampleEnv "KEY".toList ⟨some (.ok periodStartArguments)⟩).calls
      = [.GetForecast
          { Location := ⟨⟨1⟩, ⟨2⟩⟩,
            Period := some { StartTime := "2024-05-01T00:00:00Z".toList, EndTime := [] } }]
    ∧ ∀ c ∈ (NewForecastHandler exampleEnv "KEY".toList
          ⟨some (.ok periodStartArguments)⟩).calls,
        c.Period = some (if "2024-05-01T00:00:00Z".toList = [] ∧ ([] : GoString) = [] then none
          else some { StartTime := "2024-05-01T00:00:00Z".toList, EndTime := [] }) :=
  ⟨by decide,
    (C26_period_present_unless_both_bounds_empty exampleEnv "KEY".toList
      ⟨some (.ok periodStartArguments)⟩ "2024-05-01T00:00:00Z".toList []
      (Or.inl ⟨[("latitude".toList, .num "1".toList), ("longitude".toList, .num "2".toList)],
        [], rfl, fun _ h => by cases h⟩)
      (Or.inr ⟨rfl, Or.inr (Or.inr ⟨_, rfl, by decide⟩)⟩)).1⟩


/-! ## What `RegisterAll` registers -/

/-- The tools of the composed registration are the four that
`tools.RegisterAll` adds, in turn. -/
theorem RegisterAll_tools (lookupEnv : GoString → Option GoString) :
    (capabilities.RegisterAll lookupEnv Server.empty).tools.map (fun e => e.1.Name)
        = [CurrentConditionsToolName, ForecastToolName, HistoryToolName, HeatmapToolName]
    ∧ (capabilities.RegisterAll lookupEnv Server.empty).tools.map (fun e => e.1.InputSchema)
        = [CurrentConditionsToolSchema, ForecastToolSchema, HistoryToolSchema,
           HeatmapToolSchema] :=
  ⟨rfl, rfl⟩

/-- C22: the tools registered on an empty server are, by name, required
inputs and declared properties, the rows of the tool surface table, the
properties being the required inputs followed by the optional ones; the
properties of each schema are the JSON names of the fields of the input
struct of its tool; each schema is of type `object`; and the handler
registered under each name is the one that decodes into that struct. -/
theorem C22_tool_names_and_schemas (lookupEnv : GoString → Option GoString) :
    (capabilities.RegisterAll lookupEnv Server.empty).tools.map
        (fun e => (e.1.Name, schemaRequired e.1.InputSchema, schemaProperties e.1.InputSchema))
      = toolSurfaceTable.map (fun row => (row.1, row.2.1, row.2.1 ++ row.2.2))
    ∧ (capabilities.RegisterAll lookupEnv Server.empty).tools.map (fun e => e.1.Name)
      = ["get_current_air_quality".toList, "get_air_quality_forecast".toList,
         "get_air_quality_history".toList, "get_air_quality_heatmap_tile".toList]
    ∧ schemaProperties CurrentConditionsToolSchema = CurrentConditionsInput.fields
    ∧ schemaProperties ForecastToolSchema = ForecastInput.fields
    ∧ schemaProperties HistoryToolSchema = HistoryInput.fields
    ∧ schemaProperties HeatmapToolSchema = HeatmapInput.fields
    ∧ (capabilities.RegisterAll lookupEnv Server.empty).tools.map
        (fun e => schemaType e.1.InputSchema)
      = [some "object".toList, some "object".toList, some "object".toList,
         some "object".toList]
    ∧ ∀ env request,
      (capabilities.RegisterAll lookupEnv Server.empty).tools.map (fun e => e.2 env request)
        = [NewCurrentConditionsHandler env (config.LoadConfig lookupEnv).APIKey request,
           NewForecastHandler env (config.LoadConfig lookupEnv).APIKey request,
           NewHistoryHandler env (config.LoadConfig lookupEnv).APIKey request,
           NewHeatmapHandler env (config.LoadConfig lookupEnv).APIKey request] := by
  refine ⟨?_, ?_, by decide, by decide, by decide, by decide, ?_, fun _ _ => rfl⟩
  · have h : (capabilities.RegisterAll lookupEnv Server.empty).tools.map
        (fun e => (e.1.Name, schemaRequired e.1.InputSchema, schemaProperties e.1.InputSchema))
        = [(CurrentConditionsToolName, schemaRequired CurrentConditionsToolSchema,
              schemaProperties CurrentConditionsToolSchema),
           (ForecastToolName, schemaRequired ForecastToolSchema,
              schemaProperties ForecastToolSchema),
           (HistoryToolName, schemaRequired HistoryToolSchema,
              schemaProperties HistoryToolSchema),
           (HeatmapToolName, schemaRequired HeatmapToolSchema,
              schemaProperties HeatmapToolSchema)] := rfl
    rw [h]
    decide
  · exact (RegisterAll_tools lookupEnv).1
  · have h : (capabilities.RegisterAll lookupEnv Server.empty).tools.map
        (fun e => schemaType e.1.InputSchema)
        = [schemaType CurrentConditionsToolSchema, schemaType ForecastToolSchema,
           schemaType HistoryToolSchema, schemaType HeatmapToolSchema] := rfl
    rw [h]
    decide

set_option maxRecDepth 100000 in
/-- The text of the server information lists the URI templates of the four
air quality resources. -/
theorem serverInfo_lists_the_templates :
    "airquality://current/\x7blat\x7d,\x7blong\x7d".toList <:+: serverInfo
    ∧ "airquality://forecast/\x7blat\x7d,\x7blong\x7d".toList <:+: serverInfo
    ∧ "airquality://history/\x7blat\x7d,\x7blong\x7d".toList <:+: serverInfo
    ∧ "airquality://heatmap/\x7bmapType\x7d/\x7bzoom\x7d/\x7bx\x7d/\x7by\x7d".toList
        <:+: serverInfo := by
  decide

/-- C21 fails on the resources: on an empty server `RegisterAll` registers
four tools and five prompts but one resource only, `example://server-info`,
and no resource template. None of the four air quality resources is
registered, although the text of the server information lists their four URI
templates as available. -/
theorem C21_one_resource_is_registered (lookupEnv : GoString → Option GoString) :
    (capabilities.RegisterAll lookupEnv Server.empty).tools.length = 4
    ∧ (capabilities.RegisterAll lookupEnv Server.empty).prompts.map (fun e => e.1.Name)
      = ["air_quality_heatmap_prompt".toList, "current_air_quality_by_location_prompt".toList,
         "air_quality_forecast_by_location_prompt".toList,
         "air_quality_history_by_location_prompt".toList,
         "air_quality_heatmap_by_location_prompt".toList]
    ∧ (capabilities.RegisterAll lookupEnv Server.empty).prompts.length = 5
    ∧ (capabilities.RegisterAll lookupEnv Server.empty).resources.map (fun e => e.1.URI)
      = ["example://server-info".toList]
    ∧ (capabilities.RegisterAll lookupEnv Server.empty).resources.length = 1
    ∧ (capabilities.RegisterAll lookupEnv Server.empty).resourceTemplates.length = 0
    ∧ (∀ e ∈ (capabilities.RegisterAll lookupEnv Server.empty).resources,
        ¬ ("airquality://".toList <+: e.1.URI))
    ∧ "airquality://current/\x7blat\x7d,\x7blong\x7d".toList <:+: serverInfo
    ∧ "airquality://forecast/\x7blat\x7d,\x7blong\x7d".toList <:+: serverInfo
    ∧ "airquality://history/\x7blat\x7d,\x7blong\x7d".toList <:+: serverInfo
    ∧ "airquality://heatmap/\x7bmapType\x7d/\x7bzoom\x7d/\x7bx\x7d/\x7by\x7d".toList
        <:+: serverInfo := by
  have hr : (capabilities.RegisterAll lookupEnv Server.empty).resources.map (fun e => e.1.URI)
      = ["example://server-info".toList] := rfl
  refine ⟨rfl, rfl, rfl, hr, rfl, rfl, ?_, serverInfo_lists_the_templates⟩
  · intro e he
    have hm : e.1.URI ∈ (capabilities.RegisterAll lookupEnv Server.empty).resources.map
        (fun e => e.1.URI) := List.mem_map_of_mem _ he
    rw [hr, List.mem_singleton] at hm
    rw [hm]
    decide

end AirQuality
